import Mathlib

/-!
# ComprIAssist front end: a verification development

A shallow embedding of `src/frontend/js/main.js` (the backend-integrated
variant of the page script) and theorems about it.  Of the variant without
backend, `src/js/main.js`, the simulated `predictSentiment` and the
`typeWriter` that writes through `textContent` are embedded; the functions the
two variants share are cited with the lines of the first.

Conventions of the embedding:

* A DOM element is a record of the attributes the script reads or writes; a
  node list is a `List`, a node being identified by its position.  The page
  itself (`index.html`) is not part of the sources, so the elements a widget
  looks up are the fields of its state and every theorem holds for all of them.
* Markup assigned through `innerHTML` from a template is kept as a value with
  one field per hole of the template; markup that comes from outside (a
  message text, a button label) is kept as the string assigned.
* An `async` handler is split at its `await`: a `Start` function up to the
  request and a `Finish` function from the point where the `fetch` and
  `response.json()` have settled, whose outcome is an argument.  A function
  without suffix runs both with nothing in between.
* The body of a reply is a record of optional fields of the types the backend
  documents; `none` is a missing field (`undefined`).
* Numbers are IEEE-754 doubles, represented exactly as `sign * m * 2^e`;
  products, quotients and sums round to nearest, ties to even, and `toFixed`
  and `toString` print as ECMA-262 prescribes.

Definitions come first, theorems afterwards.
-/

set_option maxRecDepth 8192

namespace CompriAssist

/-! ## JavaScript numbers -/

/-- A JavaScript Number.  `fin neg m e` is the finite value `(-1)^neg * m * 2^e`
(`fin true 0 0` is `-0`). -/
inductive JSNum
  | nan
  | inf (neg : Bool)
  | fin (neg : Bool) (m : Nat) (e : Int)
  deriving DecidableEq, Repr

/-- The position of the leading bit: `⌊log₂ n⌋` for `n ≥ 1`, by repeated halving. -/
def floorLog2 (n : Nat) : Nat :=
  go n n
where
  go : Nat → Nat → Nat
    | 0, _ => 0
    | fuel + 1, k => if k < 2 then 0 else go fuel (k / 2) + 1

/-- Multiply by `2^e`, `e ≥ 0`, and by `1` otherwise. -/
def shiftUp (n : Nat) (e : Int) : Nat := n * 2 ^ e.toNat

/-- Round the positive rational `p / q` to the nearest IEEE-754 double, ties to
even.  The result is `none` on overflow, and otherwise a pair `(m, e)` of value
`m * 2^e` with `m ≤ 2^53` and `e ≥ -1074`. -/
def roundRat (p q : Nat) : Option (Nat × Int) :=
  let e0 : Int := (floorLog2 p : Int) - (floorLog2 q : Int)
  -- `2^binade ≤ p / q < 2^(binade + 1)`
  let binade : Int := if shiftUp q e0 ≤ shiftUp p (-e0) then e0 else e0 - 1
  let ulp : Int := max (binade - 52) (-1074)
  let num := shiftUp p (-ulp)
  let den := shiftUp q ulp
  let quo := num / den
  let rem := num % den
  let m := if 2 * rem > den ∨ (2 * rem = den ∧ quo % 2 = 1) then quo + 1 else quo
  if ulp > 971 ∨ (ulp = 971 ∧ m ≥ 2 ^ 53) then none else some (m, ulp)

/-- Round the exact value `m * 2^e` to a double. -/
def roundToDouble (m : Nat) (e : Int) : Option (Nat × Int) :=
  if m = 0 then some (0, 0) else roundRat (shiftUp m e) (shiftUp 1 (-e))

/-- `x * y` on Numbers. -/
def JSNum.mul : JSNum → JSNum → JSNum
  | .nan, _ => .nan
  | _, .nan => .nan
  | .inf a, .inf b => .inf (xor a b)
  | .inf a, .fin b m _ => if m = 0 then .nan else .inf (xor a b)
  | .fin a m _, .inf b => if m = 0 then .nan else .inf (xor a b)
  | .fin a m e, .fin b n f =>
    match roundToDouble (m * n) (e + f) with
    | none => .inf (xor a b)
    | some (r, g) => .fin (xor a b) r g

/-- The Number of a natural number literal such as `100`. -/
def JSNum.ofNat (n : Nat) : JSNum :=
  match roundToDouble n 0 with
  | none => .inf false
  | some (r, g) => .fin false r g

/-- The decimal exponent `n` of a positive rational: `10^(n-1) ≤ p / q < 10^n`. -/
def decimalExponent (p q : Nat) : Int :=
  if q ≤ p then ((Nat.toDigits 10 (p / q)).length : Int)
  else 1 - (((List.range 400).find? (fun j => decide (q ≤ p * 10 ^ j))).getD 0 : Int)

/-- Two `(m, e)` pairs denote the same value. -/
def sameValue (a b : Nat × Int) : Bool :=
  decide (shiftUp a.1 (a.2 - min a.2 b.2) = shiftUp b.1 (b.2 - min a.2 b.2))

/-- The digits `s` and the exponent `n` of Number::toString for the positive
double `m * 2^e`: the fewest digits that read back as the same double, the
nearest such value first (the even one of two equally near); `s * 10^(n - k)` with `k` the number of digits. -/
def shortestDigits (m : Nat) (e : Int) : List Char × Int :=
  let p := shiftUp m e
  let q := shiftUp 1 (-e)
  let n := decimalExponent p q
  let found := (List.range 17).findSome? (fun i =>
    let t : Int := n - (i + 1)
    -- `p / q = (num / den) * 10^t`
    let num := p * 10 ^ (-t).toNat
    let den := q * 10 ^ t.toNat
    let lo := num / den
    let hi := lo + 1
    let near :=
      if 2 * num < (lo + hi) * den ∨ (2 * num = (lo + hi) * den ∧ lo % 2 = 0) then [lo, hi]
      else [hi, lo]
    (near.find? (fun c =>
      match roundRat (c * 10 ^ t.toNat) (10 ^ (-t).toNat), roundToDouble m e with
      | some a, some b => c ≠ 0 && sameValue a b
      | _, _ => false)).map (fun c => (c, t)))
  match found with
  | none => (['0'], 1)
  | some (c, t) =>
    let ds := Nat.toDigits 10 c
    ((ds.reverse.dropWhile (fun d => d == '0')).reverse, (ds.length : Int) + t)

/-- Number::toString, radix 10. -/
def JSNum.toString : JSNum → String
  | .nan => "NaN"
  | .inf neg => if neg then "-Infinity" else "Infinity"
  | .fin neg m e =>
    if m = 0 then "0" else
    let (s, n) := shortestDigits m e
    let k : Int := s.length
    let body : List Char :=
      if k ≤ n ∧ n ≤ 21 then s ++ List.replicate (n - k).toNat '0'
      else if 0 < n ∧ n ≤ 21 then s.take n.toNat ++ '.' :: s.drop n.toNat
      else if -6 < n ∧ n ≤ 0 then '0' :: '.' :: List.replicate (-n).toNat '0' ++ s
      else
        let ex := (if n - 1 < 0 then "e-" else "e+").data ++ Nat.toDigits 10 (n - 1).natAbs
        match s with
        | [] => ex
        | [d] => d :: ex
        | d :: rest => d :: '.' :: rest ++ ex
    String.mk ((if neg then ['-'] else []) ++ body)

/-- `x.toFixed(1)`. -/
def JSNum.toFixed1 : JSNum → String
  | .nan => "NaN"
  | .inf neg => if neg then "-Infinity" else "Infinity"
  | .fin neg m e =>
    let sign := if neg ∧ m ≠ 0 then "-" else ""
    if shiftUp 1 (-e) * 10 ^ 21 ≤ shiftUp m e then sign ++ JSNum.toString (.fin false m e) else
    -- the integer `n` nearest to `10 * |x|`, the larger one on a tie
    let n := (20 * shiftUp m e + shiftUp 1 (-e)) / (2 * shiftUp 1 (-e))
    sign ++ Nat.repr (n / 10) ++ "." ++ Nat.repr (n % 10)


/-- ToNumber of a value that may be `undefined`. -/
def JSNum.ofOption : Option JSNum → JSNum
  | none => .nan
  | some x => x

/-- ToBoolean of a Number: `NaN`, `0` and `-0` are falsy. -/
def JSNum.truthy : JSNum → Bool
  | .nan => false
  | .inf _ => true
  | .fin _ m _ => decide (m ≠ 0)

/-- The expression `(v * 100).toFixed(1)`. -/
def percentText (v : Option JSNum) : String :=
  ((JSNum.ofOption v).mul (JSNum.ofNat 100)).toFixed1

/-- The Number of an integer, as `parseInt` returns it. -/
def JSNum.ofInt (z : Int) : JSNum :=
  match roundToDouble z.natAbs 0 with
  | none => .inf (decide (z < 0))
  | some (r, g) => .fin (decide (z < 0)) r g

/-- `x + y` on Numbers: the exact sum, rounded. -/
def JSNum.add : JSNum → JSNum → JSNum
  | .nan, _ => .nan
  | _, .nan => .nan
  | .inf a, .inf b => if a = b then .inf a else .nan
  | .inf a, .fin _ _ _ => .inf a
  | .fin _ _ _, .inf b => .inf b
  | .fin a m e, .fin b n f =>
    let g := min e f
    let x : Int := if a then -(shiftUp m (e - g) : Int) else (shiftUp m (e - g) : Int)
    let y : Int := if b then -(shiftUp n (f - g) : Int) else (shiftUp n (f - g) : Int)
    let s := x + y
    if s = 0 then .fin (a && b) 0 0
    else
      match roundToDouble s.natAbs g with
      | none => .inf (decide (s < 0))
      | some (r, h) => .fin (decide (s < 0)) r h

/-- `x / y` on Numbers: the exact quotient, rounded. -/
def JSNum.div : JSNum → JSNum → JSNum
  | .nan, _ => .nan
  | _, .nan => .nan
  | .inf _, .inf _ => .nan
  | .inf a, .fin b _ _ => .inf (xor a b)
  | .fin a _ _, .inf b => .fin (xor a b) 0 0
  | .fin a m e, .fin b n f =>
    if n = 0 then (if m = 0 then .nan else .inf (xor a b))
    else if m = 0 then .fin (xor a b) 0 0
    else
      match roundRat (shiftUp m (e - f)) (shiftUp n (f - e)) with
      | none => .inf (xor a b)
      | some (r, g) => .fin (xor a b) r g

/-- `x >= y` on Numbers; `false` when one of them is `NaN`. -/
def JSNum.ge : JSNum → JSNum → Bool
  | .nan, _ => false
  | _, .nan => false
  | .inf a, .inf b => !a || b
  | .inf a, .fin _ _ _ => !a
  | .fin _ _ _, .inf b => b
  | .fin a m e, .fin b n f =>
    let g := min e f
    let x : Int := if a then -(shiftUp m (e - g) : Int) else (shiftUp m (e - g) : Int)
    let y : Int := if b then -(shiftUp n (f - g) : Int) else (shiftUp n (f - g) : Int)
    decide (y ≤ x)

/-- `Math.floor(x)`. -/
def JSNum.floor : JSNum → JSNum
  | .fin neg m e =>
    if 0 ≤ e then .fin neg m e
    else if neg then .fin true ((m + 2 ^ (-e).toNat - 1) / 2 ^ (-e).toNat) 0
    else .fin false (m / 2 ^ (-e).toNat) 0
  | x => x

/-- ToString of a Number, as `+` with a string applies it.  An integer below
`2^53` prints as its decimal numeral, which is what Number::toString gives for
it; every other Number goes through `JSNum.toString`. -/
def JSNum.text : JSNum → String
  | .fin neg m e =>
    if 0 ≤ e ∧ shiftUp m e < 2 ^ 53 then
      (if neg ∧ m ≠ 0 then "-" else "") ++ Nat.repr (shiftUp m e)
    else JSNum.toString (.fin neg m e)
  | x => JSNum.toString x

/-- The exact value of a finite Number; `0` for the others. -/
def JSNum.value : JSNum → ℚ
  | .fin neg m e => (if neg then -1 else 1) * (m : ℚ) * (2 : ℚ) ^ e
  | _ => 0

/-! ## JavaScript strings -/

/-- WhiteSpace and LineTerminator code points, the ones `String.prototype.trim`
strips. -/
def isJsWhitespace (c : Char) : Bool :=
  c.toNat ∈ [0x9, 0xA, 0xB, 0xC, 0xD, 0x20, 0xA0, 0x1680, 0x2028, 0x2029, 0x202F, 0x205F,
    0x3000, 0xFEFF] || (0x2000 ≤ c.toNat && c.toNat ≤ 0x200A)

/-- Drop the whitespace at both ends of a character list. -/
def trimChars (cs : List Char) : List Char :=
  ((cs.dropWhile isJsWhitespace).reverse.dropWhile isJsWhitespace).reverse

/-- `s.trim()`. -/
def jsTrim (s : String) : String := String.mk (trimChars s.data)

/-- The string is empty or holds whitespace only. -/
def isBlank (s : String) : Bool := s.data.all isJsWhitespace

/-- `s.replace(/\n/g, '<br>')`. -/
def replaceNewlines (s : String) : String :=
  String.mk (s.data.flatMap (fun c => if c = '\n' then "<br>".data else [c]))

/-- A value placed in a template literal: `undefined` prints as `undefined`. -/
def interpolate : Option String → String
  | none => "undefined"
  | some s => s

/-- `a || b` on strings, `none` standing for `null` or `undefined`: the empty
string is falsy. -/
def strOr (a : Option String) (b : String) : String :=
  match a with
  | some s => if s = "" then b else s
  | none => b

/-- `sub` occurs in `cs` as a contiguous run. -/
def hasInfix (sub : List Char) : List Char → Bool
  | [] => sub.isEmpty
  | c :: cs => sub.isPrefixOf (c :: cs) || hasInfix sub cs

/-- `s.includes(sub)`. -/
def jsIncludes (s sub : String) : Bool := hasInfix sub.data s.data

/-- `s.startsWith(p)`. -/
def jsStartsWith (s p : String) : Bool := p.data.isPrefixOf s.data

/-- Split a character list at every `sep`, as `String.prototype.split` does. -/
def splitChars (sep : Char) : List Char → List (List Char)
  | [] => [[]]
  | c :: cs =>
    if c = sep then [] :: splitChars sep cs
    else
      match splitChars sep cs with
      | [] => [[c]]
      | piece :: pieces => (c :: piece) :: pieces

/-- `items.join(sep)` for a separator of one character. -/
def jsJoin (sep : Char) (items : List String) : String :=
  String.mk ([sep].intercalate (items.map String.data))

/-- The UTF-16 code units of a character: one, or a surrogate pair. -/
def utf16Units (c : Char) : List Nat :=
  if c.toNat < 0x10000 then [c.toNat]
  else [0xD800 + (c.toNat - 0x10000) / 0x400, 0xDC00 + (c.toNat - 0x10000) % 0x400]

/-- The code units of a string, which `length` counts and `charAt` indexes. -/
def utf16 (s : String) : List Nat := s.data.flatMap utf16Units

/-! ## The text of an element -/

/-- How the `innerHTML` getter writes one code unit of a text node. -/
def escapeUnit (u : Nat) : List Nat :=
  if u = 0x26 then utf16 "&amp;"
  else if u = 0x3C then utf16 "&lt;"
  else if u = 0x3E then utf16 "&gt;"
  else if u = 0xA0 then utf16 "&nbsp;"
  else [u]

/-- The `innerHTML` getter of an element that holds the text `content` and
nothing else. -/
def serializeText (content : List Nat) : List Nat := content.flatMap escapeUnit

/-- An ASCII letter. -/
def isAsciiAlpha (u : Nat) : Bool := (0x41 ≤ u && u ≤ 0x5A) || (0x61 ≤ u && u ≤ 0x7A)

/-- An ASCII letter or digit. -/
def isAsciiAlphanumeric (u : Nat) : Bool := isAsciiAlpha u || (0x30 ≤ u && u ≤ 0x39)

/-- The HTML fragment parser on markup that holds text only, in the body of a
`p` element; the result is the text of the element.  A carriage return is read
as a line feed (one for `CR LF`), a `NUL` is dropped, the four references the
serialiser writes are decoded, and `&` and `<` are text where the tokenizer
makes them so: at the end of the markup or before a character that starts
neither a reference nor a tag.  Markup that holds a tag, a comment or another
character reference is not covered: the result is `none`. -/
def parseText : Nat → List Nat → Option (List Nat)
  | _, [] => some []
  | 0, _ :: _ => none
  | fuel + 1, u :: rest =>
    if u = 0x26 then
      if (utf16 "amp;").isPrefixOf rest then (parseText fuel (rest.drop 4)).map (fun t => 0x26 :: t)
      else if (utf16 "lt;").isPrefixOf rest then
        (parseText fuel (rest.drop 3)).map (fun t => 0x3C :: t)
      else if (utf16 "gt;").isPrefixOf rest then
        (parseText fuel (rest.drop 3)).map (fun t => 0x3E :: t)
      else if (utf16 "nbsp;").isPrefixOf rest then
        (parseText fuel (rest.drop 5)).map (fun t => 0xA0 :: t)
      else
        match rest with
        | [] => some [0x26]
        | v :: _ =>
          if isAsciiAlphanumeric v || v == 0x23 then none
          else (parseText fuel rest).map (fun t => 0x26 :: t)
    else if u = 0x3C then
      match rest with
      | [] => some [0x3C]
      | v :: _ =>
        if isAsciiAlpha v || v == 0x21 || v == 0x2F || v == 0x3F then none
        else (parseText fuel rest).map (fun t => 0x3C :: t)
    else if u = 0 then parseText fuel rest
    else if u = 0x0D then
      match rest with
      | 0x0A :: rest' => (parseText fuel rest').map (fun t => 0x0A :: t)
      | _ => (parseText fuel rest).map (fun t => 0x0A :: t)
    else (parseText fuel rest).map (fun t => u :: t)

/-- The `innerHTML` setter on markup that holds text only: the text the
element holds afterwards. -/
def setInnerHTML (html : List Nat) : Option (List Nat) := parseText html.length html

/-- What the fragment parser makes of one code unit of text. -/
def parsedUnit (u : Nat) : List Nat :=
  if u = 0x0D then [0x0A] else if u = 0 then [] else [u]

/-! ## DOM token lists -/

/-- `classList.add(c)`: a token list holds a token once; a new one goes last. -/
def classAdd (c : String) (cl : List String) : List String :=
  if c ∈ cl then cl else cl ++ [c]

/-- `classList.remove(c)`. -/
def classRemove (c : String) (cl : List String) : List String :=
  cl.filter (fun t => t != c)

/-- `classList.contains(c)`. -/
def hasClass (c : String) (cl : List String) : Bool :=
  cl.contains c

/-- Apply `f` to the node at position `i` of a node list, if there is one. -/
def modifyAt {α : Type} (f : α → α) : Nat → List α → List α
  | _, [] => []
  | 0, x :: xs => f x :: xs
  | n + 1, x :: xs => x :: modifyAt f n xs

/-! ## DemoTabs (main.js 140-163) -/

/-- A `.tab-button` element: `getAttribute('data-tab')` (`null` is `none`) and
its class list. -/
structure TabButton where
  dataTab : Option String
  classList : List String
  deriving DecidableEq, Repr

/-- A `.tab-pane` element: its `id` (the empty string when the attribute is
absent) and its class list. -/
structure TabPane where
  id : String
  classList : List String
  deriving DecidableEq, Repr

/-- The two node lists captured by the `DemoTabs` constructor. -/
structure DemoTabs where
  tabButtons : List TabButton
  tabPanes : List TabPane
  deriving DecidableEq, Repr

/-- `DemoTabs.switchTab(button)`, the clicked button being `tabButtons[i]`
(listeners are registered on the members of `tabButtons` only, so a position
outside the list receives no click). -/
def DemoTabs.switchTab (d : DemoTabs) (i : Nat) : DemoTabs :=
  match d.tabButtons[i]? with
  | none => d
  | some button =>
    let targetTab := button.dataTab
    let cleared := d.tabButtons.map
      (fun btn => { btn with classList := classRemove "active" btn.classList })
    let buttons := modifyAt
      (fun btn => { btn with classList := classAdd "active" btn.classList }) i cleared
    let panes := d.tabPanes.map (fun pane =>
      if some pane.id = targetTab then
        { pane with classList := classAdd "active" pane.classList }
      else
        { pane with classList := classRemove "active" pane.classList })
    { tabButtons := buttons, tabPanes := panes }

/-- A sequence of clicks, each on the button at the given position. -/
def DemoTabs.clicks (d : DemoTabs) (cs : List Nat) : DemoTabs :=
  cs.foldl DemoTabs.switchTab d

/-- The pane carries the `active` class. -/
def TabPane.isActive (p : TabPane) : Bool := hasClass "active" p.classList

/-- The button carries the `active` class. -/
def TabButton.isActive (b : TabButton) : Bool := hasClass "active" b.classList

/-- For a class token, which tab buttons and which tab panes carry it. -/
def DemoTabs.classFlags (d : DemoTabs) (c : String) : List Bool × List Bool :=
  (d.tabButtons.map (fun b => hasClass c b.classList),
    d.tabPanes.map (fun p => hasClass c p.classList))

/-- Which tab buttons and which tab panes are active. -/
def DemoTabs.activeFlags (d : DemoTabs) : List Bool × List Bool :=
  (d.tabButtons.map TabButton.isActive, d.tabPanes.map TabPane.isActive)

/-- A page with two tabs, the first one shown. -/
def demoPage : DemoTabs :=
  { tabButtons :=
      [⟨some "chatbot", ["tab-button", "active"]⟩, ⟨some "sentiment", ["tab-button"]⟩],
    tabPanes := [⟨"chatbot", ["tab-pane", "active"]⟩, ⟨"sentiment", ["tab-pane"]⟩] }

/-! ## What the asynchronous widgets share -/

/-- `CONFIG` (main.js 9-23), the fields the widgets read. -/
structure Config where
  API_BASE_URL : String
  scrollThreshold : Nat
  animationDuration : Nat
  typingSpeed : Nat
  deriving DecidableEq, Repr

/-- The `CONFIG` constant of the page script. -/
def CONFIG : Config :=
  { API_BASE_URL := "http://localhost:8000", scrollThreshold := 100,
    animationDuration := 300, typingSpeed := 50 }

/-- A `File` taken from a file input or a drop: its name and MIME type. -/
structure UploadFile where
  name : String
  type : String
  deriving DecidableEq, Repr

/-- The body of a request, one shape per endpoint (main.js 226-229, 342,
504-506, 612-618). -/
inductive Payload
  | chat (message : String) (user_id : String)
  | sentiment (text : String)
  | visual (file : UploadFile) (top_k : Nat)
  | generative (nombre_producto : String) (caracteristicas : List String)
      (categoria : String) (precio : JSNum) (temperatura : JSNum)
  deriving DecidableEq, Repr

/-- What a handler does to the world outside the elements it owns. -/
inductive Effect
  | alert (message : String)
  | focus (element : String)
  | focusLater (element : String) (delay : Nat)
  | fetch (url : String) (payload : Payload)
  | readAsDataURL (file : UploadFile)
  | consoleError (label : String)
  deriving DecidableEq, Repr

/-- The effect is a network request. -/
def Effect.isFetch : Effect → Bool
  | .fetch _ _ => true
  | _ => false

/-- The effect is an `alert` dialog. -/
def Effect.isAlert : Effect → Bool
  | .alert _ => true
  | _ => false

/-- How an awaited `fetch` followed by `response.json()` ends: the request
rejects, the status is not a success one, the body is not JSON, or the body
parses to `data`. -/
inductive FetchOutcome (β : Type)
  | networkError
  | badStatus
  | invalidJson
  | ok (data : β)
  deriving DecidableEq, Repr

/-- The outcome is one of the three failures. -/
def FetchOutcome.isFailure {β : Type} : FetchOutcome β → Bool
  | .ok _ => false
  | _ => true

/-- How a block of statements ends: normally, or by a thrown exception; either
way with the state its assignments have produced so far. -/
inductive Completion (σ : Type)
  | normal (st : σ)
  | thrown (st : σ)
  deriving DecidableEq, Repr

/-- An `async` handler up to its first `await`: it has returned without a
request (`rejected`), or it waits for a `fetch`, holding the locals `k`. -/
inductive Started (σ : Type) (κ : Type)
  | rejected (st : σ) (effects : List Effect)
  | pending (st : σ) (request : Effect) (k : κ)
  deriving DecidableEq, Repr

/-- The request a started handler waits for, if it waits for one. -/
def Started.request {σ κ : Type} : Started σ κ → Option Effect
  | .rejected _ _ => none
  | .pending _ request _ => some request

/-- A `<button>`: the `disabled` flag and the markup of its label. -/
structure Button where
  disabled : Bool
  innerHTML : String
  deriving DecidableEq, Repr

/-! ## FloatingChatbot (main.js 168-295) -/

/-- A child of `#chatMessages`: its `id` attribute if it has one, its class
name, and the markup assigned to its content (for a message, the `innerHTML`
of the inner `message-content` element). -/
structure ChatNode where
  id : Option String
  className : String
  content : String
  deriving DecidableEq, Repr

/-- A suggestion chip: its label and the text its `onclick` passes to
`sendMessage`. -/
structure Chip where
  textContent : String
  onclick : String
  deriving DecidableEq, Repr

/-- The chat widget: the `isOpen` field and the elements the constructor looks
up.  `suggestionsArea` is `none` when the page has no `#suggestionsArea`. -/
structure FloatingChatbot where
  isOpen : Bool
  widget : List String
  messagesArea : List ChatNode
  userInput : String
  suggestionsArea : Option (List Chip)
  deriving DecidableEq, Repr

/-- The body of a chat reply: `response` and `suggestions`, each of which may
be missing. -/
structure ChatResponse where
  response : Option String
  suggestions : Option (List String)
  deriving DecidableEq, Repr

/-- The text of the failure message of the chat (main.js 249). -/
def chatErrorText : String :=
  "Lo siento, no puedo conectarme con el servidor. Verifica que 'server.py' esté corriendo."

/-- `toggleChat()`. -/
def FloatingChatbot.toggleChat (st : FloatingChatbot) : FloatingChatbot × List Effect :=
  let st := { st with isOpen := !st.isOpen }
  if st.isOpen then
    ({ st with widget := classAdd "active" st.widget }, [.focusLater "userInput" 300])
  else
    ({ st with widget := classRemove "active" st.widget }, [])

/-- `addMessage(text, sender)`. -/
def FloatingChatbot.addMessage (st : FloatingChatbot) (text sender : String) :
    FloatingChatbot :=
  let messageDiv : ChatNode :=
    { id := none, className := "message " ++ sender ++ "-message", content := text }
  { st with messagesArea := st.messagesArea ++ [messageDiv] }

/-- `showLoading()`, `now` being the value of `Date.now()`; returns the id. -/
def FloatingChatbot.showLoading (st : FloatingChatbot) (now : Nat) :
    FloatingChatbot × String :=
  let id := "loading-" ++ Nat.repr now
  let div : ChatNode := { id := some id, className := "message bot-message", content := "..." }
  ({ st with messagesArea := st.messagesArea ++ [div] }, id)

/-- `removeLoading(id)`: `getElementById` finds the first element with the id,
the message area holding the only elements with a `loading-` id. -/
def FloatingChatbot.removeLoading (st : FloatingChatbot) (id : String) : FloatingChatbot :=
  { st with messagesArea := st.messagesArea.eraseP (fun el => el.id == some id) }

/-- `renderSuggestions(suggestions)`. -/
def FloatingChatbot.renderSuggestions (st : FloatingChatbot) (suggestions : List String) :
    FloatingChatbot :=
  match st.suggestionsArea with
  | none => st
  | some chips =>
    let added : List Chip := suggestions.map (fun sug => ⟨sug, sug⟩)
    { st with suggestionsArea := some (chips ++ added) }

/-- `sendMessage(text)` up to the `await` of line 223.  `text` is `none` for a
call without argument (send button, Enter key). -/
def FloatingChatbot.sendMessageStart (st : FloatingChatbot) (text : Option String)
    (now : Nat) : Started FloatingChatbot String :=
  let message := strOr text (jsTrim st.userInput)
  if message = "" then .rejected st []
  else
    let st := st.addMessage message "user"
    let st := { st with userInput := "" }
    let st := { st with suggestionsArea := st.suggestionsArea.map (fun _ => []) }
    let (st, loadingId) := st.showLoading now
    .pending st
      (.fetch (CONFIG.API_BASE_URL ++ "/api/chatbot/message") (.chat message "invitado_web"))
      loadingId

/-- The `try` block of `sendMessage` from the point where the `fetch` settles
(main.js 232-245). -/
def FloatingChatbot.sendMessageTry (st : FloatingChatbot) (loadingId : String)
    (outcome : FetchOutcome ChatResponse) : Completion FloatingChatbot :=
  match outcome with
  | .ok data =>
    let st := st.removeLoading loadingId
    match data.response with
    | none => .thrown st
    | some response =>
      let formattedResponse := replaceNewlines response
      let st := st.addMessage formattedResponse "bot"
      match data.suggestions with
      | some (sug :: rest) => .normal (st.renderSuggestions (sug :: rest))
      | _ => .normal st
  | _ => .thrown st

/-- The rest of `sendMessage` once the `fetch` has settled: the `try` block and
the `catch` block. -/
def FloatingChatbot.sendMessageFinish (st : FloatingChatbot) (loadingId : String)
    (outcome : FetchOutcome ChatResponse) : FloatingChatbot × List Effect :=
  match st.sendMessageTry loadingId outcome with
  | .normal st => (st, [])
  | .thrown st =>
    ((st.removeLoading loadingId).addMessage chatErrorText "bot", [.consoleError "error"])

/-- `sendMessage(text)` run from call to completion with nothing in between. -/
def FloatingChatbot.sendMessage (st : FloatingChatbot) (text : Option String) (now : Nat)
    (outcome : FetchOutcome ChatResponse) : FloatingChatbot × List Effect :=
  match st.sendMessageStart text now with
  | .rejected st effects => (st, effects)
  | .pending st request loadingId =>
    let (st, effects) := st.sendMessageFinish loadingId outcome
    (st, request :: effects)

/-- Activating the chip at position `j` of the suggestion area: its `onclick`
calls `sendMessage` with the chip's text. -/
def FloatingChatbot.clickChip (st : FloatingChatbot) (j : Nat) (now : Nat) :
    Started FloatingChatbot String :=
  match st.suggestionsArea.bind (fun chips => chips[j]?) with
  | none => .rejected st []
  | some chip => st.sendMessageStart (some chip.onclick) now

/-- No send is in flight: the message area holds no element with an id. -/
def FloatingChatbot.idle (st : FloatingChatbot) : Prop :=
  ∀ el ∈ st.messagesArea, el.id = none

/-! ## SentimentDemo (main.js 300-444) -/

/-- One value of `styleMap`. -/
structure StyleEntry where
  label : String
  icon : String
  color : String
  cls : String
  deriving DecidableEq, Repr

/-- The style of the keys `POS` and `positive`. -/
def positiveStyle : StyleEntry :=
  { label := "Positivo", icon := "fa-smile", color := "#10b981", cls := "fill-pos" }

/-- The style of the keys `NEU` and `neutral`. -/
def neutralStyle : StyleEntry :=
  { label := "Neutral", icon := "fa-meh", color := "#f59e0b", cls := "fill-neu" }

/-- The style of the keys `NEG` and `negative`. -/
def negativeStyle : StyleEntry :=
  { label := "Negativo", icon := "fa-frown", color := "#ef4444", cls := "fill-neg" }

/-- The own properties of the object literal `styleMap` (main.js 379-386). -/
def styleMap : List (String × StyleEntry) :=
  [("POS", positiveStyle), ("positive", positiveStyle), ("NEU", neutralStyle),
   ("neutral", neutralStyle), ("NEG", negativeStyle), ("negative", negativeStyle)]

/-- The property names every object literal inherits from `Object.prototype`. -/
def objectPrototypeKeys : List String :=
  ["constructor", "__defineGetter__", "__defineSetter__", "hasOwnProperty",
   "__lookupGetter__", "__lookupSetter__", "isPrototypeOf", "propertyIsEnumerable",
   "toString", "valueOf", "__proto__", "toLocaleString"]

/-- What a property read `styleMap[key]` yields when it is not `undefined`: one
of the six entries, or the member of `Object.prototype` of that name (a
function, or the prototype itself for `__proto__`), which is an object and so
truthy. -/
inductive StyleValue
  | entry (s : StyleEntry)
  | inherited (name : String)
  deriving DecidableEq, Repr

/-- The property read `styleMap[key]`: own properties first, then the prototype
chain; `none` is `undefined`. -/
def styleMapGet (key : String) : Option StyleValue :=
  match styleMap.lookup key with
  | some s => some (.entry s)
  | none => if key ∈ objectPrototypeKeys then some (.inherited key) else none

/-- The expression `styleMap[key] || styleMap['neutral']` of lines 390 and 426. -/
def styleFor (key : String) : StyleValue :=
  match styleMapGet key with
  | some v => v
  | none => .entry neutralStyle

/-- The property reads `.label`, `.icon`, `.color` and `.class` on the chosen
value; the members of `Object.prototype` have none of them. -/
def StyleValue.label : StyleValue → Option String
  | .entry s => some s.label
  | .inherited _ => none

/-- See `StyleValue.label`. -/
def StyleValue.icon : StyleValue → Option String
  | .entry s => some s.icon
  | .inherited _ => none

/-- See `StyleValue.label`. -/
def StyleValue.color : StyleValue → Option String
  | .entry s => some s.color
  | .inherited _ => none

/-- See `StyleValue.label`. -/
def StyleValue.cls : StyleValue → Option String
  | .entry s => some s.cls
  | .inherited _ => none

/-- The property key of a value used as `styleMap[value]`. -/
def propertyKey : Option String → String
  | none => "undefined"
  | some s => s

/-- The body of a sentiment reply.  `probabilities` holds the entries of the
mapping in the order `Object.entries` lists them. -/
structure SentimentResponse where
  sentiment : Option String
  confidence : Option JSNum
  is_fake : Option Bool
  fake_probability : Option JSNum
  probabilities : Option (List (String × JSNum))
  deriving DecidableEq, Repr

/-- One `bar-row` of the result card (main.js 429-437), by the holes of its
template. -/
structure Bar where
  label : String
  fillClass : String
  width : String
  percent : String
  deriving DecidableEq, Repr

/-- The result card (main.js 395-440), by the holes of its template: the icon
class and colour, the headline and its colour, the confidence percentage, the
fraud percentage when the alert is rendered, and the bars. -/
structure SentimentCard where
  icon : String
  iconColor : String
  headline : String
  headlineColor : String
  confidence : String
  fraud : Option String
  bars : List Bar
  deriving DecidableEq, Repr

/-- What `#sentimentResult` shows. -/
inductive SentimentView
  | page (html : String)
  | loading
  | card (c : SentimentCard)
  | connectionError
  deriving DecidableEq, Repr

/-- The sentiment widget: the value of `#reviewText`, the analyse button, and
the display style and content of `#sentimentResult`. -/
structure SentimentDemo where
  reviewText : String
  analyzeButton : Button
  resultBoxDisplay : String
  resultBox : SentimentView
  deriving DecidableEq, Repr

/-- `SentimentDemo.showLoading()`. -/
def SentimentDemo.showLoading (st : SentimentDemo) : SentimentDemo :=
  { st with resultBox := .loading }

/-- The bars built by the loop of lines 423-438. -/
def probabilityBars (entries : List (String × JSNum)) : List Bar :=
  entries.map (fun kv =>
    let style := styleFor kv.1
    let percentage := percentText (some kv.2)
    { label := interpolate style.label, fillClass := interpolate style.cls,
      width := percentage, percent := percentage })

/-- `showResult(data)`.  `Object.entries(undefined)` throws before anything is
assigned to the result box. -/
def SentimentDemo.showResult (st : SentimentDemo) (data : SentimentResponse) :
    Completion SentimentDemo :=
  let sentimentKey := data.sentiment
  let sentimentInfo := styleFor (propertyKey sentimentKey)
  let isFake := data.is_fake
  let fraud : Option String :=
    if isFake = some true then some (percentText data.fake_probability) else none
  match data.probabilities with
  | none => .thrown st
  | some entries =>
    let html : SentimentCard :=
      { icon := interpolate sentimentInfo.icon
        iconColor := interpolate sentimentInfo.color
        headline := interpolate sentimentInfo.label
        headlineColor := interpolate sentimentInfo.color
        confidence := percentText data.confidence
        fraud := fraud
        bars := probabilityBars entries }
    .normal { st with resultBox := .card html }

/-- The label of the analyse button while a request is pending. -/
def analyzingLabel : String := "<i class=\"fas fa-circle-notch fa-spin\"></i> Analizando..."

/-- `analyzeSentiment()` up to the `await` of line 337; the local kept is
`originalBtnText`. -/
def SentimentDemo.analyzeSentimentStart (st : SentimentDemo) : Started SentimentDemo String :=
  let text := jsTrim st.reviewText
  if text = "" then
    .rejected st [.alert "Por favor, escribe una reseña para analizar.", .focus "reviewText"]
  else
    let originalBtnText := st.analyzeButton.innerHTML
    let st := { st with analyzeButton := { st.analyzeButton with disabled := true } }
    let st := { st with analyzeButton := { st.analyzeButton with innerHTML := analyzingLabel } }
    let st := { st with resultBoxDisplay := "block" }
    let st := st.showLoading
    .pending st (.fetch (CONFIG.API_BASE_URL ++ "/api/sentiment/analyze") (.sentiment text))
      originalBtnText

/-- The `try` block of `analyzeSentiment` from the point where the `fetch`
settles (main.js 345-352). -/
def SentimentDemo.analyzeSentimentTry (st : SentimentDemo)
    (outcome : FetchOutcome SentimentResponse) : Completion SentimentDemo :=
  match outcome with
  | .ok data => st.showResult data
  | _ => .thrown st

/-- The rest of `analyzeSentiment` once the `fetch` has settled: `try`, `catch`
and `finally`. -/
def SentimentDemo.analyzeSentimentFinish (st : SentimentDemo) (originalBtnText : String)
    (outcome : FetchOutcome SentimentResponse) : SentimentDemo × List Effect :=
  let caught : SentimentDemo × List Effect :=
    match st.analyzeSentimentTry outcome with
    | .normal st => (st, [])
    | .thrown st =>
      ({ st with resultBox := .connectionError }, [.consoleError "Error Sentiment AI:"])
  let st := caught.1
  let st := { st with analyzeButton := { st.analyzeButton with disabled := false } }
  let st := { st with analyzeButton := { st.analyzeButton with innerHTML := originalBtnText } }
  (st, caught.2)

/-- `analyzeSentiment()` run from call to completion. -/
def SentimentDemo.analyzeSentiment (st : SentimentDemo)
    (outcome : FetchOutcome SentimentResponse) : SentimentDemo × List Effect :=
  match st.analyzeSentimentStart with
  | .rejected st effects => (st, effects)
  | .pending st request originalBtnText =>
    let (st, effects) := st.analyzeSentimentFinish originalBtnText outcome
    (st, request :: effects)

/-! ## VisualSearchDemo (main.js 448-553) -/

/-- The `price` of a product when the field is present: a number or a string. -/
inductive PriceValue
  | num (n : JSNum)
  | str (s : String)
  deriving DecidableEq, Repr

/-- ToBoolean of a price. -/
def PriceValue.truthy : PriceValue → Bool
  | .num n => n.truthy
  | .str s => decide (s ≠ "")

/-- ToString of a price, as a template literal prints it. -/
def PriceValue.text : PriceValue → String
  | .num n => n.toString
  | .str s => s

/-- One element of `similar_products`; every field may be missing. -/
structure Product where
  name : Option String
  similarity : Option JSNum
  category : Option String
  price : Option PriceValue
  image_url : Option String
  deriving DecidableEq, Repr

/-- The body of a visual-search reply. -/
structure VisualResponse where
  similar_products : Option (List Product)
  deriving DecidableEq, Repr

/-- One `product-card` (main.js 534-548), by the holes of its template; `price`
is `none` when the price span is not rendered. -/
structure ProductCard where
  imgUrl : String
  alt : String
  similarityPercent : String
  name : String
  category : String
  price : Option String
  deriving DecidableEq, Repr

/-- What one element child of `#visualResults` holds. -/
inductive RegionContent
  | page (html : String)
  | preview (imageUrl : String)
  | searching
  | connectionError
  | noResults
  | results (cards : List ProductCard)
  deriving DecidableEq, Repr

/-- The visual-search widget: the element children of `#visualResults`, in
document order. -/
structure VisualSearchDemo where
  resultsGrid : List RegionContent
  deriving DecidableEq, Repr

/-- The assignment `lastElementChild.innerHTML = content`; `none` when there is
no element child, where the assignment throws a TypeError. -/
def setLastContent (content : RegionContent) : List RegionContent → Option (List RegionContent)
  | [] => none
  | [_] => some [content]
  | c :: d :: rest => (setLastContent content (d :: rest)).map (fun l => c :: l)

/-- `handleFile(file)`: the reader and the request are started, nothing is
rendered yet. -/
def VisualSearchDemo.handleFile (st : VisualSearchDemo) (file : UploadFile) :
    VisualSearchDemo × List Effect :=
  if !jsStartsWith file.type "image/" then
    (st, [.alert "Por favor, selecciona una imagen válida"])
  else
    (st, [.readAsDataURL file,
          .fetch (CONFIG.API_BASE_URL ++ "/api/visual/search") (.visual file 4)])

/-- `showPreviewAndLoading(imageUrl)`, called when the reader has loaded. -/
def VisualSearchDemo.showPreviewAndLoading (_st : VisualSearchDemo) (imageUrl : String) :
    VisualSearchDemo :=
  { resultsGrid := [.preview imageUrl, .searching] }

/-- The card of one product (main.js 532-548). -/
def productCard (product : Product) : ProductCard :=
  let similarityPercent := percentText product.similarity
  let imgUrl := strOr product.image_url "https://via.placeholder.com/200?text=Sin+Imagen"
  { imgUrl := imgUrl
    alt := interpolate product.name
    similarityPercent := similarityPercent
    name := interpolate product.name
    category := strOr product.category "General"
    price :=
      match product.price with
      | some p => if p.truthy then some ("$" ++ p.text) else none
      | none => none }

/-- `renderResults(products)`. -/
def VisualSearchDemo.renderResults (st : VisualSearchDemo) (products : Option (List Product)) :
    Completion VisualSearchDemo :=
  let content : RegionContent :=
    match products with
    | none => .noResults
    | some [] => .noResults
    | some (p :: ps) => .results ((p :: ps).map productCard)
  match setLastContent content st.resultsGrid with
  | none => .thrown st
  | some grid => .normal { st with resultsGrid := grid }

/-- The `try` block of `uploadToBackend` from the point where the `fetch`
settles (main.js 512-514). -/
def VisualSearchDemo.uploadToBackendTry (st : VisualSearchDemo)
    (outcome : FetchOutcome VisualResponse) : Completion VisualSearchDemo :=
  match outcome with
  | .ok data => st.renderResults data.similar_products
  | _ => .thrown st

/-- The rest of `uploadToBackend` once the `fetch` has settled.  A `thrown`
result is an exception that leaves the `catch` block: the promise of the
handler rejects with nobody to handle it. -/
def VisualSearchDemo.uploadToBackendFinish (st : VisualSearchDemo)
    (outcome : FetchOutcome VisualResponse) : Completion VisualSearchDemo × List Effect :=
  match st.uploadToBackendTry outcome with
  | .normal st => (.normal st, [])
  | .thrown st =>
    match setLastContent .connectionError st.resultsGrid with
    | none => (.thrown st, [.consoleError "Error en búsqueda visual:"])
    | some grid =>
      (.normal { st with resultsGrid := grid }, [.consoleError "Error en búsqueda visual:"])

/-! ## GenerativeDemo (main.js 558-684) -/

/-- The `data` object of a generation reply. -/
structure GenerativeData where
  descripcion : Option String
  modelo_usado : Option String
  deriving DecidableEq, Repr

/-- The body of a generation reply. -/
structure GenerativeResponse where
  success : Option Bool
  data : Option GenerativeData
  deriving DecidableEq, Repr

/-- The variables of a running `utils.typeWriter` (main.js 52-66): the text
(`none` when `undefined` was passed), the index `i`, the text the element
holds, in UTF-16 code units, and whether the interval timer is set. -/
structure TypeWriter where
  text : Option String
  i : Nat
  content : List Nat
  timer : Bool
  deriving DecidableEq, Repr

/-- `utils.typeWriter(element, text, speed)` up to its return: the element is
emptied and the interval is set. -/
def typeWriterStart (text : Option String) : TypeWriter :=
  { text := text, i := 0, content := [], timer := true }

/-- What `#generatedText` shows. -/
inductive GeneratedView
  | page (html : String)
  | loading
  | typing (tw : TypeWriter)
  | notGenerated
  | connectionError
  deriving DecidableEq, Repr

/-- The element `#modelUsedName`. -/
structure Badge where
  textContent : String
  color : String
  deriving DecidableEq, Repr

/-- The generative widget.  `productPrice` is the Number that `parseFloat`
makes of the value of `#productPrice`. -/
structure GenerativeDemo where
  productName : String
  productCategory : String
  productFeatures : String
  productPrice : JSNum
  generateButton : Button
  resultContainerDisplay : String
  generatedText : GeneratedView
  modelBadge : Badge
  deriving DecidableEq, Repr

/-- The feature list of lines 585-588. -/
def parseFeatures (featuresInput : String) : List String :=
  if featuresInput = "" then []
  else
    (((splitChars ',' featuresInput.data).map String.mk).map jsTrim).filter (fun s => s != "")

/-- `GenerativeDemo.showLoading()`. -/
def GenerativeDemo.showLoading (st : GenerativeDemo) : GenerativeDemo :=
  let st := { st with generatedText := .loading }
  { st with modelBadge := { st.modelBadge with textContent := "Procesando..." } }

/-- `showGeneratedText(text)`. -/
def GenerativeDemo.showGeneratedText (st : GenerativeDemo) (text : Option String) :
    GenerativeDemo :=
  { st with generatedText := .typing (typeWriterStart text) }

/-- The label of the generate button while a request is pending. -/
def generatingLabel : String := "<i class=\"fas fa-circle-notch fa-spin\"></i> Generando..."

/-- The number literal `0.7`. -/
def temperatura : JSNum := .fin false 3152519739159347 (-52)

/-- `generateDescription()` up to the `await` of line 607; the local kept is
`originalBtnText`. -/
def GenerativeDemo.generateDescriptionStart (st : GenerativeDemo) :
    Started GenerativeDemo String :=
  let name := jsTrim st.productName
  let category := jsTrim st.productCategory
  let price := if st.productPrice.truthy then st.productPrice else JSNum.ofNat 0
  let features := parseFeatures st.productFeatures
  if name = "" then
    .rejected st
      [.alert "Por favor, ingresa al menos el nombre del producto.", .focus "productName"]
  else
    let originalBtnText := st.generateButton.innerHTML
    let st := { st with generateButton := { st.generateButton with disabled := true } }
    let st := { st with generateButton := { st.generateButton with innerHTML := generatingLabel } }
    let st := { st with resultContainerDisplay := "block" }
    let st := st.showLoading
    .pending st
      (.fetch (CONFIG.API_BASE_URL ++ "/api/generative/generar-descripcion")
        (.generative name features (strOr (some category) "general") price temperatura))
      originalBtnText

/-- The `try` block of `generateDescription` from the point where the `fetch`
settles (main.js 621-642). -/
def GenerativeDemo.generateDescriptionTry (st : GenerativeDemo)
    (outcome : FetchOutcome GenerativeResponse) : Completion GenerativeDemo :=
  match outcome with
  | .ok data =>
    if data.success = some true then
      match data.data with
      | none => .thrown st
      | some d =>
        let st := st.showGeneratedText d.descripcion
        let modelo := strOr d.modelo_usado "IA Generativa"
        let st := { st with
          modelBadge := { st.modelBadge with textContent := "Generado con: " ++ modelo } }
        if jsIncludes modelo "templates" then
          .normal { st with modelBadge := { st.modelBadge with color := "#d97706" } }
        else
          .normal { st with modelBadge := { st.modelBadge with color := "#10b981" } }
    else
      .normal { st with generatedText := .notGenerated }
  | _ => .thrown st

/-- The rest of `generateDescription` once the `fetch` has settled: `try`,
`catch` and `finally`. -/
def GenerativeDemo.generateDescriptionFinish (st : GenerativeDemo) (originalBtnText : String)
    (outcome : FetchOutcome GenerativeResponse) : GenerativeDemo × List Effect :=
  let caught : GenerativeDemo × List Effect :=
    match st.generateDescriptionTry outcome with
    | .normal st => (st, [])
    | .thrown st =>
      ({ st with generatedText := .connectionError }, [.consoleError "Error Generative AI:"])
  let st := caught.1
  let st := { st with generateButton := { st.generateButton with disabled := false } }
  let st := { st with generateButton := { st.generateButton with innerHTML := originalBtnText } }
  (st, caught.2)

/-- `generateDescription()` run from call to completion. -/
def GenerativeDemo.generateDescription (st : GenerativeDemo)
    (outcome : FetchOutcome GenerativeResponse) : GenerativeDemo × List Effect :=
  match st.generateDescriptionStart with
  | .rejected st effects => (st, effects)
  | .pending st request originalBtnText =>
    let (st, effects) := st.generateDescriptionFinish originalBtnText outcome
    (st, request :: effects)

/-! ## Navigation (main.js 72-135) -/

/-- A `section[id]` element: its `id`, `offsetTop` and `offsetHeight` (whole
numbers of pixels). -/
structure Section where
  id : String
  offsetTop : Int
  offsetHeight : Int
  deriving DecidableEq, Repr

/-- A `.nav-link` element: its `href` attribute, if any, and its class list. -/
structure NavLink where
  href : Option String
  classList : List String
  deriving DecidableEq, Repr

/-- The navigation bar: the class lists of `#navbar`, `#navMenu` and
`#hamburger`, and the node list `navLinks`, which holds every `.nav-link` of
the page in document order. -/
structure Navigation where
  navbar : List String
  navMenu : List String
  hamburger : List String
  navLinks : List NavLink
  deriving DecidableEq, Repr

/-- The link is marked active. -/
def NavLink.isActive (l : NavLink) : Bool := hasClass "active" l.classList

/-- The condition of line 129 for one section, `scrollY` being
`window.scrollY`, which need not be a whole number. -/
def sectionMatches (scrollY : ℚ) (section_ : Section) : Bool :=
  let sectionHeight : ℚ := section_.offsetHeight
  let sectionTop : ℚ := (section_.offsetTop : ℚ) - 100
  decide (scrollY > sectionTop) && decide (scrollY ≤ sectionTop + sectionHeight)

/-- CSS preprocessing of the text of a selector: `CR LF`, `CR` and `FF` become
a line feed, `NUL` becomes U+FFFD. -/
def cssPreprocess : List Char → List Char
  | [] => []
  | c :: rest =>
    if c = '\r' then
      match rest with
      | [] => ['\n']
      | d :: rest' =>
        if d = '\n' then '\n' :: cssPreprocess rest' else '\n' :: cssPreprocess (d :: rest')
    else if c = '\x0c' then '\n' :: cssPreprocess rest
    else if c = '\x00' then '\uFFFD' :: cssPreprocess rest
    else c :: cssPreprocess rest

/-- The value of a hexadecimal digit. -/
def hexValue (c : Char) : Option Nat :=
  if '0' ≤ c ∧ c ≤ '9' then some (c.toNat - '0'.toNat)
  else if 'a' ≤ c ∧ c ≤ 'f' then some (c.toNat - 'a'.toNat + 10)
  else if 'A' ≤ c ∧ c ≤ 'F' then some (c.toNat - 'A'.toNat + 10)
  else none

/-- CSS whitespace: line feed, tab and space. -/
def isCssWhitespace (c : Char) : Bool := c = '\n' || c = '\t' || c = ' '

/-- The hexadecimal digits at the front of a text, at most `limit` of them, and
the text that follows them. -/
def takeHex : Nat → List Char → List Nat × List Char
  | 0, cs => ([], cs)
  | _ + 1, [] => ([], [])
  | limit + 1, c :: cs =>
    match hexValue c with
    | some v => ((v :: (takeHex limit cs).1), (takeHex limit cs).2)
    | none => ([], c :: cs)

/-- The code point of a hexadecimal escape: U+FFFD for zero, for a surrogate
and beyond U+10FFFF. -/
def escapedCodePoint (n : Nat) : Char :=
  if n = 0 ∨ (0xD800 ≤ n ∧ n ≤ 0xDFFF) ∨ 0x10FFFF < n then '\uFFFD' else Char.ofNat n

/-- What the CSS tokenizer makes of a string: a string token whose closing
quote was found, with the text after it; a string token that ran to the end of
the text; or a bad string, for a line feed in it. -/
inductive CssString
  | closed (value : List Char) (rest : List Char)
  | unclosed (value : List Char)
  | bad
  deriving DecidableEq, Repr

/-- Consume a string token whose opening `"` has been read (CSS Syntax 4.3.5
and 4.3.7); `value` is what has been read of it.  Every step reads a
character, so as much fuel as the text has characters is enough. -/
def consumeString : Nat → List Char → List Char → CssString
  | _, value, [] => .unclosed value
  | 0, _, _ :: _ => .bad
  | fuel + 1, value, c :: rest =>
    if c = '"' then .closed value rest
    else if c = '\n' then .bad
    else if c = '\\' then
      match rest with
      | [] => .unclosed value
      | d :: rest' =>
        if d = '\n' then consumeString fuel value rest'
        else if (hexValue d).isSome then
          let hex := takeHex 6 (d :: rest')
          let code := escapedCodePoint (hex.1.foldl (fun acc v => acc * 16 + v) 0)
          match hex.2 with
          | [] => consumeString fuel (value ++ [code]) []
          | w :: after =>
            if isCssWhitespace w then consumeString fuel (value ++ [code]) after
            else consumeString fuel (value ++ [code]) (w :: after)
        else consumeString fuel (value ++ [d]) rest'
    else consumeString fuel (value ++ [c]) rest

/-- How the text `.nav-link[href="#id"]` reads as a selector: as the test that
`href` is `value`; as no selector, for which `querySelector` throws a
`SyntaxError`; or as some other selector, which is not covered. -/
inductive SelectorReading
  | attribute (value : String)
  | invalid
  | other
  deriving DecidableEq, Repr

/-- The selector of line 128 for a section id.  The id is put between the
quotes as it is, so a backslash in it escapes, a line break in it makes a bad
string, and a `"` in it closes the string early.  After the closed string, only
`]` at the end of the text completes the attribute test; a text that goes on
with `]` or with what may be the flag `i` or `s`, an escape or a comment is
left as `other`, and any other continuation is no selector.  A string that
runs to the end of the text, its closing quote being escaped, is left as
`other` too. -/
def readSelector (sectionId : String) : SelectorReading :=
  let input := cssPreprocess ("#" ++ sectionId ++ "\"]").data
  match consumeString input.length [] input with
  | .bad => .invalid
  | .unclosed _ => .other
  | .closed value rest =>
    if rest = [']'] then .attribute (String.mk value)
    else
      match rest.dropWhile isCssWhitespace with
      | [] => .other
      | c :: _ => if c ∈ [']', 'i', 'I', 's', 'S', '\\', '/'] then .other else .invalid

/-- A character that stands for itself between the quotes of a CSS string. -/
def isPlainIdChar (c : Char) : Bool :=
  c != '"' && c != '\\' && c != '\n' && c != '\r' && c != '\x0c' && c != '\x00'

/-- The link is selected by `.nav-link[href="value"]`. -/
def matchesHref (value : String) (link : NavLink) : Bool :=
  hasClass "nav-link" link.classList && link.href == some value

/-- The position in `navLinks` of the element that
`document.querySelector('.nav-link[href="value"]')` returns: the first link of
the page that the selector selects. -/
def findNavLink : List NavLink → String → Option Nat
  | [], _ => none
  | link :: links, value =>
    if matchesHref value link then some 0 else (findNavLink links value).map (fun i => i + 1)

/-- The link that `querySelector` returns for a section id whose selector is
an attribute test; `none` is `null`. -/
def navLinkOf (links : List NavLink) (sectionId : String) : Option Nat :=
  match readSelector sectionId with
  | .attribute value => findNavLink links value
  | _ => none

/-- `link.classList.remove('active')` on every link of `navLinks`. -/
def clearActive (links : List NavLink) : List NavLink :=
  links.map (fun link => { link with classList := classRemove "active" link.classList })

/-- `navLink.classList.add('active')`. -/
def markActive (link : NavLink) : NavLink :=
  { link with classList := classAdd "active" link.classList }

/-- Lines 130-131 on the links: every link loses `active`, then `navLink`, if
it is not `null`, gets it. -/
def activateLinks (links : List NavLink) (navLink : Option Nat) : List NavLink :=
  let cleared := clearActive links
  match navLink with
  | none => cleared
  | some i => modifyAt markActive i cleared

/-- Lines 130-131, run for a section that matches. -/
def Navigation.activate (nav : Navigation) (navLink : Option Nat) : Navigation :=
  { nav with navLinks := activateLinks nav.navLinks navLink }

/-- The callback of `sections.forEach` for one section (main.js 125-132).  The
link is looked up before the scroll offset is tested, so a selector that is no
selector throws for every section that has it.  The result is `none` for a
selector that is not covered. -/
def Navigation.visit (nav : Navigation) (scrollY : ℚ) (section_ : Section) :
    Option (Completion Navigation) :=
  match readSelector section_.id with
  | .invalid => some (.thrown nav)
  | .other => none
  | .attribute value =>
    let navLink := findNavLink nav.navLinks value
    if sectionMatches scrollY section_ then some (.normal (nav.activate navLink))
    else some (.normal nav)

/-- `updateActiveLink()`: `sections` is `document.querySelectorAll('section[id]')`
in document order.  An exception ends the loop. -/
def Navigation.updateActiveLink (nav : Navigation) (sections : List Section) (scrollY : ℚ) :
    Option (Completion Navigation) :=
  match sections with
  | [] => some (.normal nav)
  | section_ :: rest =>
    match nav.visit scrollY section_ with
    | some (.normal nav) => nav.updateActiveLink rest scrollY
    | some (.thrown nav) => some (.thrown nav)
    | none => none

/-- `handleScroll()`. -/
def Navigation.handleScroll (nav : Navigation) (sections : List Section) (scrollY : ℚ) :
    Option (Completion Navigation) :=
  let nav :=
    if scrollY > (CONFIG.scrollThreshold : ℚ) then
      { nav with navbar := classAdd "scrolled" nav.navbar }
    else
      { nav with navbar := classRemove "scrolled" nav.navbar }
  nav.updateActiveLink sections scrollY

/-! ## utils (main.js 28-67) -/

/-- A timer set with `setTimeout` that has neither run nor been cleared: its
id, the time (in milliseconds) at which it falls due, and the arguments that
its callback `later` closes over. -/
structure PendingTimer (α : Type) where
  id : Nat
  due : Nat
  args : α
  deriving DecidableEq, Repr

/-- The closure made by `utils.debounce(func, wait)`, with what the runtime
holds for it: the delay `wait`, the variable `timeout` (`none` is `undefined`),
the pending timers, the id the next `setTimeout` returns, and the executions
of `func` so far, oldest first, each with its time and arguments. -/
structure Debounced (α : Type) where
  wait : Nat
  timeout : Option Nat
  pending : List (PendingTimer α)
  nextId : Nat
  executed : List (Nat × α)
  deriving DecidableEq, Repr

/-- `utils.debounce(func, wait)`. -/
def debounce {α : Type} (wait : Nat) : Debounced α :=
  { wait := wait, timeout := none, pending := [], nextId := 1, executed := [] }

/-- `clearTimeout(id)` on the pending timers. -/
def clearTimeout {α : Type} (id : Option Nat) (pending : List (PendingTimer α)) :
    List (PendingTimer α) :=
  match id with
  | none => pending
  | some i => pending.filter (fun t => t.id != i)

/-- A call `executedFunction(...args)` of the wrapper at time `now`. -/
def Debounced.executedFunction {α : Type} (d : Debounced α) (now : Nat) (args : α) :
    Debounced α :=
  let pending := clearTimeout d.timeout d.pending
  let id := d.nextId
  { d with
    pending := pending ++ [{ id := id, due := now + d.wait, args := args }]
    timeout := some id
    nextId := id + 1 }

/-- The callback `later` of a timer, run at time `now`. -/
def Debounced.later {α : Type} (d : Debounced α) (now : Nat) (args : α) : Debounced α :=
  let pending := clearTimeout d.timeout d.pending
  { d with pending := pending, executed := d.executed ++ [(now, args)] }

/-- The pending timer that runs next when the clock has reached `now`: the
one that fell due first, the one set first among equals. -/
def nextDue {α : Type} (pending : List (PendingTimer α)) (now : Nat) :
    Option (PendingTimer α) :=
  (pending.filter (fun t => decide (t.due ≤ now))).foldl
    (fun best t =>
      match best with
      | none => some t
      | some b => if t.due < b.due then some t else some b)
    none

/-- The runtime with the clock at `now`, for at most `fuel` timers: a timer
that has fallen due is taken off the pending ones and its callback runs, at
its due time. -/
def Debounced.runDue {α : Type} : Nat → Debounced α → Nat → Debounced α
  | 0, d, _ => d
  | fuel + 1, d, now =>
    match nextDue d.pending now with
    | none => d
    | some t =>
      let d := { d with pending := d.pending.filter (fun u => u.id != t.id) }
      Debounced.runDue fuel (d.later t.due t.args) now

/-- The clock reaches `now`: every timer that has fallen due runs. -/
def Debounced.advance {α : Type} (d : Debounced α) (now : Nat) : Debounced α :=
  Debounced.runDue d.pending.length d now

/-- A sequence of calls of the wrapper, each with its time and arguments, the
clock advancing from one to the next. -/
def Debounced.calls {α : Type} (d : Debounced α) (cs : List (Nat × α)) : Debounced α :=
  cs.foldl (fun d c => (d.advance c.1).executedFunction c.1 c.2) d

/-- The wrapper waits for the timer of the call made at time `t` with the
arguments `args`: that timer is the only pending one, the variable `timeout`
holds its id, and `func` has not been executed. -/
def Debounced.waiting {α : Type} (d : Debounced α) (wait t : Nat) (args : α) : Prop :=
  d.wait = wait ∧ d.executed = [] ∧
    ∃ id, d.pending = [{ id := id, due := t + wait, args := args }] ∧ d.timeout = some id

/-- Each call follows the one before it by less than `wait`. -/
def inQuickSuccession {α : Type} (wait : Nat) (cs : List (Nat × α)) : Prop :=
  List.Chain' (fun c c' => c.1 ≤ c'.1 ∧ c'.1 < c.1 + wait) cs

/-- A `DOMRect`, as `getBoundingClientRect()` returns it. -/
structure Rect where
  top : ℚ
  left : ℚ
  bottom : ℚ
  right : ℚ
  deriving DecidableEq, Repr

/-- The sizes `isInViewport` reads: `window.innerHeight`,
`document.documentElement.clientHeight`, `window.innerWidth` and
`document.documentElement.clientWidth`. -/
structure Viewport where
  innerHeight : ℚ
  clientHeight : ℚ
  innerWidth : ℚ
  clientWidth : ℚ
  deriving DecidableEq, Repr

/-- `a || b` on numbers that are not `NaN`: zero is falsy. -/
def numOr (a b : ℚ) : ℚ := if a = 0 then b else a

/-- `utils.isInViewport(element)`, `rect` being the bounding rectangle of the
element. -/
def isInViewport (rect : Rect) (window : Viewport) : Bool :=
  decide (rect.top ≥ 0) &&
  decide (rect.left ≥ 0) &&
  decide (rect.bottom ≤ numOr window.innerHeight window.clientHeight) &&
  decide (rect.right ≤ numOr window.innerWidth window.clientWidth)

/-- The two variants of the page script: `src/frontend/js/main.js` and
`src/js/main.js`. -/
inductive Script
  | frontend
  | legacy
  deriving DecidableEq, Repr

/-- The statement that writes the code unit `c`: `element.innerHTML +=
text.charAt(i)` in the frontend script (main.js 58), which reads the markup of
the element, appends `c` and has the result parsed; `element.textContent +=
text.charAt(i)` in the other (src/js/main.js 88).  The result is the text the
element holds afterwards. -/
def writeUnit (script : Script) (content : List Nat) (c : Nat) : Option (List Nat) :=
  match script with
  | .frontend => setInnerHTML (serializeText content ++ [c])
  | .legacy => some (content ++ [c])

/-- The callback of the interval of `typeWriter` (main.js 57-63).  The second
component is the number of calls of `resolve`.  With `text` `undefined`,
reading `text.length` throws.  The result is `none` if the markup written is
not text only. -/
def TypeWriter.callback (script : Script) (tw : TypeWriter) :
    Option (Completion TypeWriter × Nat) :=
  match tw.text with
  | none => some (.thrown tw, 0)
  | some text =>
    match (utf16 text)[tw.i]? with
    | some c =>
      (writeUnit script tw.content c).map
        (fun content => (.normal { tw with content := content, i := tw.i + 1 }, 0))
    | none => some (.normal { tw with timer := false }, 1)

/-- One period of the interval: the callback runs if the timer is still set.
An exception thrown by the callback is reported and the timer stays set. -/
def TypeWriter.tick (script : Script) (tw : TypeWriter) : Option (TypeWriter × Nat) :=
  if tw.timer then
    match tw.callback script with
    | some (.normal tw, resolved) => some (tw, resolved)
    | some (.thrown tw, resolved) => some (tw, resolved)
    | none => none
  else some (tw, 0)

/-- `k` periods of the interval; the calls of `resolve` are added up. -/
def TypeWriter.ticks (script : Script) (tw : TypeWriter) : Nat → Option (TypeWriter × Nat)
  | 0 => some (tw, 0)
  | k + 1 =>
    match tw.ticks script k with
    | none => none
    | some (tw, resolved) =>
      match tw.tick script with
      | none => none
      | some (tw, more) => some (tw, resolved + more)

/-! ## StatsCounter (main.js 751-786) -/

/-- The value of a digit in a radix, if it is one. -/
def digitValue (radix : Nat) (c : Char) : Option Nat :=
  let v :=
    if '0' ≤ c ∧ c ≤ '9' then c.toNat - '0'.toNat
    else if 'a' ≤ c ∧ c ≤ 'z' then c.toNat - 'a'.toNat + 10
    else if 'A' ≤ c ∧ c ≤ 'Z' then c.toNat - 'A'.toNat + 10
    else radix
  if v < radix then some v else none

/-- The values of the longest run of digits at the front of a character list. -/
def takeDigits (radix : Nat) : List Char → List Nat
  | [] => []
  | c :: cs =>
    match digitValue radix c with
    | some v => v :: takeDigits radix cs
    | none => []

/-- `parseInt(s)` without a radix argument; `none` is `NaN`.  Leading
whitespace is skipped, a sign is read, a `0x` or `0X` prefix selects radix 16,
and the longest run of digits is the value. -/
def parseInt (s : String) : Option Int :=
  let cs := s.data.dropWhile isJsWhitespace
  let signed : Bool × List Char :=
    match cs with
    | '-' :: rest => (true, rest)
    | '+' :: rest => (false, rest)
    | _ => (false, cs)
  let based : Nat × List Char :=
    match signed.2 with
    | '0' :: 'x' :: rest => (16, rest)
    | '0' :: 'X' :: rest => (16, rest)
    | _ => (10, signed.2)
  let digits := takeDigits based.1 based.2
  if digits = [] then none
  else
    let value : Int := (digits.foldl (fun acc d => acc * based.1 + d) 0 : Nat)
    some (if signed.1 then -value else value)

/-- The variables of one interval callback of `animateStats`: `target`,
`numericValue`, `current` and `increment`, and whether the timer is set.  The
numbers are doubles, as in the script. -/
structure StatTimer where
  target : String
  numericValue : JSNum
  current : JSNum
  increment : JSNum
  timer : Bool
  deriving DecidableEq, Repr

/-- Lines 771-775 for one `.stat-number` whose text is `target`.  A text that
`parseInt` reads as `-0` is taken as `0`: the callback does the same for
both. -/
def statTimerStart (target : String) : StatTimer :=
  let numericValue : JSNum :=
    match parseInt target with
    | none => .nan
    | some z => JSNum.ofInt z
  { target := target
    numericValue := numericValue
    current := JSNum.ofNat 0
    increment := numericValue.div (JSNum.ofNat 50)
    timer := true }

/-- The callback of the interval of one statistic (main.js 776-782): the new
variables and the new `textContent` of the element. -/
def StatTimer.callback (t : StatTimer) : StatTimer × String :=
  let current : JSNum := t.current.add t.increment
  if current.ge t.numericValue then
    ({ t with current := current, timer := false }, t.target)
  else
    ({ t with current := current },
      current.floor.text ++ (if jsIncludes t.target "%" then "%" else ""))

/-- One period of the interval of a statistic showing `text`: the callback
runs if the timer is still set. -/
def StatTimer.tick (t : StatTimer) (text : String) : StatTimer × String :=
  if t.timer then t.callback else (t, text)

/-- `k` periods of the interval. -/
def StatTimer.ticks (t : StatTimer) (text : String) : Nat → StatTimer × String
  | 0 => (t, text)
  | k + 1 =>
    match t.ticks text k with
    | (t', text') => t'.tick text'

/-- The statistics counter: the text of every `.stat-number`, the field
`animated`, and the timers that `animateStats` has set, one per statistic, in
the order of the statistics. -/
structure StatsCounter where
  stats : List String
  animated : Bool
  timers : List StatTimer
  deriving DecidableEq, Repr

/-- The constructor of `StatsCounter`. -/
def StatsCounter.new (stats : List String) : StatsCounter :=
  { stats := stats, animated := false, timers := [] }

/-- `isStatsVisible()`: `heroStats` is the bounding rectangle of the first
`.hero-stats` element, `none` when the page has none. -/
def isStatsVisible (heroStats : Option Rect) (window : Viewport) : Bool :=
  match heroStats with
  | none => false
  | some rect => isInViewport rect window

/-- `animateStats()`. -/
def StatsCounter.animateStats (st : StatsCounter) : StatsCounter :=
  { st with timers := st.timers ++ st.stats.map statTimerStart }

/-- The listener of `scroll` (main.js 758-763); the second component tells
whether `animateStats` was called. -/
def StatsCounter.onScroll (st : StatsCounter) (heroStats : Option Rect) (window : Viewport) :
    StatsCounter × Bool :=
  if !st.animated && isStatsVisible heroStats window then
    ({ st.animateStats with animated := true }, true)
  else (st, false)

/-- A sequence of scroll events, each with the geometry of the page at that
moment; the result lists, event by event, whether `animateStats` was called. -/
def StatsCounter.scrolls (st : StatsCounter) :
    List (Option Rect × Viewport) → StatsCounter × List Bool
  | [] => (st, [])
  | e :: es =>
    let (st, called) := st.onScroll e.1 e.2
    let (st, rest) := st.scrolls es
    (st, called :: rest)

/-- One period of the interval of the statistic at position `j`. -/
def StatsCounter.tick (st : StatsCounter) (j : Nat) : StatsCounter :=
  match st.timers[j]?, st.stats[j]? with
  | some t, some text =>
    { st with timers := st.timers.set j (t.tick text).1, stats := st.stats.set j (t.tick text).2 }
  | _, _ => st

/-- A decimal digit, `0` to `9`. -/
def isDecimalDigit (c : Char) : Bool := decide ('0' ≤ c ∧ c ≤ '9')

/-- The integer a text begins with, in the words of the specification: the
value of the longest run of decimal digits at its very start; `none` when the
text does not start with a digit.  `parseInt` is the reading the script makes;
this one is what is compared with it. -/
def leadingInteger (s : String) : Option Nat :=
  let digits := s.data.takeWhile isDecimalDigit
  if digits = [] then none
  else some (digits.foldl (fun acc c => acc * 10 + (c.toNat - '0'.toNat)) 0)

/-! ## Sends in flight (main.js 209-252) -/

/-- The state a started handler has produced. -/
def Started.state {σ κ : Type} : Started σ κ → σ
  | .rejected st _ => st
  | .pending st _ _ => st

/-- The user and bot messages of the transcript: the children of the message
area other than the placeholders, a placeholder being a child with an id. -/
def FloatingChatbot.messages (st : FloatingChatbot) : List ChatNode :=
  st.messagesArea.filter (fun el => el.id.isNone)

/-- The chips `renderSuggestions` makes of the `suggestions` of a reply, none
for a missing list. -/
def chipsOf (suggestions : Option (List String)) : List Chip :=
  (suggestions.getD []).map (fun sug => ⟨sug, sug⟩)

/-- Two sends in flight at once: `sendMessage(text1)` runs to its `await`, the
user types `typed`, `sendMessage(text2)` runs to its `await`, and then the two
requests settle, the second one first when `secondFirst` holds. -/
def FloatingChatbot.twoSends (st : FloatingChatbot) (text1 : Option String) (now1 : Nat)
    (typed : String) (text2 : Option String) (now2 : Nat)
    (outcome1 outcome2 : FetchOutcome ChatResponse) (secondFirst : Bool) : FloatingChatbot :=
  match st.sendMessageStart text1 now1 with
  | .rejected st _ => st
  | .pending st _ loadingId1 =>
    match ({ st with userInput := typed }).sendMessageStart text2 now2 with
    | .rejected st _ => (st.sendMessageFinish loadingId1 outcome1).1
    | .pending st _ loadingId2 =>
      if secondFirst then
        ((st.sendMessageFinish loadingId2 outcome2).1.sendMessageFinish loadingId1 outcome1).1
      else
        ((st.sendMessageFinish loadingId1 outcome1).1.sendMessageFinish loadingId2 outcome2).1

/-! ## The page script without backend (src/js/main.js) -/

/-- One value of `CONFIG.demoResponses.sentiments` (src/js/main.js 22-41). -/
structure SentimentPreset where
  emoji : String
  label : String
  color : String
  confidence : JSNum
  deriving DecidableEq, Repr

/-- The object `CONFIG.demoResponses.sentiments`, its keys in the order of the
literal; the confidences are the doubles nearest to 0.92, 0.78 and 0.86. -/
def demoResponsesSentiments : List (String × SentimentPreset) :=
  [("positive", ⟨"😊", "Positivo", "#10b981", .fin false 8286623314361713 (-53)⟩),
    ("neutral", ⟨"😐", "Neutral", "#6b7280", .fin false 3512807709348987 (-52)⟩),
    ("negative", ⟨"😞", "Negativo", "#ef4444", .fin false 7746191359077253 (-53)⟩)]

/-- The lower-case form of a character of Basic Latin or of the Latin-1
Supplement; any other character is left as it is. -/
def toLowerCaseChar (c : Char) : Char :=
  if ('A' ≤ c ∧ c ≤ 'Z') ∨ ('À' ≤ c ∧ c ≤ 'Þ' ∧ c ≠ '×') then Char.ofNat (c.toNat + 32) else c

/-- `text.toLowerCase()` on texts of Basic Latin and the Latin-1 Supplement,
the alphabets of the keywords.  What is proved of the scoring is proved for
every lower-cased text, so it does not rest on this mapping. -/
def toLowerCase (text : String) : String := String.mk (text.data.map toLowerCaseChar)

/-- The array `positiveWords` (src/js/main.js 327). -/
def positiveWords : List String :=
  ["bueno", "excelente", "increíble", "genial", "perfecto", "recomiendo", "love", "great"]

/-- The array `negativeWords` (src/js/main.js 328). -/
def negativeWords : List String :=
  ["malo", "terrible", "pésimo", "horrible", "decepción", "no recomiendo", "bad", "worst"]

/-- The variable `score` after the two `forEach` loops (src/js/main.js
331-339). -/
def keywordScore (lowerText : String) : Int :=
  let score : Int := 0
  let score := positiveWords.foldl
    (fun score word => if jsIncludes lowerText word then score + 1 else score) score
  negativeWords.foldl
    (fun score word => if jsIncludes lowerText word then score - 1 else score) score

/-- The three `return` statements of `predictSentiment` (src/js/main.js
341-343). -/
def sentimentOfScore (score : Int) : String :=
  if score > 0 then "positive"
  else if score < 0 then "negative"
  else "neutral"

/-- `SentimentDemo.predictSentiment(text)` of the page script without backend
(src/js/main.js 325-344). -/
def predictSentiment (text : String) : String :=
  let lowerText := toLowerCase text
  sentimentOfScore (keywordScore lowerText)

/-! ## Concrete states -/

/-- An open chat widget with an empty transcript and nothing typed. -/
def freshChat : FloatingChatbot :=
  { isOpen := true, widget := ["chat-widget", "active"], messagesArea := [],
    userInput := "", suggestionsArea := some [] }

/-- A navigation bar with a link for each of two sections. -/
def twoLinkNav : Navigation :=
  { navbar := ["navbar"], navMenu := ["nav-menu"], hamburger := ["hamburger"],
    navLinks := [⟨some "#demo", ["nav-link"]⟩, ⟨some "#chat", ["nav-link"]⟩] }

/-- Two sections, the second one nested in the first. -/
def nestedSections : List Section :=
  [⟨"demo", 0, 1000⟩, ⟨"chat", 200, 300⟩]

/-- A section whose id holds a CSS escape, after the section `demo`. -/
def escapedSections : List Section :=
  [⟨"demo", 0, 1000⟩, ⟨"a\\62", 200, 300⟩]

/-- A navigation bar with a link to `#ab` and a link to the id as written. -/
def escapedNav : Navigation :=
  { navbar := ["navbar"], navMenu := ["nav-menu"], hamburger := ["hamburger"],
    navLinks := [⟨some "#a\\62", ["nav-link"]⟩, ⟨some "#ab", ["nav-link"]⟩] }

/-- A section whose id holds a quotation mark, between two plain sections. -/
def quotedSections : List Section :=
  [⟨"demo", 0, 1000⟩, ⟨"a\"b", 2000, 300⟩, ⟨"chat", 200, 300⟩]

/-- A chat widget showing one chip of an earlier reply, with `hola` typed. -/
def chatWithHola : FloatingChatbot :=
  { freshChat with userInput := "hola", suggestionsArea := some [⟨"Antes", "Antes"⟩] }

/-- A sentiment widget before its first analysis. -/
def freshSentiment : SentimentDemo :=
  { reviewText := "", analyzeButton := ⟨false, "Analizar Sentimiento"⟩,
    resultBoxDisplay := "none", resultBox := .page "" }

/-- A generative widget before its first generation. -/
def freshGenerative : GenerativeDemo :=
  { productName := "", productCategory := "", productFeatures := "",
    productPrice := .nan, generateButton := ⟨false, "Generar"⟩,
    resultContainerDisplay := "none", generatedText := .page "",
    modelBadge := ⟨"", ""⟩ }

/-- The double nearest to `0.1`. -/
def oneTenth : JSNum := .fin false 3602879701896397 (-55)

/-- The double nearest to `0.8`. -/
def eightTenths : JSNum := .fin false 3602879701896397 (-52)

/-- The reply `{sentiment: "negative", confidence: 0.8, probabilities:
{positive: 0.1, neutral: 0.1, negative: 0.8}}`. -/
def negativeReply : SentimentResponse :=
  { sentiment := some "negative", confidence := some eightTenths, is_fake := none,
    fake_probability := none,
    probabilities := some [("positive", oneTenth), ("neutral", oneTenth),
      ("negative", eightTenths)] }

/-- A reply whose sentiment label is the string `constructor`. -/
def constructorReply : SentimentResponse :=
  { negativeReply with sentiment := some "constructor" }

/-- A chat with one exchange done and a send in flight. -/
def chatWithPending : FloatingChatbot :=
  { freshChat with messagesArea :=
      [⟨none, "message bot-message", "Hola"⟩, ⟨none, "message user-message", "precio"⟩,
        ⟨some "loading-5", "message bot-message", "..."⟩] }

/-- The effects hold no network request. -/
def noFetch (effects : List Effect) : Prop := ∀ e ∈ effects, e.isFetch = false

/-! ## Theorems -/

theorem hasClass_classAdd (c : String) (cl : List String) :
    hasClass c (classAdd c cl) = true := by
  unfold hasClass classAdd
  by_cases h : c ∈ cl <;> simp [h]

theorem hasClass_classRemove (c : String) (cl : List String) :
    hasClass c (classRemove c cl) = false := by
  unfold hasClass classRemove
  simp

theorem map_modifyAt {α β : Type} (g : α → β) (f : α → α) (hf : ∀ a, g (f a) = g a) :
    ∀ (i : Nat) (l : List α), (modifyAt f i l).map g = l.map g
  | i, [] => by cases i <;> rfl
  | 0, x :: xs => by simp [modifyAt, hf]
  | n + 1, x :: xs => by simp [modifyAt, map_modifyAt g f hf n xs]

theorem switchTab_buttons_dataTab (d : DemoTabs) (i : Nat) :
    (d.switchTab i).tabButtons.map (fun b => b.dataTab) = d.tabButtons.map (fun b => b.dataTab) := by
  unfold DemoTabs.switchTab
  cases h : d.tabButtons[i]? with
  | none => rfl
  | some button =>
    simp only
    rw [map_modifyAt (fun b : TabButton => b.dataTab)
      (fun btn => { btn with classList := classAdd "active" btn.classList }) (fun _ => rfl)]
    simp [List.map_map, Function.comp_def]

theorem switchTab_panes_id (d : DemoTabs) (i : Nat) :
    (d.switchTab i).tabPanes.map (fun p => p.id) = d.tabPanes.map (fun p => p.id) := by
  unfold DemoTabs.switchTab
  cases h : d.tabButtons[i]? with
  | none => rfl
  | some button =>
    simp only [List.map_map]
    apply List.map_congr_left
    intro p _
    by_cases hp : some p.id = button.dataTab <;> simp [hp]

theorem clicks_buttons_dataTab (cs : List Nat) : ∀ d : DemoTabs,
    (d.clicks cs).tabButtons.map (fun b => b.dataTab) = d.tabButtons.map (fun b => b.dataTab) := by
  induction cs with
  | nil => intro d; rfl
  | cons c cs ih =>
    intro d
    show ((d.switchTab c).clicks cs).tabButtons.map _ = _
    rw [ih, switchTab_buttons_dataTab]

theorem clicks_panes_id (cs : List Nat) : ∀ d : DemoTabs,
    (d.clicks cs).tabPanes.map (fun p => p.id) = d.tabPanes.map (fun p => p.id) := by
  induction cs with
  | nil => intro d; rfl
  | cons c cs ih =>
    intro d
    show ((d.switchTab c).clicks cs).tabPanes.map _ = _
    rw [ih, switchTab_panes_id]

theorem switchTab_pane_active (d : DemoTabs) (i : Nat) (button : TabButton)
    (hbutton : d.tabButtons[i]? = some button) :
    (d.switchTab i).tabPanes.map (fun p => (p.id, p.isActive)) =
      d.tabPanes.map (fun p => (p.id, decide (some p.id = button.dataTab))) := by
  unfold DemoTabs.switchTab
  rw [hbutton]
  simp only [List.map_map]
  apply List.map_congr_left
  intro p _
  by_cases hp : some p.id = button.dataTab
  · simp [hp, TabPane.isActive, hasClass_classAdd]
  · simp [hp, TabPane.isActive, hasClass_classRemove]

theorem getElem?_dataTab_of_map_eq {l₁ l₂ : List TabButton}
    (h : l₁.map (fun b => b.dataTab) = l₂.map (fun b => b.dataTab)) (i : Nat) (b : TabButton)
    (hb : l₂[i]? = some b) : ∃ b', l₁[i]? = some b' ∧ b'.dataTab = b.dataTab := by
  have h1 : (l₁.map (fun b => b.dataTab))[i]? = (l₂.map (fun b => b.dataTab))[i]? := by rw [h]
  rw [List.getElem?_map, List.getElem?_map, hb] at h1
  cases h2 : l₁[i]? with
  | none => rw [h2] at h1; simp at h1
  | some b' => rw [h2] at h1; exact ⟨b', rfl, by simpa using h1⟩

theorem countP_of_map_eq {α β : Type} (f g : α → β) (q : β → Bool) :
    ∀ (l₁ l₂ : List α), l₁.map f = l₂.map g →
      l₁.countP (fun a => q (f a)) = l₂.countP (fun a => q (g a)) := by
  intro l₁ l₂ h
  have e1 : l₁.countP (fun a => q (f a)) = (l₁.map f).countP q := by
    rw [List.countP_map]; rfl
  have e2 : l₂.countP (fun a => q (g a)) = (l₂.map g).countP q := by
    rw [List.countP_map]; rfl
  rw [e1, e2, h]

/-- C1. After every sequence of tab clicks that ends with a click on button `i`,
whose `data-tab` names exactly one pane of the page, exactly one pane carries
`active`, and a pane carries it iff its id is that button's `data-tab`. -/
theorem switchTab_exactly_one_active_pane (d : DemoTabs) (cs : List Nat) (i : Nat)
    (button : TabButton) (hbutton : d.tabButtons[i]? = some button)
    (hpage : d.tabPanes.countP (fun p => decide (some p.id = button.dataTab)) = 1) :
    (d.clicks (cs ++ [i])).tabPanes.countP TabPane.isActive = 1 ∧
      ∀ p ∈ (d.clicks (cs ++ [i])).tabPanes,
        (p.isActive = true ↔ some p.id = button.dataTab) := by
  have hstep : d.clicks (cs ++ [i]) = (d.clicks cs).switchTab i := by
    simp [DemoTabs.clicks, List.foldl_append]
  obtain ⟨b', hb', hdt⟩ :=
    getElem?_dataTab_of_map_eq (clicks_buttons_dataTab cs d) i button hbutton
  have hact := switchTab_pane_active (d.clicks cs) i b' hb'
  rw [hdt] at hact
  rw [hstep]
  constructor
  · have h1 := countP_of_map_eq (fun p : TabPane => (p.id, p.isActive))
      (fun p : TabPane => (p.id, decide (some p.id = button.dataTab)))
      (fun x => x.2) _ _ hact
    have h2 := countP_of_map_eq (fun p : TabPane => p.id) (fun p : TabPane => p.id)
      (fun x => decide (some x = button.dataTab)) _ _ (clicks_panes_id cs d)
    simp only at h1 h2
    show List.countP (fun p : TabPane => p.isActive) _ = 1
    rw [h1, h2, hpage]
  · intro p hp
    have hmem : (p.id, p.isActive) ∈
        ((d.clicks cs).switchTab i).tabPanes.map (fun p => (p.id, p.isActive)) :=
      List.mem_map_of_mem _ hp
    rw [hact] at hmem
    obtain ⟨q, _, hq⟩ := List.mem_map.1 hmem
    simp only [Prod.mk.injEq] at hq
    rw [← hq.2, ← hq.1]
    simp

/-- C1, at a page of two tabs: the page is well formed for the last click. -/
theorem switchTab_exactly_one_active_pane_witness :
    demoPage.tabButtons[1]? = some ⟨some "sentiment", ["tab-button"]⟩ ∧
    demoPage.tabPanes.countP (fun p => decide (some p.id = some "sentiment")) = 1 ∧
    ((demoPage.clicks ([0, 1, 0] ++ [1])).tabPanes.countP TabPane.isActive = 1 ∧
      ∀ p ∈ (demoPage.clicks ([0, 1, 0] ++ [1])).tabPanes,
        (p.isActive = true ↔ some p.id = (some "sentiment" : Option String))) :=
  ⟨rfl, by decide,
    switchTab_exactly_one_active_pane demoPage [0, 1, 0] 1 ⟨some "sentiment", ["tab-button"]⟩ rfl
      (by decide)⟩

/-! ### Validation (C2, C3) -/

theorem jsTrim_of_isBlank (s : String) (h : isBlank s = true) : jsTrim s = "" := by
  have h1 : s.data.dropWhile isJsWhitespace = [] :=
    List.dropWhile_eq_nil_iff.2 (List.all_eq_true.1 h)
  simp [jsTrim, trimChars, h1]

theorem strOr_none_or_empty (text : Option String) (b : String)
    (h : text = none ∨ text = some "") : strOr text b = b := by
  rcases h with rfl | rfl <;> simp [strOr]

theorem sendMessage_blank (st : FloatingChatbot) (text : Option String) (now : Nat)
    (outcome : FetchOutcome ChatResponse) (htext : text = none ∨ text = some "")
    (hblank : isBlank st.userInput = true) : st.sendMessage text now outcome = (st, []) := by
  simp [FloatingChatbot.sendMessage, FloatingChatbot.sendMessageStart,
    strOr_none_or_empty text _ htext, jsTrim_of_isBlank _ hblank]

theorem analyzeSentiment_blank (st : SentimentDemo) (outcome : FetchOutcome SentimentResponse)
    (hblank : isBlank st.reviewText = true) :
    st.analyzeSentiment outcome =
      (st, [.alert "Por favor, escribe una reseña para analizar.", .focus "reviewText"]) := by
  simp [SentimentDemo.analyzeSentiment, SentimentDemo.analyzeSentimentStart,
    jsTrim_of_isBlank _ hblank]

theorem generateDescription_blank (st : GenerativeDemo)
    (outcome : FetchOutcome GenerativeResponse) (hblank : isBlank st.productName = true) :
    st.generateDescription outcome =
      (st, [.alert "Por favor, ingresa al menos el nombre del producto.",
            .focus "productName"]) := by
  simp [GenerativeDemo.generateDescription, GenerativeDemo.generateDescriptionStart,
    jsTrim_of_isBlank _ hblank]

/-- C2, as stated, fails for the chat: a message of one blank, handed to
`sendMessage` as its `text` argument (the way a suggestion chip does), is
whitespace only and yet is posted to the backend. -/
theorem sendMessage_whitespace_text_is_sent :
    isBlank " " = true ∧
      (freshChat.sendMessage (some " ") 0 .networkError).2.head? =
        some (.fetch "http://localhost:8000/api/chatbot/message" (.chat " " "invitado_web")) := by
  decide

/-- C2, amended.  The sentiment and generative handlers issue no request when
the review text, respectively the product name, is empty or whitespace only.
`sendMessage` issues none when it is called without a text (or with an empty
one) and the input field is empty or whitespace only; a non-empty `text`
argument is not trimmed and is posted as it is. -/
theorem blank_input_issues_no_request :
    (∀ (st : FloatingChatbot) (text : Option String) (now : Nat)
        (outcome : FetchOutcome ChatResponse),
        (text = none ∨ text = some "") → isBlank st.userInput = true →
        noFetch (st.sendMessage text now outcome).2) ∧
    (∀ (st : SentimentDemo) (outcome : FetchOutcome SentimentResponse),
        isBlank st.reviewText = true → noFetch (st.analyzeSentiment outcome).2) ∧
    (∀ (st : GenerativeDemo) (outcome : FetchOutcome GenerativeResponse),
        isBlank st.productName = true → noFetch (st.generateDescription outcome).2) ∧
    (∀ (st : FloatingChatbot) (t : String) (now : Nat) (outcome : FetchOutcome ChatResponse),
        t ≠ "" →
        (st.sendMessage (some t) now outcome).2.head? =
          some (.fetch (CONFIG.API_BASE_URL ++ "/api/chatbot/message")
            (.chat t "invitado_web"))) := by
  refine ⟨?_, ?_, ?_, ?_⟩
  · intro st text now outcome htext hblank
    rw [sendMessage_blank st text now outcome htext hblank]
    intro e he
    simp at he
  · intro st outcome hblank
    rw [analyzeSentiment_blank st outcome hblank]
    intro e he
    simp at he
    rcases he with rfl | rfl <;> rfl
  · intro st outcome hblank
    rw [generateDescription_blank st outcome hblank]
    intro e he
    simp at he
    rcases he with rfl | rfl <;> rfl
  · intro st t now outcome ht
    simp [FloatingChatbot.sendMessage, FloatingChatbot.sendMessageStart, strOr, ht,
      FloatingChatbot.showLoading]

/-- C2, amended, at concrete inputs: a field of blanks in each widget, and the
text `hola` handed to `sendMessage`. -/
theorem blank_input_issues_no_request_witness :
    noFetch (({ freshChat with userInput := " \t " }).sendMessage none 0 .networkError).2 ∧
    noFetch (({ freshSentiment with reviewText := "  \n" }).analyzeSentiment .badStatus).2 ∧
    noFetch (({ freshGenerative with productName := " " }).generateDescription .invalidJson).2 ∧
    (freshChat.sendMessage (some "hola") 0 .networkError).2.head? =
      some (.fetch (CONFIG.API_BASE_URL ++ "/api/chatbot/message")
        (.chat "hola" "invitado_web")) :=
  ⟨blank_input_issues_no_request.1 _ none 0 _ (Or.inl rfl) (by decide),
   blank_input_issues_no_request.2.1 _ _ (by decide),
   blank_input_issues_no_request.2.2.1 _ _ (by decide),
   blank_input_issues_no_request.2.2.2 freshChat "hola" 0 _ (by decide)⟩

/-- C3, as stated, fails for the chat: with only blanks typed, `sendMessage`
returns at once; it shows no alert and leaves every element as it was. -/
theorem sendMessage_blank_is_silent :
    isBlank "   " = true ∧
      ({ freshChat with userInput := "   " }).sendMessage none 0 .networkError =
        ({ freshChat with userInput := "   " }, []) := by
  decide

/-- C3, amended.  With an empty or whitespace-only required input the
sentiment and generative handlers show an alert and nothing else changes; the
chat handler returns silently: no alert, no message, no change of state. -/
theorem blank_input_validation_message :
    (∀ (st : SentimentDemo) (outcome : FetchOutcome SentimentResponse),
        isBlank st.reviewText = true →
        (st.analyzeSentiment outcome).1 = st ∧
        (st.analyzeSentiment outcome).2.head? =
          some (.alert "Por favor, escribe una reseña para analizar.")) ∧
    (∀ (st : GenerativeDemo) (outcome : FetchOutcome GenerativeResponse),
        isBlank st.productName = true →
        (st.generateDescription outcome).1 = st ∧
        (st.generateDescription outcome).2.head? =
          some (.alert "Por favor, ingresa al menos el nombre del producto.")) ∧
    (∀ (st : FloatingChatbot) (text : Option String) (now : Nat)
        (outcome : FetchOutcome ChatResponse),
        (text = none ∨ text = some "") → isBlank st.userInput = true →
        st.sendMessage text now outcome = (st, [])) := by
  refine ⟨?_, ?_, ?_⟩
  · intro st outcome hblank
    rw [analyzeSentiment_blank st outcome hblank]
    exact ⟨rfl, rfl⟩
  · intro st outcome hblank
    rw [generateDescription_blank st outcome hblank]
    exact ⟨rfl, rfl⟩
  · intro st text now outcome htext hblank
    exact sendMessage_blank st text now outcome htext hblank

/-- C3, amended, at concrete inputs. -/
theorem blank_input_validation_message_witness :
    ((({ freshSentiment with reviewText := "  \n" }).analyzeSentiment .badStatus).1 =
        { freshSentiment with reviewText := "  \n" } ∧
      (({ freshSentiment with reviewText := "  \n" }).analyzeSentiment .badStatus).2.head? =
        some (.alert "Por favor, escribe una reseña para analizar.")) ∧
    ((({ freshGenerative with productName := " " }).generateDescription .invalidJson).1 =
        { freshGenerative with productName := " " } ∧
      (({ freshGenerative with productName := " " }).generateDescription .invalidJson).2.head? =
        some (.alert "Por favor, ingresa al menos el nombre del producto.")) ∧
    ({ freshChat with userInput := " \t " }).sendMessage (some "") 7 .networkError =
      ({ freshChat with userInput := " \t " }, []) :=
  ⟨blank_input_validation_message.1 _ _ (by decide),
   blank_input_validation_message.2.1 _ _ (by decide),
   blank_input_validation_message.2.2 _ (some "") 7 _ (Or.inr rfl) (by decide)⟩

/-! ### The trigger button (C4) -/

theorem analyzeSentimentFinish_button (st : SentimentDemo) (originalBtnText : String)
    (outcome : FetchOutcome SentimentResponse) :
    (st.analyzeSentimentFinish originalBtnText outcome).1.analyzeButton =
      ⟨false, originalBtnText⟩ := rfl

theorem generateDescriptionFinish_button (st : GenerativeDemo) (originalBtnText : String)
    (outcome : FetchOutcome GenerativeResponse) :
    (st.generateDescriptionFinish originalBtnText outcome).1.generateButton =
      ⟨false, originalBtnText⟩ := rfl

/-- C4. Whatever the outcome of the request (a reply that renders, a reply
whose rendering throws, a failure status, a network error, a body that is not
JSON), the label and the `disabled` flag of the analyse button after
`analyzeSentiment`, and of the generate button after `generateDescription`,
are those before the call; the button is enabled before the call, being the
one whose click runs the handler. -/
theorem trigger_button_restored (st : SentimentDemo) (os : FetchOutcome SentimentResponse)
    (gen : GenerativeDemo) (og : FetchOutcome GenerativeResponse)
    (hs : st.analyzeButton.disabled = false) (hg : gen.generateButton.disabled = false) :
    (st.analyzeSentiment os).1.analyzeButton = st.analyzeButton ∧
      (gen.generateDescription og).1.generateButton = gen.generateButton := by
  constructor
  · unfold SentimentDemo.analyzeSentiment SentimentDemo.analyzeSentimentStart
    by_cases h : jsTrim st.reviewText = ""
    · simp [h]
    · simp only [h, if_false]
      rw [analyzeSentimentFinish_button]
      cases hb : st.analyzeButton with
      | mk disabled innerHTML =>
        rw [hb] at hs
        simp only at hs
        simp [hs]
  · unfold GenerativeDemo.generateDescription GenerativeDemo.generateDescriptionStart
    by_cases h : jsTrim gen.productName = ""
    · simp [h]
    · simp only [h, if_false]
      rw [generateDescriptionFinish_button]
      cases hb : gen.generateButton with
      | mk disabled innerHTML =>
        rw [hb] at hg
        simp only at hg
        simp [hg]

/-- C4 at concrete inputs: a review whose reply lacks its probabilities, so
that rendering throws, and a product whose request meets a failure status. -/
theorem trigger_button_restored_witness :
    ({ freshSentiment with reviewText := "Muy bueno" }).analyzeButton.disabled = false ∧
    ({ freshGenerative with productName := "Lámpara" }).generateButton.disabled = false ∧
    ((({ freshSentiment with reviewText := "Muy bueno" }).analyzeSentiment
        (.ok ⟨some "positive", none, none, none, none⟩)).1.analyzeButton =
        ({ freshSentiment with reviewText := "Muy bueno" }).analyzeButton ∧
      (({ freshGenerative with productName := "Lámpara" }).generateDescription
        .badStatus).1.generateButton =
        ({ freshGenerative with productName := "Lámpara" }).generateButton) :=
  ⟨rfl, rfl, trigger_button_restored _ _ _ _ rfl rfl⟩

/-! ### Rendering a sentiment reply (C5, C6) -/

/-- What `toFixed(1)` prints for a finite Number below `10^21`, whose magnitude
is `p / q` with `p = shiftUp m e` and `q = shiftUp 1 (-e)`: the sign, then the
tenths `n` with `n ≤ 10 * (p / q) + 1/2 < n + 1`, that is the multiple of one
tenth nearest to the magnitude, the larger one on a tie. -/
theorem toFixed1_nearest_tenth (neg : Bool) (m : Nat) (e : Int)
    (h : ¬ shiftUp 1 (-e) * 10 ^ 21 ≤ shiftUp m e) :
    ∃ n : Nat,
      JSNum.toFixed1 (.fin neg m e) =
        (if neg ∧ m ≠ 0 then "-" else "") ++ Nat.repr (n / 10) ++ "." ++ Nat.repr (n % 10) ∧
      2 * shiftUp 1 (-e) * n ≤ 20 * shiftUp m e + shiftUp 1 (-e) ∧
      20 * shiftUp m e + shiftUp 1 (-e) < 2 * shiftUp 1 (-e) * (n + 1) := by
  have hq : 0 < 2 * shiftUp 1 (-e) := by
    have : 0 < shiftUp 1 (-e) := by
      unfold shiftUp
      positivity
    omega
  refine ⟨(20 * shiftUp m e + shiftUp 1 (-e)) / (2 * shiftUp 1 (-e)), ?_, ?_, ?_⟩
  · simp only [JSNum.toFixed1, h, if_false]
  · exact Nat.mul_div_le _ _
  · exact Nat.lt_mul_div_succ _ hq

/-- The six keys of `styleMap` get their style, and a key that is neither one
of them nor the name of a member of `Object.prototype` gets the neutral one. -/
theorem styleFor_of_not_inherited :
    styleFor "POS" = .entry positiveStyle ∧ styleFor "positive" = .entry positiveStyle ∧
    styleFor "NEU" = .entry neutralStyle ∧ styleFor "neutral" = .entry neutralStyle ∧
    styleFor "NEG" = .entry negativeStyle ∧ styleFor "negative" = .entry negativeStyle ∧
    styleFor "Positive" = .entry neutralStyle ∧
    ∀ key : String, styleMap.lookup key = none → key ∉ objectPrototypeKeys →
      styleFor key = .entry neutralStyle := by
  refine ⟨by decide, by decide, by decide, by decide, by decide, by decide, by decide, ?_⟩
  intro key h1 h2
  simp [styleFor, styleMapGet, h1, h2]

/-- C5, at the failing keys.  For the sentiment keys `constructor` and
`toString` the lookup `styleMap[key]` finds the member that every object
inherits, which is truthy, so the neutral style is not chosen: the headline,
icon and colour of the card are the text `undefined`. -/
theorem styleFor_inherited_key_is_not_neutral :
    styleFor "constructor" = .inherited "constructor" ∧
    styleFor "toString" = .inherited "toString" ∧
    styleFor "constructor" ≠ .entry neutralStyle ∧
    styleFor "toString" ≠ .entry neutralStyle ∧
    freshSentiment.showResult constructorReply =
      .normal { freshSentiment with
        resultBox := .card ⟨"undefined", "undefined", "undefined", "undefined", "80.0", none,
          [⟨"Positivo", "fill-pos", "10.0", "10.0"⟩, ⟨"Neutral", "fill-neu", "10.0", "10.0"⟩,
            ⟨"Negativo", "fill-neg", "80.0", "80.0"⟩]⟩ } := by
  decide

/-- C6. When the reply has a probability mapping, `showResult` renders a card
whose bars are one per entry of the mapping, in the order of the entries; the
width and the printed percentage of the bar of an entry `(key, value)` are
both `(value * 100).toFixed(1)`.  For `{positive: 0.1, neutral: 0.1,
negative: 0.8}` these are `10.0`, `10.0` and `80.0`. -/
theorem showResult_one_bar_per_probability :
    (∀ (st : SentimentDemo) (data : SentimentResponse) (entries : List (String × JSNum)),
      data.probabilities = some entries →
      ∃ card : SentimentCard,
        st.showResult data = .normal { st with resultBox := .card card } ∧
        card.bars.length = entries.length ∧
        card.bars.map (fun b => (b.width, b.percent)) =
          entries.map (fun kv => ((kv.2.mul (JSNum.ofNat 100)).toFixed1,
            (kv.2.mul (JSNum.ofNat 100)).toFixed1))) ∧
    (∃ card : SentimentCard,
      freshSentiment.showResult negativeReply =
        .normal { freshSentiment with resultBox := .card card } ∧
      card.bars.map (fun b => (b.width, b.percent)) =
        [("10.0", "10.0"), ("10.0", "10.0"), ("80.0", "80.0")]) := by
  constructor
  · intro st data entries h
    simp only [SentimentDemo.showResult, h]
    refine ⟨_, rfl, ?_, ?_⟩
    · simp [probabilityBars]
    · simp [probabilityBars, percentText, JSNum.ofOption, Function.comp_def]
  · refine ⟨_, rfl, ?_⟩
    decide

/-- C6 at the reply of the end-to-end example. -/
theorem showResult_one_bar_per_probability_witness :
    negativeReply.probabilities =
      some [("positive", oneTenth), ("neutral", oneTenth), ("negative", eightTenths)] ∧
    ∃ card : SentimentCard,
      freshSentiment.showResult negativeReply =
        .normal { freshSentiment with resultBox := .card card } ∧
      card.bars.length =
        [("positive", oneTenth), ("neutral", oneTenth), ("negative", eightTenths)].length ∧
      card.bars.map (fun b => (b.width, b.percent)) =
        [("positive", oneTenth), ("neutral", oneTenth), ("negative", eightTenths)].map
          (fun kv => ((kv.2.mul (JSNum.ofNat 100)).toFixed1,
            (kv.2.mul (JSNum.ofNat 100)).toFixed1)) :=
  ⟨rfl, showResult_one_bar_per_probability.1 freshSentiment negativeReply _ rfl⟩

/-! ### A chat exchange (C7, C8) -/

theorem replaceNewlines_no_newline (s : String) : '\n' ∉ (replaceNewlines s).data := by
  simp only [replaceNewlines, List.mem_flatMap, not_exists, not_and]
  intro c _ hc
  by_cases h : c = '\n'
  · rw [if_pos h] at hc
    revert hc
    decide
  · rw [if_neg h] at hc
    simp only [List.mem_singleton] at hc
    exact h hc.symm

theorem replaceNewlines_example :
    replaceNewlines "Hola!\nBienvenido" = "Hola!<br>Bienvenido" := by
  decide

/-- The state of the widget at the `await`, for a message that is not empty. -/
theorem sendMessageStart_of_ne (st : FloatingChatbot) (text : Option String) (now : Nat)
    (h : strOr text (jsTrim st.userInput) ≠ "") :
    st.sendMessageStart text now =
      .pending
        { st with
          messagesArea := st.messagesArea ++
            [⟨none, "message user-message", strOr text (jsTrim st.userInput)⟩] ++
            [⟨some ("loading-" ++ Nat.repr now), "message bot-message", "..."⟩]
          userInput := ""
          suggestionsArea := st.suggestionsArea.map (fun _ => []) }
        (.fetch (CONFIG.API_BASE_URL ++ "/api/chatbot/message")
          (.chat (strOr text (jsTrim st.userInput)) "invitado_web"))
        ("loading-" ++ Nat.repr now) := by
  simp [FloatingChatbot.sendMessageStart, h, FloatingChatbot.addMessage,
    FloatingChatbot.showLoading]

/-- Removing the placeholder that an idle widget has just appended. -/
theorem eraseP_placeholder (area : List ChatNode) (user : ChatNode) (id : String)
    (cls content : String) (harea : ∀ el ∈ area, el.id = none) (huser : user.id = none) :
    (area ++ [user] ++ [(⟨some id, cls, content⟩ : ChatNode)]).eraseP
        (fun el => el.id == some id) =
      area ++ [user] := by
  rw [List.eraseP_append_right]
  · simp
  · intro b hb
    rcases List.mem_append.1 hb with hb | hb
    · simp [harea b hb]
    · simp only [List.mem_singleton] at hb
      simp [hb, huser]

theorem splitChars_ne_nil (sep : Char) : ∀ cs : List Char, splitChars sep cs ≠ []
  | [] => by simp [splitChars]
  | c :: cs => by
    unfold splitChars
    by_cases h : c = sep
    · simp [h]
    · simp only [h, if_false]
      cases splitChars sep cs <;> simp

theorem splitChars_of_not_mem (sep : Char) :
    ∀ cs : List Char, sep ∉ cs → splitChars sep cs = [cs]
  | [], _ => rfl
  | c :: cs, h => by
    have hc : c ≠ sep := fun e => h (by simp [e])
    have hcs : sep ∉ cs := fun e => h (List.mem_cons_of_mem _ e)
    simp [splitChars, hc, splitChars_of_not_mem sep cs hcs]

/-- Replacing every newline by `<br>` is splitting at the newlines and joining
the pieces with `<br>`. -/
theorem replaceNewlines_eq_intercalate (s : String) :
    replaceNewlines s = String.mk ("<br>".data.intercalate (splitChars '\n' s.data)) := by
  have h : ∀ cs : List Char,
      cs.flatMap (fun c => if c = '\n' then "<br>".data else [c]) =
        "<br>".data.intercalate (splitChars '\n' cs) := by
    intro cs
    induction cs with
    | nil => rfl
    | cons c cs ih =>
      unfold splitChars
      cases hs : splitChars '\n' cs with
      | nil => exact absurd hs (splitChars_ne_nil '\n' cs)
      | cons q qs =>
        rw [hs] at ih
        by_cases hc : c = '\n'
        · simp only [hc, if_true, List.flatMap_cons]
          rw [ih]
          simp [List.intercalate, List.intersperse]
        · simp only [hc, if_false, List.flatMap_cons]
          rw [ih]
          cases qs <;> simp [List.intercalate, List.intersperse]
  simp only [replaceNewlines, h]

/-- C7. On an idle widget, `sendMessage` for a message `m` that is not empty,
run to completion with a reply whose text is `r`, leaves the transcript it
found followed by a user message with content `m` and a bot message, and no
placeholder.  The content of the bot message is `r` with each newline replaced
by `<br>`: the pieces of `r` between its newlines, joined by `<br>`; it holds
no newline, and it is `r` itself when `r` holds none. -/
theorem sendMessage_appends_user_then_bot (st : FloatingChatbot) (text : Option String)
    (now : Nat) (m r : String) (suggestions : Option (List String)) (hidle : st.idle)
    (hm : strOr text (jsTrim st.userInput) = m) (hne : m ≠ "") :
    (st.sendMessage text now (.ok ⟨some r, suggestions⟩)).1.messagesArea =
        st.messagesArea ++ [⟨none, "message user-message", m⟩,
          ⟨none, "message bot-message",
            String.mk ("<br>".data.intercalate (splitChars '\n' r.data))⟩] ∧
      (∀ el ∈ (st.sendMessage text now (.ok ⟨some r, suggestions⟩)).1.messagesArea.drop
          (st.messagesArea.length + 1), '\n' ∉ el.content.data) ∧
      ('\n' ∉ r.data →
        (st.sendMessage text now (.ok ⟨some r, suggestions⟩)).1.messagesArea =
          st.messagesArea ++ [⟨none, "message user-message", m⟩,
            ⟨none, "message bot-message", r⟩]) ∧
      (st.sendMessage text now (.ok ⟨some r, suggestions⟩)).1.idle := by
  have hne' : strOr text (jsTrim st.userInput) ≠ "" := by rw [hm]; exact hne
  have harea : (st.sendMessage text now (.ok ⟨some r, suggestions⟩)).1.messagesArea =
      st.messagesArea ++ [⟨none, "message user-message", m⟩,
        ⟨none, "message bot-message", replaceNewlines r⟩] := by
    unfold FloatingChatbot.sendMessage
    rw [sendMessageStart_of_ne st text now hne', hm]
    simp only [FloatingChatbot.sendMessageFinish, FloatingChatbot.sendMessageTry,
      FloatingChatbot.removeLoading]
    rw [eraseP_placeholder st.messagesArea ⟨none, "message user-message", m⟩ _ _ _ hidle rfl]
    rcases suggestions with _ | ⟨_ | ⟨sug, rest⟩⟩
    · simp [FloatingChatbot.addMessage]
    · simp [FloatingChatbot.addMessage]
    · cases hs : st.suggestionsArea <;>
        simp [FloatingChatbot.addMessage, FloatingChatbot.renderSuggestions, hs]
  have hbr := replaceNewlines_eq_intercalate r
  refine ⟨by rw [harea, hbr], ?_, ?_, ?_⟩
  · intro el hel
    rw [harea] at hel
    have hdrop : (st.messagesArea ++ [(⟨none, "message user-message", m⟩ : ChatNode),
        ⟨none, "message bot-message", replaceNewlines r⟩]).drop (st.messagesArea.length + 1) =
        [⟨none, "message bot-message", replaceNewlines r⟩] := by
      rw [List.drop_append_eq_append_drop]
      simp
    rw [hdrop] at hel
    simp only [List.mem_singleton] at hel
    rw [hel]
    exact replaceNewlines_no_newline r
  · intro hnl
    rw [harea, hbr, splitChars_of_not_mem '\n' r.data hnl]
    simp [List.intercalate]
  · unfold FloatingChatbot.idle
    rw [harea]
    intro el hel
    rcases List.mem_append.1 hel with h | h
    · exact hidle el h
    · simp only [List.mem_cons, List.mem_singleton, List.not_mem_nil, or_false] at h
      rcases h with rfl | rfl <;> rfl

/-- C7 at the end-to-end example: `hola` typed, the reply `Hola!\nBienvenido`. -/
theorem sendMessage_appends_user_then_bot_witness :
    ({ freshChat with userInput := "hola" }).idle ∧
    strOr none (jsTrim ({ freshChat with userInput := "hola" }).userInput) = "hola" ∧
    "hola" ≠ "" ∧
    ((({ freshChat with userInput := "hola" }).sendMessage none 0
        (.ok ⟨some "Hola!\nBienvenido", some ["Ver ofertas"]⟩)).1.messagesArea =
        [⟨none, "message user-message", "hola"⟩,
          ⟨none, "message bot-message", "Hola!<br>Bienvenido"⟩] ∧
      (({ freshChat with userInput := "hola" }).sendMessage none 0
        (.ok ⟨some "Hola!\nBienvenido", some ["Ver ofertas"]⟩)).1.idle) :=
  ⟨(by intro el hel; cases hel), (by decide), (by decide),
    (sendMessage_appends_user_then_bot _ none 0 "hola" "Hola!\nBienvenido" _
      (by intro el hel; cases hel) (by decide) (by decide)).1,
    (sendMessage_appends_user_then_bot _ none 0 "hola" "Hola!\nBienvenido" _
      (by intro el hel; cases hel) (by decide) (by decide)).2.2.2⟩

/-- The suggestion area after an exchange that ends in a reply with a text. -/
theorem sendMessage_suggestionsArea (st : FloatingChatbot) (text : Option String) (now : Nat)
    (r : String) (suggestions : Option (List String)) (chips : List Chip)
    (harea : st.suggestionsArea = some chips)
    (hne : strOr text (jsTrim st.userInput) ≠ "") :
    (st.sendMessage text now (.ok ⟨some r, suggestions⟩)).1.suggestionsArea =
      some ((suggestions.getD []).map (fun sug => ⟨sug, sug⟩)) := by
  unfold FloatingChatbot.sendMessage
  rw [sendMessageStart_of_ne st text now hne]
  simp only [FloatingChatbot.sendMessageFinish, FloatingChatbot.sendMessageTry,
    FloatingChatbot.removeLoading, harea]
  rcases suggestions with _ | ⟨_ | ⟨sug, rest⟩⟩ <;>
    simp [FloatingChatbot.addMessage, FloatingChatbot.renderSuggestions]

/-- C8, as stated, fails for a chip whose text is empty: after a reply with the
suggestion list `[""]` the area holds one chip with an empty label, and
activating it sends nothing when the input field is empty, and sends the text
of the input field when something is typed there. -/
theorem empty_chip_does_not_send_its_text :
    (freshChat.sendMessage (some "hola") 0 (.ok ⟨some "Hola", some [""]⟩)).1.suggestionsArea =
        some [⟨"", ""⟩] ∧
      (freshChat.sendMessage (some "hola") 0 (.ok ⟨some "Hola", some [""]⟩)).1.clickChip 0 1 =
        .rejected (freshChat.sendMessage (some "hola") 0 (.ok ⟨some "Hola", some [""]⟩)).1 [] ∧
      (({ (freshChat.sendMessage (some "hola") 0
            (.ok ⟨some "Hola", some [""]⟩)).1 with userInput := "otra cosa" }).clickChip 0 1
          ).request =
        some (.fetch "http://localhost:8000/api/chatbot/message"
          (.chat "otra cosa" "invitado_web")) := by
  decide

/-- C8, amended.  After `sendMessage` for a non-empty message has run to
completion with a reply that has a text and the suggestion list `S` (absent
counting as empty), the suggestion area holds exactly one chip per element of
`S`, labelled with it, in order, whatever chips it held before.  Activating a
chip whose text is not empty posts that text as the next message.  Activating
a chip whose text is empty, whatever has been typed in the meantime, is
`sendMessage()` without argument: it posts the trimmed text of the input
field, and does nothing when that is empty. -/
theorem sendMessage_renders_suggestion_chips (st : FloatingChatbot) (text : Option String)
    (now : Nat) (r : String) (suggestions : Option (List String)) (chips : List Chip)
    (harea : st.suggestionsArea = some chips)
    (hne : strOr text (jsTrim st.userInput) ≠ "") :
    (st.sendMessage text now (.ok ⟨some r, suggestions⟩)).1.suggestionsArea =
        some ((suggestions.getD []).map (fun sug => ⟨sug, sug⟩)) ∧
      (∀ (j : Nat) (sug : String) (later : Nat),
        (suggestions.getD [])[j]? = some sug → sug ≠ "" →
        ((st.sendMessage text now (.ok ⟨some r, suggestions⟩)).1.clickChip j later).request =
          some (.fetch (CONFIG.API_BASE_URL ++ "/api/chatbot/message")
            (.chat sug "invitado_web"))) ∧
      (∀ (j : Nat) (later : Nat) (typed : String),
        (suggestions.getD [])[j]? = some "" →
        ({ (st.sendMessage text now (.ok ⟨some r, suggestions⟩)).1 with
              userInput := typed }).clickChip j later =
            ({ (st.sendMessage text now (.ok ⟨some r, suggestions⟩)).1 with
              userInput := typed }).sendMessageStart none later ∧
          (jsTrim typed ≠ "" →
            (({ (st.sendMessage text now (.ok ⟨some r, suggestions⟩)).1 with
              userInput := typed }).clickChip j later).request =
              some (.fetch (CONFIG.API_BASE_URL ++ "/api/chatbot/message")
                (.chat (jsTrim typed) "invitado_web"))) ∧
          (jsTrim typed = "" →
            ({ (st.sendMessage text now (.ok ⟨some r, suggestions⟩)).1 with
              userInput := typed }).clickChip j later =
              .rejected { (st.sendMessage text now (.ok ⟨some r, suggestions⟩)).1 with
                userInput := typed } [])) := by
  have h := sendMessage_suggestionsArea st text now r suggestions chips harea hne
  refine ⟨h, ?_, ?_⟩
  · intro j sug later hj hsug
    have hstr : strOr (some sug)
        (jsTrim (st.sendMessage text now (.ok ⟨some r, suggestions⟩)).1.userInput) = sug := by
      simp [strOr, hsug]
    have hne2 : strOr (some sug)
        (jsTrim (st.sendMessage text now (.ok ⟨some r, suggestions⟩)).1.userInput) ≠ "" := by
      rw [hstr]; exact hsug
    unfold FloatingChatbot.clickChip
    rw [h]
    simp only [Option.bind, List.getElem?_map, hj, Option.map]
    rw [sendMessageStart_of_ne _ (some sug) later hne2, hstr]
    rfl
  · intro j later typed hj
    have hclick : ({ (st.sendMessage text now (.ok ⟨some r, suggestions⟩)).1 with
          userInput := typed }).clickChip j later =
        ({ (st.sendMessage text now (.ok ⟨some r, suggestions⟩)).1 with
          userInput := typed }).sendMessageStart none later := by
      unfold FloatingChatbot.clickChip
      simp only [h, Option.bind, List.getElem?_map, hj, Option.map]
      simp [FloatingChatbot.sendMessageStart, strOr]
    refine ⟨hclick, ?_, ?_⟩
    · intro htyped
      rw [hclick, sendMessageStart_of_ne _ none later (by simpa [strOr] using htyped)]
      simp [Started.request, strOr]
    · intro htyped
      rw [hclick]
      simp [FloatingChatbot.sendMessageStart, strOr, htyped]

/-- C8, amended, at the end-to-end example: one chip `Ver ofertas`; and at a
reply whose only suggestion is empty, with `otra cosa` typed afterwards. -/
theorem sendMessage_renders_suggestion_chips_witness :
    chatWithHola.suggestionsArea = some [⟨"Antes", "Antes"⟩] ∧
    strOr none (jsTrim chatWithHola.userInput) ≠ "" ∧
    (chatWithHola.sendMessage none 0
        (.ok ⟨some "Hola!\nBienvenido", some ["Ver ofertas"]⟩)).1.suggestionsArea =
      some [⟨"Ver ofertas", "Ver ofertas"⟩] ∧
    ((chatWithHola.sendMessage none 0
        (.ok ⟨some "Hola!\nBienvenido", some ["Ver ofertas"]⟩)).1.clickChip 0 1).request =
      some (.fetch (CONFIG.API_BASE_URL ++ "/api/chatbot/message")
        (.chat "Ver ofertas" "invitado_web")) ∧
    (jsTrim " otra cosa " ≠ "" ∧
      (({ (chatWithHola.sendMessage none 0 (.ok ⟨some "Hola", some [""]⟩)).1 with
          userInput := " otra cosa " }).clickChip 0 1).request =
        some (.fetch (CONFIG.API_BASE_URL ++ "/api/chatbot/message")
          (.chat (jsTrim " otra cosa ") "invitado_web"))) :=
  ⟨rfl, (by decide),
    (sendMessage_renders_suggestion_chips chatWithHola none 0 "Hola!\nBienvenido"
      (some ["Ver ofertas"]) [⟨"Antes", "Antes"⟩] rfl (by decide)).1,
    (sendMessage_renders_suggestion_chips chatWithHola none 0 "Hola!\nBienvenido"
      (some ["Ver ofertas"]) [⟨"Antes", "Antes"⟩] rfl (by decide)).2.1 0 "Ver ofertas" 1 rfl
      (by decide),
    ⟨by decide,
      ((sendMessage_renders_suggestion_chips chatWithHola none 0 "Hola"
        (some [""]) [⟨"Antes", "Antes"⟩] rfl (by decide)).2.2 0 1 " otra cosa " rfl).2.1
        (by decide)⟩⟩

/-! ### Failures (C9, C10) -/

theorem setLastContent_of_ne_nil (content : RegionContent) :
    ∀ grid : List RegionContent, grid ≠ [] →
      setLastContent content grid = some (grid.dropLast ++ [content])
  | [], h => absurd rfl h
  | [_], _ => rfl
  | c :: d :: rest, _ => by
    rw [setLastContent, setLastContent_of_ne_nil content (d :: rest) (by simp)]
    simp

theorem sendMessageTry_of_failure (st : FloatingChatbot) (loadingId : String)
    (outcome : FetchOutcome ChatResponse) (h : outcome.isFailure = true) :
    st.sendMessageTry loadingId outcome = .thrown st := by
  cases outcome <;> first | rfl | cases h

theorem analyzeSentimentTry_of_failure (st : SentimentDemo)
    (outcome : FetchOutcome SentimentResponse) (h : outcome.isFailure = true) :
    st.analyzeSentimentTry outcome = .thrown st := by
  cases outcome <;> first | rfl | cases h

theorem uploadToBackendTry_of_failure (st : VisualSearchDemo)
    (outcome : FetchOutcome VisualResponse) (h : outcome.isFailure = true) :
    st.uploadToBackendTry outcome = .thrown st := by
  cases outcome <;> first | rfl | cases h

theorem generateDescriptionTry_of_failure (st : GenerativeDemo)
    (outcome : FetchOutcome GenerativeResponse) (h : outcome.isFailure = true) :
    st.generateDescriptionTry outcome = .thrown st := by
  cases outcome <;> first | rfl | cases h

/-- The failure paths.  When the request fails (network error, failure
status, body that is not JSON), the chat removes the placeholder and appends
its connection-error message as a bot message; the sentiment and generative
widgets put theirs in their result element; the visual search puts its own in
the last element child of the results grid and completes normally, provided
the grid has an element child when the request settles. -/
theorem failure_renders_connection_error :
    (∀ (st : FloatingChatbot) (loadingId : String) (outcome : FetchOutcome ChatResponse),
      outcome.isFailure = true →
      (st.sendMessageFinish loadingId outcome).1.messagesArea =
        st.messagesArea.eraseP (fun el => el.id == some loadingId) ++
          [⟨none, "message bot-message", chatErrorText⟩]) ∧
    (∀ (st : SentimentDemo) (originalBtnText : String)
      (outcome : FetchOutcome SentimentResponse), outcome.isFailure = true →
      (st.analyzeSentimentFinish originalBtnText outcome).1.resultBox = .connectionError) ∧
    (∀ (st : VisualSearchDemo) (outcome : FetchOutcome VisualResponse),
      outcome.isFailure = true → st.resultsGrid ≠ [] →
      (st.uploadToBackendFinish outcome).1 =
        .normal { resultsGrid := st.resultsGrid.dropLast ++ [.connectionError] }) ∧
    (∀ (st : GenerativeDemo) (originalBtnText : String)
      (outcome : FetchOutcome GenerativeResponse), outcome.isFailure = true →
      (st.generateDescriptionFinish originalBtnText outcome).1.generatedText =
        .connectionError) := by
  refine ⟨?_, ?_, ?_, ?_⟩
  · intro st loadingId outcome h
    simp [FloatingChatbot.sendMessageFinish, sendMessageTry_of_failure st loadingId outcome h,
      FloatingChatbot.removeLoading, FloatingChatbot.addMessage]
  · intro st originalBtnText outcome h
    simp [SentimentDemo.analyzeSentimentFinish, analyzeSentimentTry_of_failure st outcome h]
  · intro st outcome h hgrid
    simp [VisualSearchDemo.uploadToBackendFinish, uploadToBackendTry_of_failure st outcome h,
      setLastContent_of_ne_nil _ _ hgrid]
  · intro st originalBtnText outcome h
    simp [GenerativeDemo.generateDescriptionFinish,
      generateDescriptionTry_of_failure st outcome h]

/-- The failure paths at concrete inputs: one kind of failure per widget; the
chat waits with its placeholder, the visual search has rendered its preview. -/
theorem failure_renders_connection_error_example :
    (({ freshChat with messagesArea :=
          [⟨none, "message user-message", "hola"⟩,
            ⟨some "loading-5", "message bot-message", "..."⟩] }).sendMessageFinish
        "loading-5" .networkError).1.messagesArea =
      [⟨none, "message user-message", "hola"⟩, ⟨none, "message bot-message", chatErrorText⟩] ∧
    (freshSentiment.showLoading.analyzeSentimentFinish "Analizar" .badStatus).1.resultBox =
      .connectionError ∧
    ((VisualSearchDemo.mk []).showPreviewAndLoading "data:image/png;base64,AA"
        ).uploadToBackendFinish .invalidJson =
      (.normal ⟨[.preview "data:image/png;base64,AA", .connectionError]⟩,
        [.consoleError "Error en búsqueda visual:"]) ∧
    (freshGenerative.showLoading.generateDescriptionFinish "Generar"
        .networkError).1.generatedText = .connectionError :=
  ⟨failure_renders_connection_error.1 _ "loading-5" .networkError rfl,
   failure_renders_connection_error.2.1 _ "Analizar" .badStatus rfl,
   (by
    have h := failure_renders_connection_error.2.2.1
      ((VisualSearchDemo.mk []).showPreviewAndLoading "data:image/png;base64,AA")
      .invalidJson rfl (by decide)
    exact Prod.ext h rfl),
   failure_renders_connection_error.2.2.2 _ "Generar" .networkError rfl⟩

/-- C9, at the failing input.  `handleFile` starts the reader and the request
and renders nothing; the preview is rendered only when the reader has loaded.
When the request fails before that on a results grid that has no element
child, `lastElementChild` is `null` in the `catch` block of `uploadToBackend`,
the assignment throws, no connection-error message is rendered and the
exception leaves the handler uncaught. -/
theorem uploadToBackend_failure_without_region_throws :
    (VisualSearchDemo.mk []).handleFile ⟨"foto.png", "image/png"⟩ =
      (⟨[]⟩, [.readAsDataURL ⟨"foto.png", "image/png"⟩,
        .fetch "http://localhost:8000/api/visual/search"
          (.visual ⟨"foto.png", "image/png"⟩ 4)]) ∧
    (VisualSearchDemo.mk []).uploadToBackendFinish .networkError =
      (.thrown ⟨[]⟩, [.consoleError "Error en búsqueda visual:"]) ∧
    (VisualSearchDemo.mk []).uploadToBackendFinish .badStatus =
      (.thrown ⟨[]⟩, [.consoleError "Error en búsqueda visual:"]) ∧
    (VisualSearchDemo.mk []).uploadToBackendFinish .invalidJson =
      (.thrown ⟨[]⟩, [.consoleError "Error en búsqueda visual:"]) := by
  decide

theorem eraseP_eraseP_of_countP_le_one {α : Type} (p : α → Bool) :
    ∀ l : List α, l.countP p ≤ 1 → (l.eraseP p).eraseP p = l.eraseP p
  | [], _ => rfl
  | a :: l, h => by
    by_cases ha : p a = true
    · rw [List.eraseP_cons_of_pos ha]
      rw [List.countP_cons_of_pos _ _ ha] at h
      have h0 : l.countP p = 0 := by omega
      exact List.eraseP_of_forall_not (fun b hb => (List.countP_eq_zero.1 h0) b hb)
    · rw [List.eraseP_cons_of_neg ha, List.eraseP_cons_of_neg ha]
      rw [List.countP_cons_of_neg _ _ ha] at h
      rw [eraseP_eraseP_of_countP_le_one p l h]

/-- C10, as stated, fails: a sentiment reply with a success status that lacks
the `sentiment` field is rendered as a result card in the neutral style,
whereas a failure status renders the connection-error message. -/
theorem reply_without_sentiment_is_rendered :
    (freshSentiment.showLoading.analyzeSentimentFinish "Analizar"
        (.ok { negativeReply with sentiment := none })).1.resultBox =
      .card ⟨"fa-meh", "#f59e0b", "Neutral", "#f59e0b", "80.0", none,
        [⟨"Positivo", "fill-pos", "10.0", "10.0"⟩, ⟨"Neutral", "fill-neu", "10.0", "10.0"⟩,
          ⟨"Negativo", "fill-neg", "80.0", "80.0"⟩]⟩ ∧
    (freshSentiment.showLoading.analyzeSentimentFinish "Analizar" .badStatus).1.resultBox =
      .connectionError := by
  decide

/-- C10, amended.  A reply with a success status that lacks a field is treated
like a failure status in these cases only: a chat reply without `response`
(the placeholder having a unique id), a sentiment reply without
`probabilities`, a generation reply that reports success without `data`.
Otherwise the reply is rendered: a sentiment reply without `sentiment` as a
card in the neutral style, one without `confidence` as a card whose confidence
reads `NaN`; a visual-search reply without `similar_products` as the
no-results message (in the last element child of the grid); a generation reply without `data.descripcion` as a
typewriter started on `undefined`, with the model labelled. -/
theorem reply_lacking_a_field :
    (∀ (st : FloatingChatbot) (loadingId : String) (suggestions : Option (List String)),
      st.messagesArea.countP (fun el => el.id == some loadingId) ≤ 1 →
      st.sendMessageFinish loadingId (.ok ⟨none, suggestions⟩) =
        st.sendMessageFinish loadingId .badStatus) ∧
    (∀ (st : SentimentDemo) (originalBtnText : String) (data : SentimentResponse),
      data.probabilities = none →
      st.analyzeSentimentFinish originalBtnText (.ok data) =
        st.analyzeSentimentFinish originalBtnText .badStatus) ∧
    (∀ (st : GenerativeDemo) (originalBtnText : String),
      st.generateDescriptionFinish originalBtnText (.ok ⟨some true, none⟩) =
        st.generateDescriptionFinish originalBtnText .badStatus) ∧
    (∀ (st : SentimentDemo) (originalBtnText : String) (data : SentimentResponse)
      (entries : List (String × JSNum)),
      data.probabilities = some entries →
      ∃ card : SentimentCard,
        (st.analyzeSentimentFinish originalBtnText (.ok data)).1.resultBox = .card card ∧
        (data.sentiment = none →
          card.headline = "Neutral" ∧ card.icon = "fa-meh" ∧ card.iconColor = "#f59e0b") ∧
        (data.confidence = none → card.confidence = "NaN")) ∧
    (∀ (st : VisualSearchDemo), st.resultsGrid ≠ [] →
      st.uploadToBackendFinish (.ok ⟨none⟩) =
        (.normal { resultsGrid := st.resultsGrid.dropLast ++ [.noResults] }, [])) ∧
    (∀ (st : GenerativeDemo) (originalBtnText : String) (modelo_usado : Option String),
      (st.generateDescriptionFinish originalBtnText
          (.ok ⟨some true, some ⟨none, modelo_usado⟩⟩)).1.generatedText =
        .typing ⟨none, 0, [], true⟩ ∧
      (st.generateDescriptionFinish originalBtnText
          (.ok ⟨some true, some ⟨none, modelo_usado⟩⟩)).1.modelBadge.textContent =
        "Generado con: " ++ strOr modelo_usado "IA Generativa") := by
  refine ⟨?_, ?_, ?_, ?_, ?_, ?_⟩
  · intro st loadingId suggestions h
    simp [FloatingChatbot.sendMessageFinish, FloatingChatbot.sendMessageTry,
      FloatingChatbot.removeLoading, eraseP_eraseP_of_countP_le_one _ _ h]
  · intro st originalBtnText data h
    simp [SentimentDemo.analyzeSentimentFinish, SentimentDemo.analyzeSentimentTry,
      SentimentDemo.showResult, h]
  · intro st originalBtnText
    rfl
  · intro st originalBtnText data entries h
    simp only [SentimentDemo.analyzeSentimentFinish, SentimentDemo.analyzeSentimentTry,
      SentimentDemo.showResult, h]
    refine ⟨_, rfl, ?_, ?_⟩
    · intro hs
      rw [hs]
      exact ⟨rfl, rfl, rfl⟩
    · intro hc
      rw [hc]
      rfl
  · intro st hgrid
    simp [VisualSearchDemo.uploadToBackendFinish, VisualSearchDemo.uploadToBackendTry,
      VisualSearchDemo.renderResults, setLastContent_of_ne_nil _ _ hgrid]
  · intro st originalBtnText modelo_usado
    simp only [GenerativeDemo.generateDescriptionFinish, GenerativeDemo.generateDescriptionTry,
      GenerativeDemo.showGeneratedText, typeWriterStart, if_true]
    by_cases hm : jsIncludes (strOr modelo_usado "IA Generativa") "templates" = true <;>
      simp [hm]

/-- C10, amended, at concrete inputs. -/
theorem reply_lacking_a_field_witness :
    ({ freshChat with messagesArea :=
          [⟨some "loading-5", "message bot-message", "..."⟩] }).sendMessageFinish "loading-5"
        (.ok ⟨none, some ["Ver ofertas"]⟩) =
      ({ freshChat with messagesArea :=
          [⟨some "loading-5", "message bot-message", "..."⟩] }).sendMessageFinish "loading-5"
        .badStatus ∧
    freshSentiment.analyzeSentimentFinish "Analizar"
        (.ok { negativeReply with probabilities := none }) =
      freshSentiment.analyzeSentimentFinish "Analizar" .badStatus ∧
    (∃ card : SentimentCard,
      (freshSentiment.analyzeSentimentFinish "Analizar"
          (.ok ⟨none, none, none, none, some [("positive", oneTenth)]⟩)).1.resultBox =
        .card card ∧
      ((none : Option String) = none →
        card.headline = "Neutral" ∧ card.icon = "fa-meh" ∧ card.iconColor = "#f59e0b") ∧
      ((none : Option JSNum) = none → card.confidence = "NaN")) ∧
    (⟨[.preview "data:image/png;base64,AA", .searching]⟩ : VisualSearchDemo
        ).uploadToBackendFinish (.ok ⟨none⟩) =
      (.normal ⟨[.preview "data:image/png;base64,AA", .noResults]⟩, []) :=
  ⟨reply_lacking_a_field.1 _ "loading-5" (some ["Ver ofertas"]) (by decide),
   reply_lacking_a_field.2.1 _ "Analizar" _ rfl,
   reply_lacking_a_field.2.2.2.1 freshSentiment "Analizar"
     ⟨none, none, none, none, some [("positive", oneTenth)]⟩ [("positive", oneTenth)] rfl,
   reply_lacking_a_field.2.2.2.2.1 ⟨[.preview "data:image/png;base64,AA", .searching]⟩
     (by decide)⟩

/-! ### Choosing a file (C11) -/

/-- C11. `handleFile` issues the search request iff the MIME type of the file
starts with `image/`; for every other file it shows the alert and nothing
else: no request, and the results grid as it was. -/
theorem handleFile_requests_iff_image (st : VisualSearchDemo) (file : UploadFile) :
    ((∃ e ∈ (st.handleFile file).2, e.isFetch = true) ↔ "image/".data <+: file.type.data) ∧
    ((st.handleFile file).2 =
        [.readAsDataURL file,
          .fetch (CONFIG.API_BASE_URL ++ "/api/visual/search") (.visual file 4)] ↔
      "image/".data <+: file.type.data) ∧
    (¬ "image/".data <+: file.type.data →
      st.handleFile file = (st, [.alert "Por favor, selecciona una imagen válida"]) ∧
      noFetch (st.handleFile file).2) ∧
    (st.handleFile file).1 = st := by
  have hiff : jsStartsWith file.type "image/" = true ↔ "image/".data <+: file.type.data := by
    unfold jsStartsWith
    exact List.isPrefixOf_iff_prefix
  by_cases h : jsStartsWith file.type "image/" = true
  · have hp := hiff.1 h
    simp [VisualSearchDemo.handleFile, h, hp, Effect.isFetch]
  · have hp : ¬ "image/".data <+: file.type.data := fun hp => h (hiff.2 hp)
    simp [VisualSearchDemo.handleFile, h, hp, Effect.isFetch, noFetch]

/-- C11 at a text file. -/
theorem handleFile_requests_iff_image_witness :
    ¬ "image/".data <+: ("text/plain" : String).data ∧
    (VisualSearchDemo.mk [.page "<p>Sube una imagen</p>"]).handleFile ⟨"notas.txt", "text/plain"⟩ =
      (VisualSearchDemo.mk [.page "<p>Sube una imagen</p>"],
        [.alert "Por favor, selecciona una imagen válida"]) ∧
    noFetch ((VisualSearchDemo.mk [.page "<p>Sube una imagen</p>"]).handleFile
      ⟨"notas.txt", "text/plain"⟩).2 :=
  ⟨by decide,
    (handleFile_requests_iff_image (VisualSearchDemo.mk [.page "<p>Sube una imagen</p>"])
      ⟨"notas.txt", "text/plain"⟩).2.2.1 (by decide)⟩

/-! ### The statistics animation starts once (C12) -/

theorem onScroll_of_visible (st : StatsCounter) (heroStats : Option Rect) (window : Viewport)
    (ha : st.animated = false) (hv : isStatsVisible heroStats window = true) :
    st.onScroll heroStats window = ({ st.animateStats with animated := true }, true) := by
  simp [StatsCounter.onScroll, ha, hv]

theorem onScroll_of_not_visible (st : StatsCounter) (heroStats : Option Rect)
    (window : Viewport) (hv : isStatsVisible heroStats window = false) :
    st.onScroll heroStats window = (st, false) := by
  simp [StatsCounter.onScroll, hv]

theorem onScroll_of_animated (st : StatsCounter) (heroStats : Option Rect) (window : Viewport)
    (ha : st.animated = true) : st.onScroll heroStats window = (st, false) := by
  simp [StatsCounter.onScroll, ha]

theorem scrolls_of_animated (es : List (Option Rect × Viewport)) :
    ∀ st : StatsCounter, st.animated = true →
      (st.scrolls es).2 = List.replicate es.length false := by
  induction es with
  | nil => intro st _; rfl
  | cons e es ih =>
    intro st ha
    simp only [StatsCounter.scrolls, onScroll_of_animated st e.1 e.2 ha, ih st ha,
      List.length_cons, List.replicate_succ]

theorem scrolls_length (es : List (Option Rect × Viewport)) :
    ∀ st : StatsCounter, (st.scrolls es).2.length = es.length := by
  induction es with
  | nil => intro st; rfl
  | cons e es ih =>
    intro st
    simp only [StatsCounter.scrolls, List.length_cons, ih]

theorem scrolls_called_iff (es : List (Option Rect × Viewport)) :
    ∀ (st : StatsCounter), st.animated = false → ∀ i : Nat,
      ((st.scrolls es).2[i]? = some true ↔
        (∃ e, es[i]? = some e ∧ isStatsVisible e.1 e.2 = true) ∧
          ∀ j < i, ∀ e, es[j]? = some e → isStatsVisible e.1 e.2 = false) := by
  induction es with
  | nil =>
    intro st _ i
    simp [StatsCounter.scrolls]
  | cons e es ih =>
    intro st ha i
    by_cases hv : isStatsVisible e.1 e.2 = true
    · have hrest := scrolls_of_animated es { st.animateStats with animated := true } rfl
      simp only [StatsCounter.scrolls, onScroll_of_visible st e.1 e.2 ha hv, hrest]
      cases i with
      | zero => simp [hv]
      | succ i =>
        simp only [List.getElem?_cons_succ]
        constructor
        · intro h
          rw [List.getElem?_replicate] at h
          split at h <;> simp at h
        · intro h
          have h0 := h.2 0 (Nat.succ_pos i) e (by simp)
          rw [hv] at h0
          cases h0
    · have hv' : isStatsVisible e.1 e.2 = false := by simpa using hv
      simp only [StatsCounter.scrolls, onScroll_of_not_visible st e.1 e.2 hv']
      cases i with
      | zero => simp [hv']
      | succ i =>
        simp only [List.getElem?_cons_succ]
        rw [ih st ha i]
        constructor
        · rintro ⟨h1, h2⟩
          refine ⟨h1, ?_⟩
          intro j hj e' he'
          cases j with
          | zero =>
            simp only [List.getElem?_cons_zero, Option.some.injEq] at he'
            rw [← he']; exact hv'
          | succ j => exact h2 j (Nat.lt_of_succ_lt_succ hj) e' (by simpa using he')
        · rintro ⟨h1, h2⟩
          refine ⟨h1, ?_⟩
          intro j hj e' he'
          exact h2 (j + 1) (Nat.succ_lt_succ hj) e' (by simpa using he')

theorem scrolls_count_le_one (es : List (Option Rect × Viewport)) :
    ∀ (st : StatsCounter), ((st.scrolls es).2.count true) ≤ 1 := by
  induction es with
  | nil => intro st; simp [StatsCounter.scrolls]
  | cons e es ih =>
    intro st
    by_cases h : !st.animated && isStatsVisible e.1 e.2
    · have hrest := scrolls_of_animated es { st.animateStats with animated := true } rfl
      simp [StatsCounter.scrolls, StatsCounter.onScroll, h, hrest, List.count_replicate]
    · have := ih st
      simp [StatsCounter.scrolls, StatsCounter.onScroll, h, this]

/-- C12. Over every sequence of scroll events on a freshly constructed
counter, `animateStats` is called at the `i`-th event iff the statistics
region is visible at that event and at none before it; so it is called at
most once, however often the region is visible again. -/
theorem animateStats_called_on_first_visible_only (stats : List String)
    (events : List (Option Rect × Viewport)) :
    ((StatsCounter.new stats).scrolls events).2.length = events.length ∧
    ((StatsCounter.new stats).scrolls events).2.count true ≤ 1 ∧
    ∀ i : Nat,
      (((StatsCounter.new stats).scrolls events).2[i]? = some true ↔
        (∃ e, events[i]? = some e ∧ isStatsVisible e.1 e.2 = true) ∧
          ∀ j < i, ∀ e, events[j]? = some e → isStatsVisible e.1 e.2 = false) :=
  ⟨scrolls_length events _, scrolls_count_le_one events _,
    scrolls_called_iff events (StatsCounter.new stats) rfl⟩

/-! ### The active navigation link (C13, C14) -/

/-- C13, as stated, fails at both ends of the interval.  For a section with
`offsetTop = 100` and `offsetHeight = 500` the claimed interval is `[0, 500)`:
the scroll offset `0` lies in it and the section is not taken as active, the
offset `500` lies outside and the section is taken as active. -/
theorem sectionMatches_interval_ends :
    sectionMatches 0 ⟨"inicio", 100, 500⟩ = false ∧
    ((100 : ℚ) - 100 ≤ 0 ∧ (0 : ℚ) < 100 - 100 + 500) ∧
    sectionMatches 500 ⟨"inicio", 100, 500⟩ = true ∧
    ¬ ((100 : ℚ) - 100 ≤ 500 ∧ (500 : ℚ) < 100 - 100 + 500) := by
  norm_num [sectionMatches]

theorem classRemove_classAdd (c : String) (cl : List String) :
    classRemove c (classAdd c cl) = classRemove c cl := by
  unfold classRemove classAdd
  by_cases h : c ∈ cl <;> simp [h, List.filter_append]

theorem classRemove_classRemove (c : String) (cl : List String) :
    classRemove c (classRemove c cl) = classRemove c cl := by
  unfold classRemove
  simp [List.filter_filter]

theorem getElem?_modifyAt {α : Type} (f : α → α) :
    ∀ (i : Nat) (l : List α) (k : Nat),
      (modifyAt f i l)[k]? = if k = i then l[k]?.map f else l[k]?
  | i, [], k => by cases i <;> simp [modifyAt]
  | 0, x :: xs, k => by cases k <;> simp [modifyAt]
  | i + 1, x :: xs, k => by
    cases k with
    | zero => simp [modifyAt]
    | succ k => simp [modifyAt, getElem?_modifyAt f i xs k]

theorem hasClass_classAdd_of_ne (c t : String) (cl : List String) (h : c ≠ t) :
    hasClass c (classAdd t cl) = hasClass c cl := by
  unfold hasClass classAdd
  by_cases ht : t ∈ cl <;> simp [ht, h]

theorem hasClass_classRemove_of_ne (c t : String) (cl : List String) (h : c ≠ t) :
    hasClass c (classRemove t cl) = hasClass c cl := by
  unfold hasClass classRemove
  simp [h]

/-! #### The selector of a section id -/

theorem cssPreprocess_of_plain :
    ∀ cs : List Char, '\r' ∉ cs → '\x0c' ∉ cs → '\x00' ∉ cs → cssPreprocess cs = cs
  | [], _, _, _ => rfl
  | c :: cs, h1, h2, h3 => by
    have hc1 : c ≠ '\r' := fun e => h1 (by simp [e])
    have hc2 : c ≠ '\x0c' := fun e => h2 (by simp [e])
    have hc3 : c ≠ '\x00' := fun e => h3 (by simp [e])
    have ih := cssPreprocess_of_plain cs (fun e => h1 (List.mem_cons_of_mem _ e))
      (fun e => h2 (List.mem_cons_of_mem _ e)) (fun e => h3 (List.mem_cons_of_mem _ e))
    rw [cssPreprocess.eq_def]
    simp only [hc1, hc2, hc3, if_false, ih]

theorem consumeString_of_plain (rest : List Char) :
    ∀ (cs value : List Char) (fuel : Nat), '"' ∉ cs → '\\' ∉ cs → '\n' ∉ cs →
      cs.length + 1 ≤ fuel →
      consumeString fuel value (cs ++ '"' :: rest) = .closed (value ++ cs) rest
  | [], value, fuel, _, _, _, hfuel => by
    obtain ⟨f, rfl⟩ : ∃ f, fuel = f + 1 := ⟨fuel - 1, by simp at hfuel; omega⟩
    simp [consumeString]
  | c :: cs, value, fuel, h1, h2, h3, hfuel => by
    obtain ⟨f, rfl⟩ : ∃ f, fuel = f + 1 := ⟨fuel - 1, by omega⟩
    have hc1 : c ≠ '"' := fun e => h1 (by simp [e])
    have hc2 : c ≠ '\\' := fun e => h2 (by simp [e])
    have hc3 : c ≠ '\n' := fun e => h3 (by simp [e])
    have ih := consumeString_of_plain rest cs (value ++ [c]) f
      (fun e => h1 (List.mem_cons_of_mem _ e)) (fun e => h2 (List.mem_cons_of_mem _ e))
      (fun e => h3 (List.mem_cons_of_mem _ e)) (by simp at hfuel; omega)
    simp [consumeString, hc1, hc2, hc3, ih]

/-- An id without quote, backslash, line break and `NUL` is tested as it is
written. -/
theorem readSelector_of_plain (sectionId : String)
    (h : ∀ c ∈ sectionId.data, isPlainIdChar c = true) :
    readSelector sectionId = .attribute ("#" ++ sectionId) := by
  have hp : ∀ c ∈ sectionId.data,
      c ≠ '"' ∧ c ≠ '\\' ∧ c ≠ '\n' ∧ c ≠ '\r' ∧ c ≠ '\x0c' ∧ c ≠ '\x00' := by
    intro c hc
    have := h c hc
    simpa [isPlainIdChar, and_assoc] using this
  have hdata : ("#" ++ sectionId ++ "\"]").data = ('#' :: sectionId.data) ++ '"' :: [']'] := by
    simp [String.data_append]
  have hpre : cssPreprocess (('#' :: sectionId.data) ++ '"' :: [']']) =
      ('#' :: sectionId.data) ++ '"' :: [']'] := by
    apply cssPreprocess_of_plain
    · intro hm
      simp only [List.cons_append, List.mem_cons, List.mem_append, List.mem_singleton,
        List.not_mem_nil, or_false] at hm
      rcases hm with hm | hm | hm | hm
      · exact absurd hm (by decide)
      · exact (hp _ hm).2.2.2.1 rfl
      · exact absurd hm (by decide)
      · exact absurd hm (by decide)
    · intro hm
      simp only [List.cons_append, List.mem_cons, List.mem_append, List.mem_singleton,
        List.not_mem_nil, or_false] at hm
      rcases hm with hm | hm | hm | hm
      · exact absurd hm (by decide)
      · exact (hp _ hm).2.2.2.2.1 rfl
      · exact absurd hm (by decide)
      · exact absurd hm (by decide)
    · intro hm
      simp only [List.cons_append, List.mem_cons, List.mem_append, List.mem_singleton,
        List.not_mem_nil, or_false] at hm
      rcases hm with hm | hm | hm | hm
      · exact absurd hm (by decide)
      · exact (hp _ hm).2.2.2.2.2 rfl
      · exact absurd hm (by decide)
      · exact absurd hm (by decide)
  have hcons := consumeString_of_plain [']'] ('#' :: sectionId.data) []
    ((('#' :: sectionId.data) ++ '"' :: [']']).length)
    (by
      intro hm
      rcases List.mem_cons.1 hm with hm | hm
      · exact absurd hm (by decide)
      · exact (hp _ hm).1 rfl)
    (by
      intro hm
      rcases List.mem_cons.1 hm with hm | hm
      · exact absurd hm (by decide)
      · exact (hp _ hm).2.1 rfl)
    (by
      intro hm
      rcases List.mem_cons.1 hm with hm | hm
      · exact absurd hm (by decide)
      · exact (hp _ hm).2.2.1 rfl)
    (by simp)
  unfold readSelector
  simp only [hdata, hpre, hcons, List.nil_append, if_true]
  congr 1

/-- C13, amended.  For every section and every scroll offset `y`,
`updateActiveLink` takes the section as active iff `y` lies in the left-open,
right-closed interval `(top - 100, top - 100 + height]`: on a page with that
section alone it activates the link of the section iff `y` lies there, for
every id whose selector is an attribute test, as it is for an id without
quotation mark, backslash, line break and `NUL`, whose link is the first of
class `nav-link` with `#` and the id as `href`; it throws for an id whose
selector is no selector. -/
theorem sectionMatches_iff (y : ℚ) (s : Section) :
    (sectionMatches y s = true ↔
      (s.offsetTop : ℚ) - 100 < y ∧ y ≤ (s.offsetTop : ℚ) - 100 + (s.offsetHeight : ℚ)) ∧
    ∀ nav : Navigation,
      (∀ value : String, readSelector s.id = .attribute value →
        nav.updateActiveLink [s] y =
          some (.normal
            (if (s.offsetTop : ℚ) - 100 < y ∧
                y ≤ (s.offsetTop : ℚ) - 100 + (s.offsetHeight : ℚ)
              then nav.activate (findNavLink nav.navLinks value) else nav))) ∧
      ((∀ c ∈ s.id.data, isPlainIdChar c = true) →
        nav.updateActiveLink [s] y =
          some (.normal
            (if (s.offsetTop : ℚ) - 100 < y ∧
                y ≤ (s.offsetTop : ℚ) - 100 + (s.offsetHeight : ℚ)
              then nav.activate (findNavLink nav.navLinks ("#" ++ s.id)) else nav))) ∧
      (readSelector s.id = .invalid → nav.updateActiveLink [s] y = some (.thrown nav)) := by
  have h : sectionMatches y s = true ↔
      (s.offsetTop : ℚ) - 100 < y ∧ y ≤ (s.offsetTop : ℚ) - 100 + (s.offsetHeight : ℚ) := by
    simp [sectionMatches]
  refine ⟨h, ?_⟩
  intro nav
  have hattr : ∀ value : String, readSelector s.id = .attribute value →
      nav.updateActiveLink [s] y =
        some (.normal
          (if (s.offsetTop : ℚ) - 100 < y ∧
              y ≤ (s.offsetTop : ℚ) - 100 + (s.offsetHeight : ℚ)
            then nav.activate (findNavLink nav.navLinks value) else nav)) := by
    intro value hv
    by_cases hm : sectionMatches y s = true
    · simp [Navigation.updateActiveLink, Navigation.visit, hv, hm, h.1 hm]
    · have hn : ¬ ((s.offsetTop : ℚ) - 100 < y ∧
          y ≤ (s.offsetTop : ℚ) - 100 + (s.offsetHeight : ℚ)) := fun hc => hm (h.2 hc)
      rw [if_neg hn]
      simp [Navigation.updateActiveLink, Navigation.visit, hv, hm]
  refine ⟨hattr, fun hplain => hattr _ (readSelector_of_plain s.id hplain), ?_⟩
  intro hv
  simp [Navigation.updateActiveLink, Navigation.visit, hv]

/-- C13, amended, at the section `chat` of the page with the nested sections
and at a section whose id holds a quotation mark. -/
theorem sectionMatches_iff_witness :
    twoLinkNav.updateActiveLink [⟨"chat", 200, 300⟩] 250 =
      some (.normal
        (if (((⟨"chat", 200, 300⟩ : Section).offsetTop : ℚ)) - 100 < 250 ∧
            (250 : ℚ) ≤ (((⟨"chat", 200, 300⟩ : Section).offsetTop : ℚ)) - 100 +
              (((⟨"chat", 200, 300⟩ : Section).offsetHeight : ℚ))
          then twoLinkNav.activate (findNavLink twoLinkNav.navLinks "#chat") else twoLinkNav)) ∧
    twoLinkNav.updateActiveLink [⟨"a\"b", 200, 300⟩] 250 = some (.thrown twoLinkNav) :=
  ⟨((sectionMatches_iff 250 ⟨"chat", 200, 300⟩).2 twoLinkNav).1 "#chat" (by decide),
    ((sectionMatches_iff 250 ⟨"a\"b", 200, 300⟩).2 twoLinkNav).2.2 (by decide)⟩

/-! #### The link of a section -/

/-- `findNavLink` returns the first link that the selector selects. -/
theorem findNavLink_eq_some_iff (value : String) :
    ∀ (links : List NavLink) (k : Nat),
      findNavLink links value = some k ↔
        (∃ l, links[k]? = some l ∧ matchesHref value l = true) ∧
          ∀ j < k, ∀ l, links[j]? = some l → matchesHref value l = false
  | [], k => by simp [findNavLink]
  | link :: links, k => by
    by_cases hm : matchesHref value link = true
    · simp only [findNavLink, hm, if_true, Option.some.injEq]
      constructor
      · intro hk
        subst hk
        exact ⟨⟨link, by simp, hm⟩, fun j hj => absurd hj (Nat.not_lt_zero j)⟩
      · rintro ⟨_, hfirst⟩
        cases k with
        | zero => rfl
        | succ k =>
          have := hfirst 0 (Nat.succ_pos k) link (by simp)
          rw [hm] at this
          cases this
    · have hm' : matchesHref value link = false := by simpa using hm
      simp only [findNavLink, hm', Bool.false_eq_true, if_false, Option.map_eq_some']
      cases k with
      | zero =>
        constructor
        · rintro ⟨i, _, hi⟩
          cases hi
        · rintro ⟨⟨l, hl, hl'⟩, _⟩
          simp only [List.getElem?_cons_zero, Option.some.injEq] at hl
          rw [← hl, hm'] at hl'
          cases hl'
      | succ k =>
        have ih := findNavLink_eq_some_iff value links k
        constructor
        · rintro ⟨i, hi, hik⟩
          have hik' : i = k := by omega
          subst hik'
          obtain ⟨hex, hfirst⟩ := ih.1 hi
          refine ⟨by simpa using hex, ?_⟩
          intro j hj l hl
          cases j with
          | zero =>
            simp only [List.getElem?_cons_zero, Option.some.injEq] at hl
            rw [← hl]
            exact hm'
          | succ j => exact hfirst j (by omega) l (by simpa using hl)
        · rintro ⟨hex, hfirst⟩
          refine ⟨k, ih.2 ⟨by simpa using hex, ?_⟩, rfl⟩
          intro j hj l hl
          exact hfirst (j + 1) (by omega) l (by simpa using hl)

theorem findNavLink_congr (value : String) :
    ∀ l₁ l₂ : List NavLink,
      l₁.map (matchesHref value) = l₂.map (matchesHref value) →
      findNavLink l₁ value = findNavLink l₂ value
  | [], [], _ => rfl
  | [], _ :: _, h => by simp at h
  | _ :: _, [], h => by simp at h
  | a :: l₁, b :: l₂, h => by
    simp only [List.map_cons, List.cons.injEq] at h
    simp [findNavLink, h.1, findNavLink_congr value l₁ l₂ h.2]

theorem matchesHref_clear (value : String) (link : NavLink) :
    matchesHref value { link with classList := classRemove "active" link.classList } =
      matchesHref value link := by
  simp [matchesHref, hasClass_classRemove_of_ne "nav-link" "active" _ (by decide)]

theorem matchesHref_markActive (value : String) (link : NavLink) :
    matchesHref value (markActive link) = matchesHref value link := by
  simp [matchesHref, markActive, hasClass_classAdd_of_ne "nav-link" "active" _ (by decide)]

theorem activateLinks_matchesHref (value : String) (links : List NavLink)
    (navLink : Option Nat) :
    (activateLinks links navLink).map (matchesHref value) = links.map (matchesHref value) := by
  unfold activateLinks
  cases navLink with
  | none => simp [clearActive, List.map_map, Function.comp_def, matchesHref_clear]
  | some i =>
    simp only
    rw [map_modifyAt (matchesHref value) markActive (matchesHref_markActive value)]
    simp [clearActive, List.map_map, Function.comp_def, matchesHref_clear]

theorem activateLinks_href (links : List NavLink) (navLink : Option Nat) :
    (activateLinks links navLink).map (fun l => l.href) = links.map (fun l => l.href) := by
  unfold activateLinks
  cases navLink with
  | none => simp [clearActive, List.map_map, Function.comp_def]
  | some i =>
    simp only
    rw [map_modifyAt (fun l : NavLink => l.href) markActive (fun _ => rfl)]
    simp [clearActive, List.map_map, Function.comp_def]

theorem clearActive_clearActive (links : List NavLink) :
    clearActive (clearActive links) = clearActive links := by
  simp [clearActive, List.map_map, Function.comp_def, classRemove_classRemove]

theorem clearActive_activateLinks (links : List NavLink) (navLink : Option Nat) :
    clearActive (activateLinks links navLink) = clearActive links := by
  unfold activateLinks
  cases navLink with
  | none => exact clearActive_clearActive links
  | some i =>
    simp only
    have h := map_modifyAt
      (fun link : NavLink =>
        ({ link with classList := classRemove "active" link.classList } : NavLink))
      markActive (fun a => by simp [markActive, classRemove_classAdd]) i (clearActive links)
    have h' : clearActive (modifyAt markActive i (clearActive links)) =
        clearActive (clearActive links) := h
    exact h'.trans (clearActive_clearActive links)

theorem navLinkOf_activate (nav : Navigation) (navLink : Option Nat) (sectionId : String) :
    navLinkOf (nav.activate navLink).navLinks sectionId = navLinkOf nav.navLinks sectionId := by
  unfold navLinkOf
  rcases readSelector sectionId with value | _ | _
  · exact findNavLink_congr value _ _ (activateLinks_matchesHref value nav.navLinks navLink)
  · rfl
  · rfl

/-- A later activation overwrites an earlier one. -/
theorem activate_activate (nav : Navigation) (a b : Option Nat) :
    (nav.activate a).activate b = nav.activate b := by
  have hclear := clearActive_activateLinks nav.navLinks a
  have heq : ∀ (links : List NavLink) (c : Option Nat),
      activateLinks links c =
        match c with
        | none => clearActive links
        | some i => modifyAt markActive i (clearActive links) := fun _ _ => rfl
  have hlinks : activateLinks (activateLinks nav.navLinks a) b = activateLinks nav.navLinks b := by
    rw [heq (activateLinks nav.navLinks a) b, hclear, ← heq]
  simp [Navigation.activate, hlinks]

theorem visit_of_attribute (nav : Navigation) (y : ℚ) (s : Section) (value : String)
    (hv : readSelector s.id = .attribute value) :
    nav.visit y s =
      some (.normal (if sectionMatches y s then nav.activate (navLinkOf nav.navLinks s.id)
        else nav)) := by
  by_cases hm : sectionMatches y s = true <;> simp [Navigation.visit, navLinkOf, hv, hm]

/-- What `updateActiveLink` leaves on a page whose selectors are attribute
tests: the state it found when no section matches, and otherwise the
activation of the last matching section. -/
theorem updateActiveLink_eq (sections : List Section) (y : ℚ)
    (hsel : ∀ s ∈ sections, ∃ value, readSelector s.id = .attribute value) :
    ∀ nav : Navigation,
      nav.updateActiveLink sections y =
        some (.normal
          (match (sections.filter (sectionMatches y)).getLast? with
          | none => nav
          | some s => nav.activate (navLinkOf nav.navLinks s.id))) := by
  induction sections with
  | nil => intro nav; rfl
  | cons s ss ih =>
    intro nav
    obtain ⟨value, hv⟩ := hsel s (by simp)
    have ih' := ih (fun t ht => hsel t (List.mem_cons_of_mem _ ht))
    have hstep : nav.updateActiveLink (s :: ss) y =
        (if sectionMatches y s then nav.activate (navLinkOf nav.navLinks s.id)
          else nav).updateActiveLink ss y := by
      simp only [Navigation.updateActiveLink, visit_of_attribute nav y s value hv]
    rw [hstep, ih']
    by_cases hs : sectionMatches y s = true
    · simp only [hs, if_true, List.filter_cons_of_pos]
      cases hf : (ss.filter (sectionMatches y)).getLast? with
      | none =>
        have hnil : ss.filter (sectionMatches y) = [] := by
          simpa [List.getLast?_eq_none_iff] using hf
        simp [hnil]
      | some t =>
        have hne : ss.filter (sectionMatches y) ≠ [] := by
          intro hnil
          rw [hnil] at hf
          simp at hf
        obtain ⟨u, us, hus⟩ := List.exists_cons_of_ne_nil hne
        rw [hus] at hf ⊢
        rw [List.getLast?_cons_cons, hf]
        simp only [navLinkOf_activate, activate_activate]
    · simp [hs]

theorem updateActiveLink_append (y : ℚ) (rest : List Section) :
    ∀ (before : List Section) (nav nav' : Navigation),
      nav.updateActiveLink before y = some (.normal nav') →
      nav.updateActiveLink (before ++ rest) y = nav'.updateActiveLink rest y
  | [], nav, nav', h => by
    simp only [Navigation.updateActiveLink, Option.some.injEq, Completion.normal.injEq] at h
    rw [← h]
    rfl
  | s :: before, nav, nav', h => by
    simp only [List.cons_append, Navigation.updateActiveLink] at h ⊢
    cases hv : nav.visit y s with
    | none => rw [hv] at h; cases h
    | some c =>
      cases c with
      | normal nav1 =>
        rw [hv] at h
        simp only at h ⊢
        exact updateActiveLink_append y rest before nav1 nav' h
      | thrown nav1 => rw [hv] at h; cases h

/-- The links after an activation: the link at position `k` is marked active
iff it is the link given. -/
theorem activate_isActive (nav : Navigation) (navLink : Option Nat) (k : Nat)
    (link : NavLink) (h : (nav.activate navLink).navLinks[k]? = some link) :
    link.isActive = true ↔ navLink = some k ∧ k < nav.navLinks.length := by
  have hlen : k < nav.navLinks.length := by
    have h1 : k < (nav.activate navLink).navLinks.length := by
      by_contra hge
      rw [List.getElem?_eq_none (by omega)] at h
      cases h
    have h2 := congrArg List.length (activateLinks_href nav.navLinks navLink)
    simp only [List.length_map] at h2
    simpa [Navigation.activate, h2] using h1
  simp only [Navigation.activate, activateLinks] at h
  cases navLink with
  | none =>
    simp only [clearActive, List.getElem?_map, Option.map_eq_some'] at h
    obtain ⟨l, _, rfl⟩ := h
    simp [NavLink.isActive, hasClass_classRemove]
  | some i =>
    simp only [clearActive, getElem?_modifyAt, List.getElem?_map] at h
    by_cases hk : k = i
    · subst hk
      simp only [if_true, Option.map_map, Option.map_eq_some'] at h
      obtain ⟨l, _, rfl⟩ := h
      simp [NavLink.isActive, markActive, hasClass_classAdd, hlen]
    · simp only [hk, if_false, Option.map_eq_some'] at h
      obtain ⟨l, _, rfl⟩ := h
      have : ¬ i = k := fun e => hk e.symm
      simp [NavLink.isActive, hasClass_classRemove, this]

/-- C14, as stated, fails when two sections match.  A page with the section
`demo` and, nested in it, the section `chat`: at the scroll offset `250` both
match, and the link left active is the one of `chat`, the last of them, not
the one of `demo`, the first. -/
theorem updateActiveLink_overlap_last_wins :
    (nestedSections.filter (sectionMatches 250)).map (fun s => s.id) = ["demo", "chat"] ∧
    twoLinkNav.updateActiveLink nestedSections 250 =
      some (.normal { twoLinkNav with
        navLinks := [⟨some "#demo", ["nav-link"]⟩, ⟨some "#chat", ["nav-link", "active"]⟩] }) := by
  have h1 : sectionMatches 250 ⟨"demo", 0, 1000⟩ = true := by norm_num [sectionMatches]
  have h2 : sectionMatches 250 ⟨"chat", 200, 300⟩ = true := by norm_num [sectionMatches]
  have r1 : readSelector "demo" = .attribute "#demo" := by decide
  have r2 : readSelector "chat" = .attribute "#chat" := by decide
  constructor
  · simp [nestedSections, List.filter, h1, h2]
  · simp only [Navigation.updateActiveLink, Navigation.visit, nestedSections, r1, r2, h1, h2,
      if_true]
    decide

/-- C14, amended.  On a page where the selector built from every section id
is an attribute test, `updateActiveLink` leaves the links as they were when no
section matches the scroll offset, and when some section matches, the link
marked active is exactly the first link of class `nav-link` whose `href` is
the value tested by the selector of the last matching section in document
order (no link when there is none).  The value is `#` followed by the id for
every id without quotation mark, backslash, line break and `NUL`.  At the
first section whose selector is no selector, `updateActiveLink` throws, and
the links are as the sections before it left them. -/
theorem updateActiveLink_last_match (nav : Navigation) (sections : List Section) (y : ℚ) :
    ((∀ s ∈ sections, ∃ value, readSelector s.id = .attribute value) →
      sections.filter (sectionMatches y) = [] →
      nav.updateActiveLink sections y = some (.normal nav)) ∧
    ((∀ s ∈ sections, ∃ value, readSelector s.id = .attribute value) →
      ∀ (s : Section) (value : String),
        (sections.filter (sectionMatches y)).getLast? = some s →
        readSelector s.id = .attribute value →
        ∃ nav' : Navigation,
          nav.updateActiveLink sections y = some (.normal nav') ∧
          nav'.navLinks.map (fun l => l.href) = nav.navLinks.map (fun l => l.href) ∧
          ∀ (k : Nat) (link : NavLink), nav'.navLinks[k]? = some link →
            (link.isActive = true ↔
              (∃ l, nav.navLinks[k]? = some l ∧
                hasClass "nav-link" l.classList = true ∧ l.href = some value) ∧
              ∀ j < k, ∀ l, nav.navLinks[j]? = some l →
                ¬ (hasClass "nav-link" l.classList = true ∧ l.href = some value))) ∧
    (∀ s ∈ sections, (∀ c ∈ s.id.data, isPlainIdChar c = true) →
      readSelector s.id = .attribute ("#" ++ s.id)) ∧
    (∀ (before : List Section) (bad : Section) (after : List Section),
      sections = before ++ bad :: after →
      (∀ s ∈ before, ∃ value, readSelector s.id = .attribute value) →
      readSelector bad.id = .invalid →
      ∃ nav' : Navigation,
        nav.updateActiveLink before y = some (.normal nav') ∧
        nav.updateActiveLink sections y = some (.thrown nav')) := by
  have hmatch : ∀ (value : String) (l : NavLink),
      matchesHref value l = true ↔
        (hasClass "nav-link" l.classList = true ∧ l.href = some value) := by
    intro value l
    simp [matchesHref]
  refine ⟨?_, ?_, ?_, ?_⟩
  · intro hsel h
    rw [updateActiveLink_eq sections y hsel, h]
    rfl
  · intro hsel s value hs hv
    refine ⟨nav.activate (findNavLink nav.navLinks value), ?_, ?_, ?_⟩
    · rw [updateActiveLink_eq sections y hsel, hs]
      simp [navLinkOf, hv]
    · exact activateLinks_href nav.navLinks _
    · intro k link hk
      rw [activate_isActive nav _ k link hk, findNavLink_eq_some_iff]
      constructor
      · rintro ⟨⟨⟨l, hl, hm⟩, hfirst⟩, _⟩
        refine ⟨⟨l, hl, (hmatch value l).1 hm⟩, ?_⟩
        intro j hj l' hl' hc
        have := hfirst j hj l' hl'
        rw [(hmatch value l').2 hc] at this
        cases this
      · rintro ⟨⟨l, hl, hm⟩, hfirst⟩
        refine ⟨⟨⟨l, hl, (hmatch value l).2 hm⟩, ?_⟩, ?_⟩
        · intro j hj l' hl'
          cases hmj : matchesHref value l' with
          | false => rfl
          | true => exact absurd ((hmatch value l').1 hmj) (hfirst j hj l' hl')
        · by_contra hge
          rw [List.getElem?_eq_none (by omega)] at hl
          cases hl
  · intro s _ hplain
    exact readSelector_of_plain s.id hplain
  · intro before bad after hsec hsel hbad
    have hb := updateActiveLink_eq before y hsel nav
    refine ⟨_, hb, ?_⟩
    rw [hsec, updateActiveLink_append y (bad :: after) before nav _ hb]
    simp [Navigation.updateActiveLink, Navigation.visit, hbad]

/-- C14, amended, at the page with the nested sections, at a page whose
section id holds the escape of `b`, and at a page whose section id holds a
quotation mark. -/
theorem updateActiveLink_last_match_witness :
    twoLinkNav.updateActiveLink nestedSections 5000 = some (.normal twoLinkNav) ∧
    (∃ nav' : Navigation,
      twoLinkNav.updateActiveLink nestedSections 250 = some (.normal nav') ∧
      nav'.navLinks.map (fun l => l.href) = twoLinkNav.navLinks.map (fun l => l.href) ∧
      ∀ (k : Nat) (link : NavLink), nav'.navLinks[k]? = some link →
        (link.isActive = true ↔
          (∃ l, twoLinkNav.navLinks[k]? = some l ∧
            hasClass "nav-link" l.classList = true ∧ l.href = some "#chat") ∧
          ∀ j < k, ∀ l, twoLinkNav.navLinks[j]? = some l →
            ¬ (hasClass "nav-link" l.classList = true ∧ l.href = some "#chat"))) ∧
    (∃ nav' : Navigation,
      escapedNav.updateActiveLink escapedSections 250 = some (.normal nav') ∧
      nav'.navLinks.map (fun l => l.href) = escapedNav.navLinks.map (fun l => l.href) ∧
      ∀ (k : Nat) (link : NavLink), nav'.navLinks[k]? = some link →
        (link.isActive = true ↔
          (∃ l, escapedNav.navLinks[k]? = some l ∧
            hasClass "nav-link" l.classList = true ∧ l.href = some "#ab") ∧
          ∀ j < k, ∀ l, escapedNav.navLinks[j]? = some l →
            ¬ (hasClass "nav-link" l.classList = true ∧ l.href = some "#ab"))) ∧
    readSelector "chat" = .attribute ("#" ++ "chat") ∧
    (∃ nav' : Navigation,
      twoLinkNav.updateActiveLink [⟨"demo", 0, 1000⟩] 250 = some (.normal nav') ∧
      twoLinkNav.updateActiveLink quotedSections 250 = some (.thrown nav')) :=
  have h1 : sectionMatches 250 ⟨"demo", 0, 1000⟩ = true := by norm_num [sectionMatches]
  have h2 : sectionMatches 250 ⟨"chat", 200, 300⟩ = true := by norm_num [sectionMatches]
  have h3 : sectionMatches 5000 ⟨"demo", 0, 1000⟩ = false := by norm_num [sectionMatches]
  have h4 : sectionMatches 5000 ⟨"chat", 200, 300⟩ = false := by norm_num [sectionMatches]
  have h5 : sectionMatches 250 ⟨"a\\62", 200, 300⟩ = true := by norm_num [sectionMatches]
  have hnone : nestedSections.filter (sectionMatches 5000) = [] := by
    simp [nestedSections, List.filter, h3, h4]
  have hlast : (nestedSections.filter (sectionMatches 250)).getLast? =
      some ⟨"chat", 200, 300⟩ := by
    simp [nestedSections, List.filter, h1, h2]
  have hlast' : (escapedSections.filter (sectionMatches 250)).getLast? =
      some ⟨"a\\62", 200, 300⟩ := by
    simp [escapedSections, List.filter, h1, h5]
  have r1 : readSelector "demo" = .attribute "#demo" := by decide
  have r2 : readSelector "chat" = .attribute "#chat" := by decide
  have r3 : readSelector "a\\62" = .attribute "#ab" := by decide
  have r4 : readSelector "a\"b" = .invalid := by decide
  have hsel : ∀ s ∈ nestedSections, ∃ value, readSelector s.id = .attribute value := by
    intro s hs
    simp only [nestedSections, List.mem_cons, List.mem_singleton, List.not_mem_nil, or_false]
      at hs
    rcases hs with rfl | rfl
    · exact ⟨_, r1⟩
    · exact ⟨_, r2⟩
  have hsel' : ∀ s ∈ escapedSections, ∃ value, readSelector s.id = .attribute value := by
    intro s hs
    simp only [escapedSections, List.mem_cons, List.mem_singleton, List.not_mem_nil, or_false]
      at hs
    rcases hs with rfl | rfl
    · exact ⟨_, r1⟩
    · exact ⟨_, r3⟩
  have hsel'' : ∀ s ∈ [(⟨"demo", 0, 1000⟩ : Section)],
      ∃ value, readSelector s.id = .attribute value := by
    intro s hs
    simp only [List.mem_singleton] at hs
    subst hs
    exact ⟨_, r1⟩
  ⟨(updateActiveLink_last_match twoLinkNav nestedSections 5000).1 hsel hnone,
    (updateActiveLink_last_match twoLinkNav nestedSections 250).2.1 hsel
      ⟨"chat", 200, 300⟩ "#chat" hlast r2,
    (updateActiveLink_last_match escapedNav escapedSections 250).2.1 hsel'
      ⟨"a\\62", 200, 300⟩ "#ab" hlast' r3,
    (updateActiveLink_last_match twoLinkNav nestedSections 250).2.2.1
      ⟨"chat", 200, 300⟩ (by simp [nestedSections]) (by decide),
    (updateActiveLink_last_match twoLinkNav quotedSections 250).2.2.2
      [⟨"demo", 0, 1000⟩] ⟨"a\"b", 2000, 300⟩ [⟨"chat", 200, 300⟩] rfl hsel'' r4⟩

/-! ### The feature list (C15) -/

/-- No piece of a split holds the separator. -/
theorem not_mem_of_mem_splitChars (sep : Char) :
    ∀ (cs : List Char) (piece : List Char), piece ∈ splitChars sep cs → sep ∉ piece
  | [], piece, h => by
    simp only [splitChars, List.mem_singleton] at h
    simp [h]
  | c :: cs, piece, h => by
    unfold splitChars at h
    by_cases hc : c = sep
    · simp only [hc, if_true, List.mem_cons] at h
      rcases h with h | h
      · simp [h]
      · exact not_mem_of_mem_splitChars sep cs piece h
    · simp only [hc, if_false] at h
      cases hs : splitChars sep cs with
      | nil => exact absurd hs (splitChars_ne_nil sep cs)
      | cons q qs =>
        rw [hs] at h
        simp only [List.mem_cons] at h
        have hq : sep ∉ q := not_mem_of_mem_splitChars sep cs q (by rw [hs]; simp)
        rcases h with h | h
        · rw [h]
          intro hmem
          rcases List.mem_cons.1 hmem with e | e
          · exact hc e.symm
          · exact hq e
        · exact not_mem_of_mem_splitChars sep cs piece (by rw [hs]; simp [h])

/-- The characters of the pieces are characters of the list that was split. -/
theorem subset_of_mem_splitChars (sep : Char) :
    ∀ (cs : List Char) (piece : List Char), piece ∈ splitChars sep cs → piece ⊆ cs
  | [], piece, h => by
    simp only [splitChars, List.mem_singleton] at h
    simp [h]
  | c :: cs, piece, h => by
    unfold splitChars at h
    by_cases hc : c = sep
    · simp only [hc, if_true, List.mem_cons] at h
      rcases h with h | h
      · simp [h]
      · exact fun x hx => List.mem_cons_of_mem _ (subset_of_mem_splitChars sep cs piece h hx)
    · simp only [hc, if_false] at h
      cases hs : splitChars sep cs with
      | nil => exact absurd hs (splitChars_ne_nil sep cs)
      | cons q qs =>
        rw [hs] at h
        simp only [List.mem_cons] at h
        have hq : q ⊆ cs := subset_of_mem_splitChars sep cs q (by rw [hs]; simp)
        rcases h with h | h
        · rw [h]
          intro x hx
          rcases List.mem_cons.1 hx with e | e
          · rw [e]; simp
          · exact List.mem_cons_of_mem _ (hq e)
        · exact fun x hx => List.mem_cons_of_mem _
            (subset_of_mem_splitChars sep cs piece (by rw [hs]; simp [h]) hx)

/-- Joining the pieces of a split with the separator gives the list back. -/
theorem intercalate_splitChars (sep : Char) :
    ∀ cs : List Char, [sep].intercalate (splitChars sep cs) = cs
  | [] => by simp [splitChars, List.intercalate]
  | c :: cs => by
    have ih := intercalate_splitChars sep cs
    unfold splitChars
    cases hs : splitChars sep cs with
    | nil => exact absurd hs (splitChars_ne_nil sep cs)
    | cons q qs =>
      rw [hs] at ih
      by_cases hc : c = sep
      · simp only [hc, if_true]
        simp only [List.intercalate, List.intersperse, List.flatten, List.nil_append,
          List.singleton_append] at ih ⊢
        rw [ih]
      · simp only [hc, if_false]
        cases qs with
        | nil =>
          simp only [List.intercalate, List.intersperse, List.flatten, List.append_nil] at ih ⊢
          rw [ih]
        | cons r rs =>
          simp only [List.intercalate, List.intersperse, List.flatten, List.cons_append] at ih ⊢
          rw [ih]

theorem trimChars_subset (cs : List Char) : trimChars cs ⊆ cs := by
  have h1 : trimChars cs <+: cs.dropWhile isJsWhitespace :=
    List.rdropWhile_prefix isJsWhitespace (cs.dropWhile isJsWhitespace)
  exact fun c hc => (List.dropWhile_suffix isJsWhitespace).subset (h1.subset hc)

theorem trimChars_head (cs : List Char) (c : Char) (h : (trimChars cs).head? = some c) :
    isJsWhitespace c = false := by
  have h1 : trimChars cs <+: cs.dropWhile isJsWhitespace :=
    List.rdropWhile_prefix isJsWhitespace (cs.dropWhile isJsWhitespace)
  obtain ⟨r, hr⟩ := h1
  have h2 : (cs.dropWhile isJsWhitespace).head? = some c := by
    rw [← hr]
    cases ht : trimChars cs with
    | nil => rw [ht] at h; simp at h
    | cons a t => rw [ht] at h; simpa using h
  have h3 := List.head?_dropWhile_not isJsWhitespace cs
  rw [h2] at h3
  exact h3

theorem trimChars_getLast (cs : List Char) (c : Char) (h : (trimChars cs).getLast? = some c) :
    isJsWhitespace c = false := by
  have hne : List.rdropWhile isJsWhitespace (cs.dropWhile isJsWhitespace) ≠ [] := by
    intro hnil
    have : trimChars cs = [] := hnil
    rw [this] at h
    simp at h
  have h1 := List.rdropWhile_last_not isJsWhitespace (cs.dropWhile isJsWhitespace) hne
  have h2 : (trimChars cs).getLast? =
      some ((List.rdropWhile isJsWhitespace (cs.dropWhile isJsWhitespace)).getLast hne) :=
    List.getLast?_eq_getLast _ hne
  rw [h2] at h
  simp only [Option.some.injEq] at h
  rw [h] at h1
  simpa using h1

theorem trimChars_eq_nil_of_all (cs : List Char) (h : ∀ c ∈ cs, isJsWhitespace c = true) :
    trimChars cs = [] := by
  have h1 : cs.dropWhile isJsWhitespace = [] := List.dropWhile_eq_nil_iff.2 h
  simp [trimChars, h1]

/-- The feature list is the split at commas, trimmed piece by piece, without
the empty pieces; this also holds of the empty field. -/
theorem parseFeatures_eq (featuresInput : String) :
    parseFeatures featuresInput =
      ((splitChars ',' featuresInput.data).map (fun piece => jsTrim (String.mk piece))).filter
        (fun s => s != "") := by
  unfold parseFeatures
  by_cases h : featuresInput = ""
  · subst h
    decide
  · simp [h, List.map_map, Function.comp_def]

/-- C15. The feature list is obtained by splitting the field at every comma
(the pieces hold no comma and, joined by commas, give the field back),
trimming each piece and dropping the empty results, in the original order.
Every element is non-empty, neither starts nor ends with whitespace and holds
no comma; a field made of commas and whitespace only, in particular an empty,
a whitespace-only or a commas-only one, yields the empty list. -/
theorem parseFeatures_trimmed_nonempty (featuresInput : String) :
    ([','].intercalate (splitChars ',' featuresInput.data) = featuresInput.data ∧
      (∀ piece ∈ splitChars ',' featuresInput.data, ',' ∉ piece) ∧
      parseFeatures featuresInput =
        ((splitChars ',' featuresInput.data).map
          (fun piece => jsTrim (String.mk piece))).filter (fun s => s != "")) ∧
    (∀ s ∈ parseFeatures featuresInput,
      s ≠ "" ∧
      (∀ c, s.data.head? = some c → isJsWhitespace c = false) ∧
      (∀ c, s.data.getLast? = some c → isJsWhitespace c = false) ∧
      ',' ∉ s.data) ∧
    ((∀ c ∈ featuresInput.data, c = ',' ∨ isJsWhitespace c = true) →
      parseFeatures featuresInput = []) := by
  refine ⟨⟨intercalate_splitChars ',' _, not_mem_of_mem_splitChars ',' _,
    parseFeatures_eq featuresInput⟩, ?_, ?_⟩
  · intro s hs
    rw [parseFeatures_eq] at hs
    simp only [List.mem_filter, List.mem_map] at hs
    obtain ⟨⟨piece, hpiece, rfl⟩, hne⟩ := hs
    refine ⟨by simpa using hne, ?_, ?_, ?_⟩
    · intro c hc
      exact trimChars_head piece c hc
    · intro c hc
      exact trimChars_getLast piece c hc
    · intro hmem
      exact not_mem_of_mem_splitChars ',' _ piece hpiece (trimChars_subset piece hmem)
  · intro hall
    rw [parseFeatures_eq]
    apply List.filter_eq_nil_iff.2
    intro s hs
    simp only [List.mem_map] at hs
    obtain ⟨piece, hpiece, rfl⟩ := hs
    have hsub : ∀ c ∈ piece, isJsWhitespace c = true := by
      intro c hc
      have hmem : c ∈ featuresInput.data :=
        subset_of_mem_splitChars ',' featuresInput.data piece hpiece hc
      rcases hall c hmem with h | h
      · exact absurd (h ▸ hc) (not_mem_of_mem_splitChars ',' _ piece hpiece)
      · exact h
    simp [jsTrim, trimChars_eq_nil_of_all piece hsub]

/-- C15 at a field of commas and blanks, and at a field with three features. -/
theorem parseFeatures_trimmed_nonempty_witness :
    (∀ c ∈ (" , ,, " : String).data, c = ',' ∨ isJsWhitespace c = true) ∧
    parseFeatures " , ,, " = [] ∧
    parseFeatures " rojo, ,algodón  ,, talla M " = ["rojo", "algodón", "talla M"] :=
  ⟨by decide, (parseFeatures_trimmed_nonempty " , ,, ").2.2 (by decide), by decide⟩

/-! ### debounce (C16) -/

theorem nextDue_singleton {α : Type} (t : PendingTimer α) (now : Nat) :
    nextDue [t] now = if t.due ≤ now then some t else none := by
  unfold nextDue
  by_cases h : t.due ≤ now <;> simp [List.filter, h]

theorem advance_waiting_early {α : Type} (d : Debounced α) (wait t now : Nat) (args : α)
    (hd : d.waiting wait t args) (hnow : now < t + wait) : d.advance now = d := by
  obtain ⟨_, _, id, hp, _⟩ := hd
  have hnd : nextDue d.pending now = none := by
    rw [hp, nextDue_singleton]
    simp only [ite_eq_right_iff]
    intro h
    exact absurd h (by simp only [not_le]; exact hnow)
  unfold Debounced.advance
  rw [hp] at hnd ⊢
  simp only [List.length_singleton, Debounced.runDue]
  rw [hp, hnd]

theorem executedFunction_waiting {α : Type} (d : Debounced α) (wait t now : Nat)
    (args args' : α) (hd : d.waiting wait t args) :
    (d.executedFunction now args').waiting wait now args' := by
  obtain ⟨hw, he, id, hp, ht⟩ := hd
  refine ⟨hw, he, d.nextId, ?_, rfl⟩
  simp [Debounced.executedFunction, clearTimeout, hp, ht, hw]

theorem executedFunction_debounce {α : Type} (wait now : Nat) (args : α) :
    ((debounce wait : Debounced α).executedFunction now args).waiting wait now args :=
  ⟨rfl, rfl, 1, rfl, rfl⟩

theorem calls_waiting {α : Type} (wait : Nat) :
    ∀ (cs : List (Nat × α)) (d : Debounced α) (t : Nat) (args : α) (last : Nat × α),
      d.waiting wait t args →
      List.Chain (fun c c' : Nat × α => c.1 ≤ c'.1 ∧ c'.1 < c.1 + wait) (t, args)
        (cs ++ [last]) →
      (d.calls (cs ++ [last])).waiting wait last.1 last.2
  | [], d, t, args, last, hd, hc => by
    simp only [List.nil_append, List.chain_cons, List.Chain.nil, and_true] at hc
    simp only [List.nil_append, Debounced.calls, List.foldl]
    rw [advance_waiting_early d wait t last.1 args hd hc.2]
    exact executedFunction_waiting d wait t last.1 args last.2 hd
  | c :: cs, d, t, args, last, hd, hc => by
    simp only [List.cons_append, List.chain_cons] at hc
    have hstep : ((d.advance c.1).executedFunction c.1 c.2).waiting wait c.1 c.2 := by
      rw [advance_waiting_early d wait t c.1 args hd hc.1.2]
      exact executedFunction_waiting d wait t c.1 args c.2 hd
    exact calls_waiting wait cs _ c.1 c.2 last hstep hc.2

theorem advance_waiting {α : Type} (d : Debounced α) (wait t horizon : Nat) (args : α)
    (hd : d.waiting wait t args) :
    (d.advance horizon).executed =
      if t + wait ≤ horizon then [(t + wait, args)] else [] := by
  by_cases h : t + wait ≤ horizon
  · obtain ⟨_, he, id, hp, ht⟩ := hd
    unfold Debounced.advance
    rw [hp]
    simp only [List.length_singleton, Debounced.runDue]
    rw [hp, nextDue_singleton]
    simp [h, Debounced.later, Debounced.runDue, he]
  · rw [advance_waiting_early d wait t horizon args hd (by omega)]
    simp [h, hd.2.1]

/-- C16. Take calls of the debounced wrapper in which each call follows the
one before it by less than `wait`, the last one at time `t` with arguments
`args`.  Whatever time the clock has reached afterwards, `func` has not been
executed if that time is before `t + wait`, and otherwise it has been
executed exactly once, with the arguments of the last call. -/
theorem debounce_executes_last_call_once {α : Type} (wait : Nat) (cs : List (Nat × α))
    (last : Nat × α) (horizon : Nat) (h : inQuickSuccession wait (cs ++ [last])) :
    (((debounce wait).calls (cs ++ [last])).advance horizon).executed =
      if last.1 + wait ≤ horizon then [(last.1 + wait, last.2)] else [] := by
  apply advance_waiting
  cases cs with
  | nil =>
    simp only [List.nil_append, Debounced.calls, List.foldl]
    have h0 : (debounce wait : Debounced α).advance last.1 = debounce wait := rfl
    rw [h0]
    exact executedFunction_debounce wait last.1 last.2
  | cons c cs =>
    have hc : List.Chain (fun c c' : Nat × α => c.1 ≤ c'.1 ∧ c'.1 < c.1 + wait) c
        (cs ++ [last]) := h
    have h0 : (debounce wait : Debounced α).advance c.1 = debounce wait := rfl
    have hfirst : (((debounce wait : Debounced α).advance c.1).executedFunction c.1 c.2).waiting
        wait c.1 c.2 := by
      rw [h0]
      exact executedFunction_debounce wait c.1 c.2
    exact calls_waiting wait cs _ c.1 c.2 last hfirst hc

/-- C16 at three scroll events 4 ms apart under a delay of 10 ms: at 17 ms
nothing has run, at 18 ms the handler has run once, for the last event. -/
theorem debounce_executes_last_call_once_witness :
    inQuickSuccession 10 ([(0, "a"), (4, "b")] ++ [(8, "c")]) ∧
    (((debounce 10).calls ([(0, "a"), (4, "b")] ++ [(8, "c")])).advance 17).executed = [] ∧
    (((debounce 10).calls ([(0, "a"), (4, "b")] ++ [(8, "c")])).advance 18).executed =
      [(18, "c")] :=
  ⟨by simp [inQuickSuccession],
    (debounce_executes_last_call_once 10 [(0, "a"), (4, "b")] (8, "c") 17
      (by simp [inQuickSuccession])).trans (by decide),
    (debounce_executes_last_call_once 10 [(0, "a"), (4, "b")] (8, "c") 18
      (by simp [inQuickSuccession])).trans (by decide)⟩

/-! ### typeWriter (C17) -/

theorem parsedUnit_clean (u : Nat) : 0 ∉ parsedUnit u ∧ 0x0D ∉ parsedUnit u := by
  unfold parsedUnit
  by_cases h1 : u = 0x0D
  · simp [h1]
  · by_cases h2 : u = 0
    · simp [h2]
    · simp only [h1, h2, if_false, List.mem_singleton]
      exact ⟨fun h => h2 h.symm, fun h => h1 h.symm⟩

theorem flatMap_parsedUnit_clean (units : List Nat) :
    0 ∉ units.flatMap parsedUnit ∧ 0x0D ∉ units.flatMap parsedUnit := by
  constructor
  · intro h
    obtain ⟨u, _, hu⟩ := List.mem_flatMap.1 h
    exact (parsedUnit_clean u).1 hu
  · intro h
    obtain ⟨u, _, hu⟩ := List.mem_flatMap.1 h
    exact (parsedUnit_clean u).2 hu

theorem flatMap_parsedUnit_of_clean :
    ∀ units : List Nat, 0 ∉ units → 0x0D ∉ units → units.flatMap parsedUnit = units
  | [], _, _ => rfl
  | u :: units, h0, hcr => by
    have h1 : u ≠ 0 := fun e => h0 (by simp [e])
    have h2 : u ≠ 0x0D := fun e => hcr (by simp [e])
    have ih := flatMap_parsedUnit_of_clean units
      (fun e => h0 (List.mem_cons_of_mem _ e)) (fun e => hcr (List.mem_cons_of_mem _ e))
    simp [List.flatMap_cons, parsedUnit, h1, h2, ih]

theorem parseText_singleton (fuel : Nat) (c : Nat) :
    parseText (fuel + 1) [c] = some (parsedUnit c) := by
  unfold parseText parsedUnit
  by_cases h1 : c = 0x26
  · subst h1
    simp [utf16, utf16Units, parseText]
  · by_cases h2 : c = 0x3C
    · subst h2
      simp [parseText]
    · by_cases h3 : c = 0
      · subst h3
        simp [parseText]
      · by_cases h4 : c = 0x0D
        · subst h4
          simp [parseText]
        · simp [h1, h2, h3, h4, parseText]

theorem parseText_amp (fuel : Nat) (t : List Nat) :
    parseText (fuel + 1) (0x26 :: 0x61 :: 0x6D :: 0x70 :: 0x3B :: t) =
      (parseText fuel t).map (fun r => 0x26 :: r) := by
  have h : utf16 "amp;" = [0x61, 0x6D, 0x70, 0x3B] := by decide
  simp [parseText, h]

theorem parseText_lt (fuel : Nat) (t : List Nat) :
    parseText (fuel + 1) (0x26 :: 0x6C :: 0x74 :: 0x3B :: t) =
      (parseText fuel t).map (fun r => 0x3C :: r) := by
  have h1 : utf16 "amp;" = [0x61, 0x6D, 0x70, 0x3B] := by decide
  have h2 : utf16 "lt;" = [0x6C, 0x74, 0x3B] := by decide
  simp [parseText, h1, h2]

theorem parseText_gt (fuel : Nat) (t : List Nat) :
    parseText (fuel + 1) (0x26 :: 0x67 :: 0x74 :: 0x3B :: t) =
      (parseText fuel t).map (fun r => 0x3E :: r) := by
  have h1 : utf16 "amp;" = [0x61, 0x6D, 0x70, 0x3B] := by decide
  have h2 : utf16 "lt;" = [0x6C, 0x74, 0x3B] := by decide
  have h3 : utf16 "gt;" = [0x67, 0x74, 0x3B] := by decide
  simp [parseText, h1, h2, h3]

theorem parseText_nbsp (fuel : Nat) (t : List Nat) :
    parseText (fuel + 1) (0x26 :: 0x6E :: 0x62 :: 0x73 :: 0x70 :: 0x3B :: t) =
      (parseText fuel t).map (fun r => 0xA0 :: r) := by
  have h1 : utf16 "amp;" = [0x61, 0x6D, 0x70, 0x3B] := by decide
  have h2 : utf16 "lt;" = [0x6C, 0x74, 0x3B] := by decide
  have h3 : utf16 "gt;" = [0x67, 0x74, 0x3B] := by decide
  have h4 : utf16 "nbsp;" = [0x6E, 0x62, 0x73, 0x70, 0x3B] := by decide
  simp [parseText, h1, h2, h3, h4]

theorem parseText_plain (fuel : Nat) (u : Nat) (t : List Nat) (h1 : u ≠ 0x26)
    (h2 : u ≠ 0x3C) (h3 : u ≠ 0) (h4 : u ≠ 0x0D) :
    parseText (fuel + 1) (u :: t) = (parseText fuel t).map (fun r => u :: r) := by
  simp [parseText, h1, h2, h3, h4]

/-- Parsing the markup of a text followed by one more code unit gives the text
followed by what the parser makes of the unit. -/
theorem parseText_serializeText (c : Nat) :
    ∀ (content : List Nat) (fuel : Nat), 0 ∉ content → 0x0D ∉ content →
      (serializeText content).length + 1 ≤ fuel →
      parseText fuel (serializeText content ++ [c]) = some (content ++ parsedUnit c)
  | [], fuel, _, _, hfuel => by
    obtain ⟨f, rfl⟩ : ∃ f, fuel = f + 1 := ⟨fuel - 1, by omega⟩
    simpa [serializeText] using parseText_singleton f c
  | u :: content, fuel, h0, hcr, hfuel => by
    have hu0 : u ≠ 0 := fun e => h0 (by simp [e])
    have hucr : u ≠ 0x0D := fun e => hcr (by simp [e])
    have h0' : 0 ∉ content := fun e => h0 (List.mem_cons_of_mem _ e)
    have hcr' : 0x0D ∉ content := fun e => hcr (List.mem_cons_of_mem _ e)
    have hser : serializeText (u :: content) = escapeUnit u ++ serializeText content := by
      simp [serializeText]
    rw [hser] at hfuel ⊢
    have hlen : 1 ≤ (escapeUnit u).length := by
      unfold escapeUnit
      split_ifs <;> simp [utf16, utf16Units]
    obtain ⟨f, rfl⟩ : ∃ f, fuel = f + 1 := ⟨fuel - 1, by
      rw [List.length_append] at hfuel
      omega⟩
    have ih := parseText_serializeText c content f h0' hcr' (by
      rw [List.length_append] at hfuel
      omega)
    by_cases h1 : u = 0x26
    · have hesc : escapeUnit u = [0x26, 0x61, 0x6D, 0x70, 0x3B] := by
        subst h1
        decide
      rw [hesc]
      simp only [List.cons_append, List.nil_append]
      rw [parseText_amp, ih, h1]
      rfl
    · by_cases h2 : u = 0x3C
      · have hesc : escapeUnit u = [0x26, 0x6C, 0x74, 0x3B] := by
          subst h2
          decide
        rw [hesc]
        simp only [List.cons_append, List.nil_append]
        rw [parseText_lt, ih, h2]
        rfl
      · by_cases h3 : u = 0x3E
        · have hesc : escapeUnit u = [0x26, 0x67, 0x74, 0x3B] := by
            subst h3
            decide
          rw [hesc]
          simp only [List.cons_append, List.nil_append]
          rw [parseText_gt, ih, h3]
          rfl
        · by_cases h4 : u = 0xA0
          · have hesc : escapeUnit u = [0x26, 0x6E, 0x62, 0x73, 0x70, 0x3B] := by
              subst h4
              decide
            rw [hesc]
            simp only [List.cons_append, List.nil_append]
            rw [parseText_nbsp, ih, h4]
            rfl
          · have hesc : escapeUnit u = [u] := by simp [escapeUnit, h1, h2, h3, h4]
            rw [hesc]
            simp only [List.cons_append, List.nil_append]
            rw [parseText_plain f u _ h1 h2 hu0 hucr, ih]
            rfl

/-- Writing one code unit through `innerHTML`, on a text without `NUL` and
carriage return. -/
theorem writeUnit_frontend (content : List Nat) (c : Nat) (h0 : 0 ∉ content)
    (hcr : 0x0D ∉ content) :
    writeUnit .frontend content c = some (content ++ parsedUnit c) := by
  unfold writeUnit setInnerHTML
  exact parseText_serializeText c content _ h0 hcr (by simp)


theorem typeWriter_tick_cleared (script : Script) (tw : TypeWriter) (h : tw.timer = false) :
    tw.tick script = some (tw, 0) := by
  simp [TypeWriter.tick, h]

theorem typeWriter_tick_finish (script : Script) (text : String) (k : Nat)
    (content : List Nat) (hc : (utf16 text)[k]? = none) :
    TypeWriter.tick script ⟨some text, k, content, true⟩ =
      some (⟨some text, k, content, false⟩, 1) := by
  simp [TypeWriter.tick, TypeWriter.callback, hc]

theorem typeWriter_tick_write (script : Script) (text : String) (k c : Nat)
    (content written : List Nat) (hc : (utf16 text)[k]? = some c)
    (hw : writeUnit script content c = some written) :
    TypeWriter.tick script ⟨some text, k, content, true⟩ =
      some (⟨some text, k + 1, written, true⟩, 0) := by
  simp [TypeWriter.tick, TypeWriter.callback, hc, hw]

/-- While the text is being written: `f` is what one write makes of a code
unit. -/
theorem typeWriter_ticks_writing (script : Script) (text : String) (f : Nat → List Nat)
    (hw : ∀ k c, (utf16 text)[k]? = some c →
      writeUnit script (((utf16 text).take k).flatMap f) c =
        some (((utf16 text).take k).flatMap f ++ f c)) :
    ∀ k : Nat, k ≤ (utf16 text).length →
      (typeWriterStart (some text)).ticks script k =
        some (⟨some text, k, ((utf16 text).take k).flatMap f, true⟩, 0)
  | 0, _ => rfl
  | k + 1, hk => by
    have ih := typeWriter_ticks_writing script text f hw k (Nat.le_of_succ_le hk)
    have hlt : k < (utf16 text).length := hk
    have hc : (utf16 text)[k]? = some ((utf16 text)[k]) := List.getElem?_eq_getElem hlt
    have htake : ((utf16 text).take (k + 1)).flatMap f =
        ((utf16 text).take k).flatMap f ++ f ((utf16 text)[k]) := by
      rw [List.take_succ, hc, List.flatMap_append]
      simp [List.flatMap_cons]
    simp only [TypeWriter.ticks, ih,
      typeWriter_tick_write script text k _ _ _ hc (hw k _ hc), htake]

theorem typeWriter_ticks_done (script : Script) (text : String) (f : Nat → List Nat)
    (hw : ∀ k c, (utf16 text)[k]? = some c →
      writeUnit script (((utf16 text).take k).flatMap f) c =
        some (((utf16 text).take k).flatMap f ++ f c)) :
    ∀ k : Nat,
      (typeWriterStart (some text)).ticks script ((utf16 text).length + 1 + k) =
        some (⟨some text, (utf16 text).length, (utf16 text).flatMap f, false⟩, 1)
  | 0 => by
    have ih := typeWriter_ticks_writing script text f hw (utf16 text).length (Nat.le_refl _)
    have hc : (utf16 text)[(utf16 text).length]? = none :=
      List.getElem?_eq_none (Nat.le_refl _)
    rw [List.take_length] at ih
    simp only [Nat.add_zero, TypeWriter.ticks, ih, typeWriter_tick_finish script text _ _ hc]
  | k + 1 => by
    have ih := typeWriter_ticks_done script text f hw k
    have hstep : (typeWriterStart (some text)).ticks script
          ((utf16 text).length + 1 + (k + 1)) =
        match (typeWriterStart (some text)).ticks script ((utf16 text).length + 1 + k) with
        | none => none
        | some (tw, resolved) =>
          match tw.tick script with
          | none => none
          | some (tw, more) => some (tw, resolved + more) := rfl
    rw [hstep, ih]
    simp only
    rw [typeWriter_tick_cleared script ⟨some text, (utf16 text).length, (utf16 text).flatMap f,
      false⟩ rfl]

theorem writeUnit_legacy_flatMap (text : String) :
    ∀ k c, (utf16 text)[k]? = some c →
      writeUnit .legacy (((utf16 text).take k).flatMap (fun u => [u])) c =
        some (((utf16 text).take k).flatMap (fun u => [u]) ++ (fun u => [u]) c) :=
  fun _ _ _ => rfl

theorem writeUnit_frontend_flatMap (text : String) :
    ∀ k c, (utf16 text)[k]? = some c →
      writeUnit .frontend (((utf16 text).take k).flatMap parsedUnit) c =
        some (((utf16 text).take k).flatMap parsedUnit ++ parsedUnit c) :=
  fun _ c _ => writeUnit_frontend _ c (flatMap_parsedUnit_clean _).1
    (flatMap_parsedUnit_clean _).2

theorem flatMap_singleton_id (units : List Nat) : units.flatMap (fun u => [u]) = units := by
  induction units with
  | nil => rfl
  | cons u units ih => simp [List.flatMap_cons, ih]

/-- C17, as stated, fails in the frontend script for a text with a carriage
return.  Of `a\rb` the second tick writes the carriage return through
`innerHTML`, and the parser reads it as a line feed: the element holds `a`
and a line feed, not the first two characters of the text. -/
theorem typeWriter_carriage_return_is_rewritten :
    (typeWriterStart (some "a\rb")).ticks .frontend 2 =
      some (⟨some "a\rb", 2, [0x61, 0x0A], true⟩, 0) ∧
    (utf16 "a\rb").take 2 = [0x61, 0x0D] := by
  decide

/-- C17, amended.  Let `n` be the length of the text in UTF-16 code units.  In
the script that writes through `textContent`, after `k ≤ n` ticks the element
holds the first `k` code units of the text.  In the frontend script, which
writes through `innerHTML`, it holds them with every carriage return read as a
line feed and every `NUL` dropped, so the first `k` code units themselves when
the text has neither; its markup is that text with `&`, `<`, `>` and the
no-break space escaped.  In both, the tick `n + 1` clears the timer and
resolves the promise, the element holding the whole text; whatever number of
ticks follows, no callback runs: the state stays as it is and `resolve` has
been called once.  For the empty text the first tick resolves, the element
being empty. -/
theorem typeWriter_writes_then_resolves_once (text : String) :
    (∀ k : Nat, k ≤ (utf16 text).length →
      (typeWriterStart (some text)).ticks .legacy k =
        some (⟨some text, k, (utf16 text).take k, true⟩, 0)) ∧
    (∀ k : Nat,
      (typeWriterStart (some text)).ticks .legacy ((utf16 text).length + 1 + k) =
        some (⟨some text, (utf16 text).length, utf16 text, false⟩, 1)) ∧
    (∀ k : Nat, k ≤ (utf16 text).length →
      (typeWriterStart (some text)).ticks .frontend k =
        some (⟨some text, k, ((utf16 text).take k).flatMap parsedUnit, true⟩, 0)) ∧
    (∀ k : Nat,
      (typeWriterStart (some text)).ticks .frontend ((utf16 text).length + 1 + k) =
        some (⟨some text, (utf16 text).length, (utf16 text).flatMap parsedUnit, false⟩, 1)) ∧
    (0 ∉ utf16 text → 0x0D ∉ utf16 text →
      ∀ k : Nat, ((utf16 text).take k).flatMap parsedUnit = (utf16 text).take k) ∧
    (∀ (script : Script) (tw : TypeWriter), tw.timer = false →
      tw.tick script = some (tw, 0)) ∧
    (∀ script : Script,
      (typeWriterStart (some "")).ticks script 1 = some (⟨some "", 0, [], false⟩, 1)) := by
  refine ⟨?_, ?_, typeWriter_ticks_writing .frontend text parsedUnit
      (writeUnit_frontend_flatMap text),
    fun k => typeWriter_ticks_done .frontend text parsedUnit (writeUnit_frontend_flatMap text) k,
    ?_, typeWriter_tick_cleared, ?_⟩
  · intro k hk
    have h := typeWriter_ticks_writing .legacy text (fun u => [u])
      (writeUnit_legacy_flatMap text) k hk
    rw [flatMap_singleton_id] at h
    exact h
  · intro k
    have h := typeWriter_ticks_done .legacy text (fun u => [u])
      (writeUnit_legacy_flatMap text) k
    rw [flatMap_singleton_id] at h
    exact h
  · intro h0 hcr k
    exact flatMap_parsedUnit_of_clean _ (fun e => h0 (List.mem_of_mem_take e))
      (fun e => hcr (List.mem_of_mem_take e))
  · intro script
    cases script <;> decide

/-- C17, amended, at three texts: `a<b`, whose markup after three ticks is
`a&lt;b`; `ok😊`, four code units long, which resolves on the fifth tick, the
element holding half of the pair after the third; and `Hola`. -/
theorem typeWriter_writes_then_resolves_once_witness :
    ((3 ≤ (utf16 "a<b").length ∧
        (typeWriterStart (some "a<b")).ticks .frontend 3 =
          some (⟨some "a<b", 3, ((utf16 "a<b").take 3).flatMap parsedUnit, true⟩, 0)) ∧
      ((utf16 "a<b").take 3).flatMap parsedUnit = utf16 "a<b" ∧
      serializeText (utf16 "a<b") = utf16 "a&lt;b") ∧
    ((utf16 "ok😊").length = 4 ∧
      (typeWriterStart (some "ok😊")).ticks .frontend 3 =
        some (⟨some "ok😊", 3, [0x6F, 0x6B, 0xD83D], true⟩, 0) ∧
      (typeWriterStart (some "ok😊")).ticks .frontend 4 =
        some (⟨some "ok😊", 4, utf16 "ok😊", true⟩, 0) ∧
      (typeWriterStart (some "ok😊")).ticks .frontend ((utf16 "ok😊").length + 1 + 0) =
        some (⟨some "ok😊", (utf16 "ok😊").length, (utf16 "ok😊").flatMap parsedUnit,
          false⟩, 1)) ∧
    ((0 ∉ utf16 "Hola" ∧ 0x0D ∉ utf16 "Hola") ∧
      ((utf16 "Hola").take 2).flatMap parsedUnit = (utf16 "Hola").take 2 ∧
      (typeWriterStart (some "Hola")).ticks .legacy ((utf16 "Hola").length + 1 + 4) =
        some (⟨some "Hola", (utf16 "Hola").length, utf16 "Hola", false⟩, 1)) :=
  ⟨⟨⟨by decide, (typeWriter_writes_then_resolves_once "a<b").2.2.1 3 (by decide)⟩,
      by decide, by decide⟩,
    ⟨by decide, by decide, by decide,
      (typeWriter_writes_then_resolves_once "ok😊").2.2.2.1 0⟩,
    ⟨⟨by decide, by decide⟩,
      (typeWriter_writes_then_resolves_once "Hola").2.2.2.2.1 (by decide) (by decide) 2,
      (typeWriter_writes_then_resolves_once "Hola").2.1 4⟩⟩

/-! ### isInViewport (C18) -/

/-- C18. `isInViewport` holds iff the four comparisons hold: top and left not
negative, bottom and right not beyond the height and the width of the window
(`window.innerHeight || clientHeight`, `window.innerWidth || clientWidth`).
For a rectangle with `top ≤ bottom` and `left ≤ right` this says that every
point of the rectangle lies in the window. -/
theorem isInViewport_iff (rect : Rect) (window : Viewport) :
    (isInViewport rect window = true ↔
      rect.top ≥ 0 ∧ rect.left ≥ 0 ∧
        rect.bottom ≤ numOr window.innerHeight window.clientHeight ∧
        rect.right ≤ numOr window.innerWidth window.clientWidth) ∧
    (window.innerHeight ≠ 0 → window.innerWidth ≠ 0 →
      (isInViewport rect window = true ↔
        rect.top ≥ 0 ∧ rect.left ≥ 0 ∧ rect.bottom ≤ window.innerHeight ∧
          rect.right ≤ window.innerWidth)) ∧
    (rect.top ≤ rect.bottom → rect.left ≤ rect.right →
      (isInViewport rect window = true ↔
        ∀ x y : ℚ, rect.left ≤ x → x ≤ rect.right → rect.top ≤ y → y ≤ rect.bottom →
          (0 ≤ x ∧ x ≤ numOr window.innerWidth window.clientWidth) ∧
            (0 ≤ y ∧ y ≤ numOr window.innerHeight window.clientHeight))) := by
  have h : isInViewport rect window = true ↔
      rect.top ≥ 0 ∧ rect.left ≥ 0 ∧
        rect.bottom ≤ numOr window.innerHeight window.clientHeight ∧
        rect.right ≤ numOr window.innerWidth window.clientWidth := by
    simp [isInViewport, and_assoc]
  refine ⟨h, ?_, ?_⟩
  · intro hh hw
    rw [h]
    simp [numOr, hh, hw]
  · intro htb hlr
    rw [h]
    constructor
    · rintro ⟨h1, h2, h3, h4⟩ x y hx1 hx2 hy1 hy2
      exact ⟨⟨le_trans h2 hx1, le_trans hx2 h4⟩, ⟨le_trans h1 hy1, le_trans hy2 h3⟩⟩
    · intro hall
      have hA := hall rect.left rect.top (le_refl _) hlr (le_refl _) htb
      have hB := hall rect.right rect.bottom hlr (le_refl _) htb (le_refl _)
      exact ⟨hA.2.1, hA.1.1, hB.2.2, hB.1.2⟩

/-- C18 at a card that lies in a window of 1280 by 720 and at one that
reaches below it. -/
theorem isInViewport_iff_witness :
    ((720 : ℚ) ≠ 0 ∧ (1280 : ℚ) ≠ 0) ∧
    (isInViewport ⟨100, 40, 300, 340⟩ ⟨720, 700, 1280, 1265⟩ = true ↔
      (100 : ℚ) ≥ 0 ∧ (40 : ℚ) ≥ 0 ∧ (300 : ℚ) ≤ 720 ∧ (340 : ℚ) ≤ 1280) ∧
    (isInViewport ⟨600, 40, 800, 340⟩ ⟨720, 700, 1280, 1265⟩ = true ↔
      (600 : ℚ) ≥ 0 ∧ (40 : ℚ) ≥ 0 ∧ (800 : ℚ) ≤ 720 ∧ (340 : ℚ) ≤ 1280) :=
  ⟨⟨by norm_num, by norm_num⟩,
    (isInViewport_iff ⟨100, 40, 300, 340⟩ ⟨720, 700, 1280, 1265⟩).2.1 (by norm_num)
      (by norm_num),
    (isInViewport_iff ⟨600, 40, 800, 340⟩ ⟨720, 700, 1280, 1265⟩).2.1 (by norm_num)
      (by norm_num)⟩

/-! ### The counter of a statistic (C19) -/

theorem char_le_iff (a b : Char) : a ≤ b ↔ a.toNat ≤ b.toNat := by
  exact Iff.rfl

theorem digitValue_of_digit (c : Char) (h : isDecimalDigit c = true) :
    digitValue 10 c = some (c.toNat - '0'.toNat) := by
  simp only [isDecimalDigit, decide_eq_true_eq] at h
  have h9 : c.toNat ≤ '9'.toNat := (char_le_iff _ _).1 h.2
  have h9' : c.toNat ≤ 57 := h9
  simp only [digitValue, h, and_self, if_true]
  have h10 : c.toNat - 48 < 10 := by omega
  simp [h10]

theorem digitValue_of_not_digit (c : Char) (h : isDecimalDigit c = false) :
    digitValue 10 c = none := by
  simp only [isDecimalDigit, decide_eq_false_iff_not] at h
  simp only [digitValue, h, if_false]
  split_ifs <;> simp at *

theorem takeDigits_ten (cs : List Char) :
    takeDigits 10 cs = (cs.takeWhile isDecimalDigit).map (fun c => c.toNat - '0'.toNat) := by
  induction cs with
  | nil => rfl
  | cons c cs ih =>
    by_cases h : isDecimalDigit c = true
    · simp [takeDigits, digitValue_of_digit c h, List.takeWhile, h, ih]
    · have h' : isDecimalDigit c = false := by simpa using h
      simp [takeDigits, digitValue_of_not_digit c h', List.takeWhile, h']

theorem not_whitespace_of_digit (c : Char) (h : isDecimalDigit c = true) :
    isJsWhitespace c = false ∧ c ≠ '-' ∧ c ≠ '+' := by
  simp only [isDecimalDigit, decide_eq_true_eq] at h
  have h0 : '0'.toNat ≤ c.toNat := (char_le_iff _ _).1 h.1
  have h9 : c.toNat ≤ '9'.toNat := (char_le_iff _ _).1 h.2
  have h0' : 48 ≤ c.toNat := h0
  have h9' : c.toNat ≤ 57 := h9
  refine ⟨?_, ?_, ?_⟩
  · clear h0 h9 h
    simp only [isJsWhitespace, Bool.or_eq_false_iff, decide_eq_false_iff_not, List.mem_cons,
      List.mem_singleton, List.not_mem_nil, or_false, not_or, Bool.and_eq_false_iff]
    omega
  · rintro rfl
    exact absurd h0' (by decide)
  · rintro rfl
    exact absurd h0' (by decide)

theorem parseInt_of_leadingInteger (s : String) (n : Nat) (h : leadingInteger s = some n)
    (hpos : 0 < n) : parseInt s = some (n : ℤ) := by
  obtain ⟨cs⟩ := s
  cases cs with
  | nil => simp [leadingInteger] at h
  | cons c cs =>
    by_cases hc : isDecimalDigit c = true
    swap
    · simp [leadingInteger, List.takeWhile, hc] at h
    obtain ⟨hws, hminus, hplus⟩ := not_whitespace_of_digit c hc
    have hdrop : (c :: cs).dropWhile isJsWhitespace = c :: cs := by
      simp [List.dropWhile, hws]
    have hx : ∀ rest, c :: cs ≠ '0' :: 'x' :: rest := by
      intro rest heq
      injection heq with h1 h2
      subst h1
      subst h2
      have : leadingInteger ⟨'0' :: 'x' :: rest⟩ = some 0 := by
        simp [leadingInteger, List.takeWhile, isDecimalDigit]
      rw [this] at h
      injection h with h
      omega
    have hX : ∀ rest, c :: cs ≠ '0' :: 'X' :: rest := by
      intro rest heq
      injection heq with h1 h2
      subst h1
      subst h2
      have : leadingInteger ⟨'0' :: 'X' :: rest⟩ = some 0 := by
        simp [leadingInteger, List.takeWhile, isDecimalDigit]
      rw [this] at h
      injection h with h
      omega
    have hsigned : (match c :: cs with
        | '-' :: rest => (true, rest)
        | '+' :: rest => (false, rest)
        | _ => (false, c :: cs) : Bool × List Char) = (false, c :: cs) := by
      split
      · rename_i heq
        injection heq with h1 _
        exact absurd h1 hminus
      · rename_i heq
        injection heq with h1 _
        exact absurd h1 hplus
      · rfl
    have hbased : (match c :: cs with
        | '0' :: 'x' :: rest => (16, rest)
        | '0' :: 'X' :: rest => (16, rest)
        | _ => (10, c :: cs) : Nat × List Char) = (10, c :: cs) := by
      split
      · rename_i heq
        exact absurd heq (hx _)
      · rename_i heq
        exact absurd heq (hX _)
      · rfl
    unfold parseInt
    simp only [hdrop, hsigned, hbased, takeDigits_ten]
    have hne : (c :: cs).takeWhile isDecimalDigit ≠ [] := by
      simp [List.takeWhile, hc]
    simp only [leadingInteger, hne, if_false, Option.some.injEq] at h
    simp only [List.map_eq_nil_iff, hne, if_false, Bool.false_eq_true, List.foldl_map, h]

/-! #### Rounding -/

theorem floorLog2_go_spec :
    ∀ (fuel k : ℕ), 1 ≤ k → k ≤ fuel →
      2 ^ floorLog2.go fuel k ≤ k ∧ k < 2 ^ (floorLog2.go fuel k + 1)
  | 0, k, h1, h2 => by omega
  | fuel + 1, k, h1, h2 => by
    by_cases hk : k < 2
    · have : k = 1 := by omega
      subst this
      simp [floorLog2.go]
    · have ih := floorLog2_go_spec fuel (k / 2) (by omega) (by omega)
      simp only [floorLog2.go, hk, if_false]
      rw [pow_succ, pow_succ]
      omega

theorem floorLog2_spec (n : ℕ) (h : 1 ≤ n) :
    2 ^ floorLog2 n ≤ n ∧ n < 2 ^ (floorLog2 n + 1) :=
  floorLog2_go_spec n n h (Nat.le_refl n)

/-- Rounding to the nearest integer: the step of `roundRat` that chooses
between the quotient and its successor. -/
theorem nearest_quotient (num den : ℕ) (hden : 0 < den) (m : ℕ)
    (hm : m = if 2 * (num % den) > den ∨ (2 * (num % den) = den ∧ num / den % 2 = 1)
      then num / den + 1 else num / den) :
    2 * |(m : ℤ) * den - num| ≤ den := by
  have hdm := Nat.div_add_mod num den
  have hlt := Nat.mod_lt num hden
  have hnum : (num : ℤ) = (den : ℤ) * ((num / den : ℕ) : ℤ) + ((num % den : ℕ) : ℤ) := by
    exact_mod_cast hdm.symm
  generalize hr : num % den = r at *
  generalize hquo : num / den = quo at *
  generalize ht : (den : ℤ) * (quo : ℤ) = t at *
  split_ifs at hm with hc
  · have h1 : (m : ℤ) * den - num = den - r := by
      rw [hm, hnum, ← ht]
      push_cast
      ring
    rw [h1, abs_of_nonneg (by omega)]
    omega
  · have h1 : (m : ℤ) * den - num = -(r : ℤ) := by
      rw [hm, hnum, ← ht]
      ring
    rw [h1, abs_neg, abs_of_nonneg (by omega)]
    omega

/-- The double nearest to a positive rational below `2^40` is a multiple of
`2^-12` that is at most half of `2^-12` away. -/
theorem roundRat_near (p q : ℕ) (hp : 0 < p) (hq : 0 < q) (h : p < 2 ^ 40 * q) :
    ∃ m E : ℕ, roundRat p q = some (m, -(E : ℤ)) ∧ 12 ≤ E ∧
      2 * |(m : ℤ) * q - p * 2 ^ E| ≤ q := by
  have hLp := floorLog2_spec p hp
  have hLq := floorLog2_spec q hq
  have he0 : floorLog2 p ≤ floorLog2 q + 40 := by
    by_contra hcon
    have h1 : 2 ^ (floorLog2 q + 41) ≤ 2 ^ floorLog2 p :=
      Nat.pow_le_pow_right (by norm_num) (by omega)
    have h2 : 2 ^ (floorLog2 q + 41) = 2 ^ 40 * 2 ^ (floorLog2 q + 1) := by
      rw [← pow_add]
      congr 1
      omega
    have h3 : 2 ^ 40 * q < 2 ^ 40 * 2 ^ (floorLog2 q + 1) :=
      (Nat.mul_lt_mul_left (by positivity)).2 hLq.2
    omega
  unfold roundRat
  simp only
  generalize hb : (if shiftUp q ((floorLog2 p : ℤ) - (floorLog2 q : ℤ)) ≤
      shiftUp p (-((floorLog2 p : ℤ) - (floorLog2 q : ℤ)))
    then (floorLog2 p : ℤ) - (floorLog2 q : ℤ)
    else (floorLog2 p : ℤ) - (floorLog2 q : ℤ) - 1) = binade
  have hbin : binade ≤ 40 := by
    rw [← hb]
    split_ifs <;> omega
  generalize hu : max (binade - 52) (-1074) = ulp
  have hulp : ulp ≤ -12 := by
    rw [← hu]
    omega
  obtain ⟨E, hE⟩ : ∃ E : ℕ, ulp = -(E : ℤ) := ⟨(-ulp).toNat, by omega⟩
  subst hE
  have hs1 : shiftUp p (- -(E : ℤ)) = p * 2 ^ E := by
    simp [shiftUp]
  have hs2 : shiftUp q (-(E : ℤ)) = q := by
    have : (-(E : ℤ)).toNat = 0 := by omega
    simp [shiftUp, this]
  rw [hs1, hs2]
  have hno : ¬ (-(E : ℤ) > 971 ∨ (-(E : ℤ) = 971 ∧
      (if 2 * (p * 2 ^ E % q) > q ∨ (2 * (p * 2 ^ E % q) = q ∧ p * 2 ^ E / q % 2 = 1)
        then p * 2 ^ E / q + 1 else p * 2 ^ E / q) ≥ 2 ^ 53)) := by
    omega
  rw [if_neg hno]
  refine ⟨_, E, rfl, by omega, ?_⟩
  have := nearest_quotient (p * 2 ^ E) q hq _ rfl
  push_cast at this ⊢
  exact this

theorem two_zpow_toNat (a : ℤ) : (2 : ℚ) ^ a.toNat / 2 ^ (-a).toNat = 2 ^ a := by
  rcases le_total 0 a with h | h
  · have h1 : (-a).toNat = 0 := by omega
    have h2 : ((a.toNat : ℕ) : ℤ) = a := Int.toNat_of_nonneg h
    rw [h1, pow_zero, div_one, ← zpow_natCast, h2]
  · have h1 : a.toNat = 0 := by omega
    have h2 : (((-a).toNat : ℕ) : ℤ) = -a := Int.toNat_of_nonneg (by omega)
    rw [h1, pow_zero, one_div, ← zpow_natCast, h2, zpow_neg, inv_inv]

theorem shiftUp_ratio (m n : ℕ) (a : ℤ) :
    ((shiftUp m a : ℕ) : ℚ) / ((shiftUp n (-a) : ℕ) : ℚ) = (m : ℚ) / n * 2 ^ a := by
  simp only [shiftUp, Nat.cast_mul, Nat.cast_pow, Nat.cast_ofNat]
  rw [← two_zpow_toNat a, mul_div_mul_comm]

theorem shiftUp_mul_zpow (m : ℕ) (e g : ℤ) (h : g ≤ e) :
    ((shiftUp m (e - g) : ℕ) : ℚ) * 2 ^ g = (m : ℚ) * 2 ^ e := by
  have h2 : (((e - g).toNat : ℕ) : ℤ) = e - g := Int.toNat_of_nonneg (by omega)
  simp only [shiftUp, Nat.cast_mul, Nat.cast_pow, Nat.cast_ofNat]
  rw [← zpow_natCast, h2, mul_assoc, ← zpow_add₀ (by norm_num : (2 : ℚ) ≠ 0), sub_add_cancel]

theorem shiftUp_pos (m : ℕ) (a : ℤ) (h : 0 < m) : 0 < shiftUp m a := by
  unfold shiftUp
  positivity

/-- The double nearest to a positive rational below `2^40` is within `2^-13`
of it, and is the rational itself when that is a whole number. -/
theorem roundRat_value (p q : ℕ) (hp : 0 < p) (hq : 0 < q) (h : (p : ℚ) / q < 2 ^ 40) :
    ∃ (m : ℕ) (e : ℤ), roundRat p q = some (m, e) ∧
      |(m : ℚ) * 2 ^ e - (p : ℚ) / q| ≤ 1 / 2 ^ 13 ∧
      ∀ t : ℕ, (p : ℚ) / q = t → (m : ℚ) * 2 ^ e = t := by
  have hq' : (0 : ℚ) < q := by exact_mod_cast hq
  have hlt : p < 2 ^ 40 * q := by
    have := (div_lt_iff₀ hq').1 h
    exact_mod_cast this
  obtain ⟨m, E, hr, hE, hnear⟩ := roundRat_near p q hp hq hlt
  have h2E : (0 : ℚ) < 2 ^ E := by positivity
  refine ⟨m, -(E : ℤ), hr, ?_, ?_⟩
  · have hcast : 2 * |(m : ℚ) * q - p * 2 ^ E| ≤ q := by exact_mod_cast hnear
    have heq : (m : ℚ) * 2 ^ (-(E : ℤ)) - (p : ℚ) / q =
        ((m : ℚ) * q - p * 2 ^ E) / (q * 2 ^ E) := by
      rw [zpow_neg, zpow_natCast]
      field_simp
      ring
    have hpow : (2 : ℚ) ^ 12 ≤ 2 ^ E := pow_le_pow_right₀ (by norm_num) hE
    rw [heq, abs_div, abs_of_pos (mul_pos hq' h2E), div_le_iff₀ (mul_pos hq' h2E)]
    nlinarith
  · intro t ht
    have hpt : p = q * t := by
      have : (p : ℚ) = q * t := by
        rw [div_eq_iff (ne_of_gt hq')] at ht
        linarith
      exact_mod_cast this
    have hm : (m : ℤ) = t * 2 ^ E := by
      by_contra hne
      have h1 : 1 ≤ |(m : ℤ) - t * 2 ^ E| := Int.one_le_abs (sub_ne_zero.2 hne)
      have h2 : (m : ℤ) * q - p * 2 ^ E = ((m : ℤ) - t * 2 ^ E) * q := by
        rw [hpt]
        push_cast
        ring
      have hq'' : (0 : ℤ) < q := by exact_mod_cast hq
      rw [h2, abs_mul, abs_of_pos hq''] at hnear
      nlinarith
    have hm' : (m : ℚ) = t * 2 ^ E := by exact_mod_cast hm
    rw [hm', zpow_neg, zpow_natCast]
    field_simp

/-- The sum of two Numbers that are not negative, when it is positive and
below `2^40`. -/
theorem add_value (m n : ℕ) (e f : ℤ) (hpos : 0 < (m : ℚ) * 2 ^ e + (n : ℚ) * 2 ^ f)
    (hlt : (m : ℚ) * 2 ^ e + (n : ℚ) * 2 ^ f < 2 ^ 40) :
    ∃ (r : ℕ) (g : ℤ), (JSNum.fin false m e).add (.fin false n f) = .fin false r g ∧
      |(r : ℚ) * 2 ^ g - ((m : ℚ) * 2 ^ e + (n : ℚ) * 2 ^ f)| ≤ 1 / 2 ^ 13 ∧
      ∀ t : ℕ, (m : ℚ) * 2 ^ e + (n : ℚ) * 2 ^ f = t → (r : ℚ) * 2 ^ g = t := by
  have hx := shiftUp_mul_zpow m e (min e f) (min_le_left e f)
  have hy := shiftUp_mul_zpow n f (min e f) (min_le_right e f)
  generalize hg : min e f = g at hx hy
  generalize hxd : shiftUp m (e - g) = x at hx
  generalize hyd : shiftUp n (f - g) = y at hy
  have hsum : ((x + y : ℕ) : ℚ) * 2 ^ g = (m : ℚ) * 2 ^ e + (n : ℚ) * 2 ^ f := by
    push_cast
    rw [add_mul, hx, hy]
  have hxy : 0 < x + y := by
    rcases Nat.eq_zero_or_pos (x + y) with h0 | h0
    · rw [h0] at hsum
      simp only [Nat.cast_zero, zero_mul] at hsum
      rw [← hsum] at hpos
      exact absurd hpos (lt_irrefl 0)
    · exact h0
  have hratio := shiftUp_ratio (x + y) 1 g
  rw [Nat.cast_one, div_one, hsum] at hratio
  obtain ⟨r, h, hr, hnear, hexact⟩ := roundRat_value (shiftUp (x + y) g) (shiftUp 1 (-g))
    (shiftUp_pos _ _ hxy) (shiftUp_pos _ _ Nat.one_pos) (by rw [hratio]; exact hlt)
  rw [hratio] at hnear hexact
  refine ⟨r, h, ?_, hnear, hexact⟩
  have hs0 : ((x : ℤ) + (y : ℤ)) ≠ 0 := by omega
  have hsn : ((x : ℤ) + (y : ℤ)).natAbs = x + y := by omega
  have hneg : ¬ ((x : ℤ) + (y : ℤ) < 0) := by omega
  have hrd : roundToDouble (x + y) g = some (r, h) := by
    simp only [roundToDouble, Nat.ne_of_gt hxy, if_false, hr]
  simp only [JSNum.add, hg, hxd, hyd, Bool.false_eq_true, if_false, hs0, hsn, hrd, hneg,
    decide_False]

/-- The quotient of two positive Numbers, when it is below `2^40`. -/
theorem div_value (m n : ℕ) (e f : ℤ) (hm : 0 < m) (hn : 0 < n)
    (hlt : (m : ℚ) * 2 ^ e / ((n : ℚ) * 2 ^ f) < 2 ^ 40) :
    ∃ (r : ℕ) (g : ℤ), (JSNum.fin false m e).div (.fin false n f) = .fin false r g ∧
      |(r : ℚ) * 2 ^ g - (m : ℚ) * 2 ^ e / ((n : ℚ) * 2 ^ f)| ≤ 1 / 2 ^ 13 ∧
      ∀ t : ℕ, (m : ℚ) * 2 ^ e / ((n : ℚ) * 2 ^ f) = t → (r : ℚ) * 2 ^ g = t := by
  have hratio : ((shiftUp m (e - f) : ℕ) : ℚ) / ((shiftUp n (f - e) : ℕ) : ℚ) =
      (m : ℚ) * 2 ^ e / ((n : ℚ) * 2 ^ f) := by
    have h1 : f - e = -(e - f) := by ring
    rw [h1, shiftUp_ratio, zpow_sub₀ (by norm_num : (2 : ℚ) ≠ 0), mul_div_mul_comm]
  obtain ⟨r, g, hr, hnear, hexact⟩ := roundRat_value (shiftUp m (e - f)) (shiftUp n (f - e))
    (shiftUp_pos _ _ hm) (shiftUp_pos _ _ hn) (by rw [hratio]; exact hlt)
  rw [hratio] at hnear hexact
  refine ⟨r, g, ?_, hnear, hexact⟩
  simp only [JSNum.div, Nat.ne_of_gt hn, Nat.ne_of_gt hm, if_false, hr, Bool.xor_false]

/-- The Number of a positive integer below `2^40` is the integer. -/
theorem ofInt_value (n : ℕ) (hn : 0 < n) (hlt : n < 2 ^ 40) :
    ∃ (r : ℕ) (g : ℤ), JSNum.ofInt (n : ℤ) = .fin false r g ∧ (r : ℚ) * 2 ^ g = n := by
  have hratio := shiftUp_ratio n 1 0
  rw [Nat.cast_one, div_one, zpow_zero, mul_one] at hratio
  obtain ⟨r, g, hr, _, hexact⟩ := roundRat_value (shiftUp n 0) (shiftUp 1 (-0))
    (shiftUp_pos _ _ hn) (shiftUp_pos _ _ Nat.one_pos)
    (by rw [hratio]; exact_mod_cast hlt)
  refine ⟨r, g, ?_, hexact n hratio⟩
  have hneg : ¬ ((n : ℤ) < 0) := by omega
  simp only [JSNum.ofInt, Int.natAbs_ofNat, roundToDouble, Nat.ne_of_gt hn, if_false, hneg,
    decide_False]
  rw [hr]

/-- `>=` on Numbers that are not negative compares their values. -/
theorem ge_value (m n : ℕ) (e f : ℤ) :
    (JSNum.fin false m e).ge (.fin false n f) = decide ((n : ℚ) * 2 ^ f ≤ (m : ℚ) * 2 ^ e) := by
  have hx := shiftUp_mul_zpow m e (min e f) (min_le_left e f)
  have hy := shiftUp_mul_zpow n f (min e f) (min_le_right e f)
  have hg : (0 : ℚ) < 2 ^ (min e f) := by positivity
  simp only [JSNum.ge, Bool.false_eq_true, if_false]
  rw [← hx, ← hy]
  congr 1
  rw [eq_iff_iff, mul_le_mul_right hg]
  norm_cast

/-- The text of the floor of a Number that is not negative and below `2^53`
is the numeral of the floor of its value. -/
theorem floor_text_value (m : ℕ) (e : ℤ) (h : (m : ℚ) * 2 ^ e < 2 ^ 53) :
    (JSNum.fin false m e).floor.text = Nat.repr ⌊(m : ℚ) * 2 ^ e⌋₊ := by
  by_cases he : 0 ≤ e
  · have hv : (m : ℚ) * 2 ^ e = ((shiftUp m e : ℕ) : ℚ) := by
      have h2 : ((e.toNat : ℕ) : ℤ) = e := Int.toNat_of_nonneg he
      simp only [shiftUp, Nat.cast_mul, Nat.cast_pow, Nat.cast_ofNat]
      rw [← zpow_natCast, h2]
    have hlt : shiftUp m e < 2 ^ 53 := by
      rw [hv] at h
      exact_mod_cast h
    rw [hv, Nat.floor_natCast]
    simp only [JSNum.floor, JSNum.text, if_pos he]
    rw [if_pos ⟨he, hlt⟩]
    simp
  · have h2 : (((-e).toNat : ℕ) : ℤ) = -e := Int.toNat_of_nonneg (by omega)
    have hv : (m : ℚ) * 2 ^ e = (m : ℚ) / ((2 ^ (-e).toNat : ℕ) : ℚ) := by
      rw [Nat.cast_pow, Nat.cast_ofNat, ← zpow_natCast, h2, zpow_neg, div_eq_mul_inv, inv_inv]
    have hfl : ⌊(m : ℚ) * 2 ^ e⌋₊ = m / 2 ^ (-e).toNat := by
      rw [hv, Nat.floor_div_eq_div]
    have hlt : m / 2 ^ (-e).toNat < 2 ^ 53 := by
      have h1 : ((⌊(m : ℚ) * 2 ^ e⌋₊ : ℕ) : ℚ) ≤ (m : ℚ) * 2 ^ e :=
        Nat.floor_le (by positivity)
      rw [hfl] at h1
      have : ((m / 2 ^ (-e).toNat : ℕ) : ℚ) < 2 ^ 53 := lt_of_le_of_lt h1 h
      exact_mod_cast this
    have hlt' : shiftUp (m / 2 ^ (-e).toNat) 0 < 2 ^ 53 := by
      simpa [shiftUp] using hlt
    rw [hfl]
    simp only [JSNum.floor, JSNum.text, if_neg he, Bool.false_eq_true, if_false]
    rw [if_pos ⟨le_refl 0, hlt'⟩]
    simp [shiftUp]

/-- The Number of a positive integer literal below `2^40` is the integer. -/
theorem ofNat_value (n : ℕ) (hn : 0 < n) (hlt : n < 2 ^ 40) :
    ∃ (r : ℕ) (g : ℤ), JSNum.ofNat n = .fin false r g ∧ (r : ℚ) * 2 ^ g = n := by
  have hratio := shiftUp_ratio n 1 0
  rw [Nat.cast_one, div_one, zpow_zero, mul_one] at hratio
  obtain ⟨r, g, hr, _, hexact⟩ := roundRat_value (shiftUp n 0) (shiftUp 1 (-0))
    (shiftUp_pos _ _ hn) (shiftUp_pos _ _ Nat.one_pos)
    (by rw [hratio]; exact_mod_cast hlt)
  refine ⟨r, g, ?_, hexact n hratio⟩
  simp only [JSNum.ofNat, roundToDouble, Nat.ne_of_gt hn, if_false]
  rw [hr]

/-- The numerals that `JSNum.text` writes are those of Number::toString, at
some whole numbers. -/
theorem text_eq_toString_samples :
    (JSNum.fin false 0 0).text = (JSNum.fin false 0 0).toString ∧
    (JSNum.fin false 9 0).text = (JSNum.fin false 9 0).toString ∧
    (JSNum.fin false 37 0).text = (JSNum.fin false 37 0).toString ∧
    (JSNum.fin false 1900 0).text = (JSNum.fin false 1900 0).toString ∧
    (JSNum.fin false 999999999999 0).text = (JSNum.fin false 999999999999 0).toString ∧
    (JSNum.fin true 5 0).text = (JSNum.fin true 5 0).toString ∧
    (JSNum.fin false 9007199254740991 0).text =
      (JSNum.fin false 9007199254740991 0).toString := by
  decide

/-! #### The counter in doubles -/

/-- A value within `1/50` of `a / 50` has the floor of `a / 50`, or one less
when `a / 50` is a whole number. -/
theorem floor_near_fiftieth (a : ℕ) (v : ℚ) (ha : 0 < a) (h : |v - (a : ℚ) / 50| < 1 / 50) :
    ⌊v⌋₊ = a / 50 ∨ (50 ∣ a ∧ ⌊v⌋₊ + 1 = a / 50) := by
  obtain ⟨h1, h2⟩ := abs_lt.1 h
  have hdm := Nat.div_add_mod a 50
  have hlt := Nat.mod_lt a (by norm_num : 0 < 50)
  have hcast : (a : ℚ) = 50 * ((a / 50 : ℕ) : ℚ) + ((a % 50 : ℕ) : ℚ) := by
    exact_mod_cast hdm.symm
  generalize hd : a / 50 = d at *
  generalize hr : a % 50 = r at *
  rcases Nat.eq_zero_or_pos r with h0 | h0
  · subst h0
    have hd1 : 1 ≤ d := by omega
    have hd1' : (1 : ℚ) ≤ d := by exact_mod_cast hd1
    simp only [Nat.cast_zero, add_zero] at hcast
    by_cases hv : (d : ℚ) ≤ v
    · left
      rw [Nat.floor_eq_iff (by linarith)]
      constructor
      · exact hv
      · linarith
    · right
      refine ⟨⟨d, by omega⟩, ?_⟩
      obtain ⟨d', rfl⟩ : ∃ d', d = d' + 1 := ⟨d - 1, by omega⟩
      have : ⌊v⌋₊ = d' := by
        rw [Nat.floor_eq_iff (by push_cast at hcast h1; linarith)]
        push_cast at hcast h1 hv ⊢
        constructor <;> linarith
      omega
  · left
    have hr1 : (1 : ℚ) ≤ r := by exact_mod_cast h0
    have hr2 : (r : ℚ) ≤ 49 := by exact_mod_cast (by omega : r ≤ 49)
    have hd0 : (0 : ℚ) ≤ d := by positivity
    rw [Nat.floor_eq_iff (by linarith)]
    constructor <;> linarith

theorem value_fin (m : ℕ) (e : ℤ) : (JSNum.fin false m e).value = (m : ℚ) * 2 ^ e := by
  simp [JSNum.value]

/-- One period of the interval of a statistic whose number is `n`, whose
increment is within `2^-13` of `n / 50`, and whose `current` is not negative
and below `2^40` with the increment added. -/
theorem statTimer_tick_value (target text : String) (n mN mc mi : ℕ) (eN ec ei : ℤ)
    (hN : (mN : ℚ) * 2 ^ eN = n)
    (hpos : 0 < (mc : ℚ) * 2 ^ ec + (mi : ℚ) * 2 ^ ei)
    (hlt : (mc : ℚ) * 2 ^ ec + (mi : ℚ) * 2 ^ ei < 2 ^ 40) :
    ∃ (r : ℕ) (g : ℤ),
      |(r : ℚ) * 2 ^ g - ((mc : ℚ) * 2 ^ ec + (mi : ℚ) * 2 ^ ei)| ≤ 1 / 2 ^ 13 ∧
      (∀ t : ℕ, (mc : ℚ) * 2 ^ ec + (mi : ℚ) * 2 ^ ei = t → (r : ℚ) * 2 ^ g = t) ∧
      StatTimer.tick ⟨target, .fin false mN eN, .fin false mc ec, .fin false mi ei, true⟩ text =
        if (n : ℚ) ≤ (r : ℚ) * 2 ^ g then
          (⟨target, .fin false mN eN, .fin false r g, .fin false mi ei, false⟩, target)
        else
          (⟨target, .fin false mN eN, .fin false r g, .fin false mi ei, true⟩,
            Nat.repr ⌊(r : ℚ) * 2 ^ g⌋₊ ++ (if jsIncludes target "%" then "%" else "")) := by
  obtain ⟨r, g, hadd, hnear, hexact⟩ := add_value mc mi ec ei hpos hlt
  refine ⟨r, g, hnear, hexact, ?_⟩
  have hr53 : (r : ℚ) * 2 ^ g < 2 ^ 53 := by
    have := (abs_le.1 hnear).2
    have h40 : (2 : ℚ) ^ 40 + 1 / 2 ^ 13 < 2 ^ 53 := by norm_num
    linarith
  simp only [StatTimer.tick, StatTimer.callback, if_true, hadd, ge_value, hN,
    floor_text_value r g hr53]
  by_cases hc : (n : ℚ) ≤ (r : ℚ) * 2 ^ g
  · simp [hc]
  · simp [hc]

/-- The variables of the callback of a statistic whose text begins with the
integer `n`, when its timer is set. -/
theorem statTimerStart_value (target : String) (n : ℕ)
    (hp : parseInt target = some (n : ℤ)) (hpos : 0 < n) (hle : n ≤ 10 ^ 12) :
    ∃ (mN mi : ℕ) (eN ei : ℤ),
      statTimerStart target =
        ⟨target, .fin false mN eN, .fin false 0 0, .fin false mi ei, true⟩ ∧
      (mN : ℚ) * 2 ^ eN = n ∧
      |(mi : ℚ) * 2 ^ ei - (n : ℚ) / 50| ≤ 1 / 2 ^ 13 ∧
      ∀ t : ℕ, n = 50 * t → (mi : ℚ) * 2 ^ ei = t := by
  have hn40 : n < 2 ^ 40 := lt_of_le_of_lt hle (by norm_num)
  obtain ⟨mN, eN, hN, hvN⟩ := ofInt_value n hpos hn40
  obtain ⟨m50, e50, h50, hv50⟩ := ofNat_value 50 (by norm_num) (by norm_num)
  have hnq : (0 : ℚ) < n := by exact_mod_cast hpos
  have hmN : 0 < mN := by
    rcases Nat.eq_zero_or_pos mN with h0 | h0
    · rw [h0] at hvN
      simp only [Nat.cast_zero, zero_mul] at hvN
      rw [← hvN] at hnq
      exact absurd hnq (lt_irrefl 0)
    · exact h0
  have hm50 : 0 < m50 := by
    rcases Nat.eq_zero_or_pos m50 with h0 | h0
    · rw [h0] at hv50
      norm_num at hv50
    · exact h0
  have hq : (mN : ℚ) * 2 ^ eN / ((m50 : ℚ) * 2 ^ e50) = (n : ℚ) / 50 := by
    rw [hvN, hv50]
    norm_num
  have hn40' : (n : ℚ) < 2 ^ 40 := by exact_mod_cast hn40
  obtain ⟨mi, ei, hdiv, hnear, hexact⟩ := div_value mN m50 eN e50 hmN hm50
    (by rw [hq]; linarith)
  rw [hq] at hnear hexact
  refine ⟨mN, mi, eN, ei, ?_, hvN, hnear, ?_⟩
  · have h0 : JSNum.ofNat 0 = .fin false 0 0 := by decide
    simp only [statTimerStart, hp, hN, h50, hdiv, h0]
  · intro t ht
    apply hexact
    rw [ht]
    push_cast
    field_simp

/-- The state of the counter of a statistic whose text begins with `n`, after
`k` periods, `k ≤ 49`: the timer is set, `current` is within `2 * k * 2^-13`
of `k * n / 50` and is `k * n / 50` itself when 50 divides `n`, and from the
first period on the element shows the floor of `current`. -/
theorem statTimer_ticks_value (target : String) (n mN mi : ℕ) (eN ei : ℤ)
    (hstart : statTimerStart target =
      ⟨target, .fin false mN eN, .fin false 0 0, .fin false mi ei, true⟩)
    (hN : (mN : ℚ) * 2 ^ eN = n) (hpos : 0 < n) (hle : n ≤ 10 ^ 12)
    (hi : |(mi : ℚ) * 2 ^ ei - (n : ℚ) / 50| ≤ 1 / 2 ^ 13)
    (hiexact : ∀ t : ℕ, n = 50 * t → (mi : ℚ) * 2 ^ ei = t) :
    ∀ k : ℕ, k ≤ 49 →
      ∃ (mc : ℕ) (ec : ℤ),
        (statTimerStart target).ticks target k =
          (⟨target, .fin false mN eN, .fin false mc ec, .fin false mi ei, true⟩,
            if k = 0 then target
            else Nat.repr ⌊(mc : ℚ) * 2 ^ ec⌋₊ ++ (if jsIncludes target "%" then "%" else "")) ∧
        |(mc : ℚ) * 2 ^ ec - (k : ℚ) * ((n : ℚ) / 50)| ≤ 2 * (k : ℚ) * (1 / 2 ^ 13) ∧
        (∀ t : ℕ, n = 50 * t → (mc : ℚ) * 2 ^ ec = ((k * t : ℕ) : ℚ)) ∧
        (∀ j : ℕ, k = j + 1 →
          ((statTimerStart target).ticks target j).1.current.value ≤ (mc : ℚ) * 2 ^ ec)
  | 0, _ => by
    refine ⟨0, 0, ?_, by simp, ?_, ?_⟩
    · simp only [StatTimer.ticks, if_true]
      rw [hstart]
    · intro t _
      simp
    · intro j hj
      omega
  | k + 1, hk => by
    obtain ⟨mc, ec, hticks, hnear, hexact, _⟩ :=
      statTimer_ticks_value target n mN mi eN ei hstart hN hpos hle hi hiexact k (by omega)
    have hnq : (1 : ℚ) ≤ n := by exact_mod_cast hpos
    have hnle : (n : ℚ) ≤ 10 ^ 12 := by exact_mod_cast hle
    have hkq : (k : ℚ) ≤ 48 := by exact_mod_cast (by omega : k ≤ 48)
    have hk0 : (0 : ℚ) ≤ k := by positivity
    obtain ⟨hi1, hi2⟩ := abs_le.1 hi
    obtain ⟨hc1, hc2⟩ := abs_le.1 hnear
    have hcpos : (0 : ℚ) ≤ (mc : ℚ) * 2 ^ ec := by positivity
    obtain ⟨r, g, hrnear, hrexact, htick⟩ := statTimer_tick_value target
      ((statTimerStart target).ticks target k).2 n mN mc mi eN ec ei hN
      (by norm_num at hi1 ⊢; linarith)
      (by norm_num at hi2 hc2 ⊢; nlinarith)
    obtain ⟨hr1, hr2⟩ := abs_le.1 hrnear
    have hbelow : ¬ ((n : ℚ) ≤ (r : ℚ) * 2 ^ g) := by
      norm_num at hi1 hi2 hc1 hc2 hr1 hr2 ⊢
      nlinarith
    have hstep : (statTimerStart target).ticks target (k + 1) =
        ((statTimerStart target).ticks target k).1.tick
          ((statTimerStart target).ticks target k).2 := rfl
    refine ⟨r, g, ?_, ?_, ?_, ?_⟩
    · rw [hstep]
      conv_lhs => rw [hticks]
      simp only [Nat.succ_ne_zero, if_false]
      rw [hticks] at htick
      rw [htick, if_neg hbelow]
    · rw [abs_le]
      push_cast
      norm_num at hi1 hi2 hc1 hc2 hr1 hr2 ⊢
      constructor <;> linarith
    · intro t ht
      apply hrexact
      rw [hexact t ht, hiexact t ht]
      push_cast
      ring
    · intro j hj
      have hjk : j = k := by omega
      rw [hjk, hticks, value_fin]
      norm_num at hi1 hr1 ⊢
      linarith


/-- C19, as stated, fails in three places.  The statistic `50% menos` begins
with 50 and has no trailing `%`, and its counter shows `1%` at the first
period: the sign is appended because the text holds one.  The statistic `100`
shows `2` at the first period: the values shown do not start from `0`.  The
statistic `10` shows `1` at the period 10, where `⌊10 * 10 / 50⌋` is `2`, and
at the period 50 it shows `9` and its timer is still set: the sum of fifty
times the double `0.2` is below `10`. -/
theorem statTimer_misses_exact_count :
    leadingInteger "50% menos" = some 50 ∧
    ("50% menos" : String).data.getLast? ≠ some '%' ∧
    ((statTimerStart "50% menos").ticks "50% menos" 1).2 = "1%" ∧
    leadingInteger "100" = some 100 ∧
    ((statTimerStart "100").ticks "100" 1).2 = "2" ∧
    leadingInteger "10" = some 10 ∧
    10 * 10 / 50 = 2 ∧
    ((statTimerStart "10").ticks "10" 10).2 = "1" ∧
    ((statTimerStart "10").ticks "10" 50).2 = "9" ∧
    ((statTimerStart "10").ticks "10" 50).1.timer = true := by
  decide

/-- C19, amended.  For a statistic whose text `target` begins with a positive
integer `n` of at most `10^12`, `parseInt` reads `n`, and with the doubles of
the script: at the period `k`, `1 ≤ k < 50`, the timer stays set and the
element shows a whole number followed by `%` iff `target` holds a `%`
anywhere; the number is `⌊k * n / 50⌋`, or one less than `k * n / 50` in a
case where 50 divides `k * n` and not `n`; the first number is `⌊n / 50⌋` and
the numbers never decrease; at the period 50 the element shows `target` again
and the timer is cleared, or, when 50 does not divide `n`, the element shows
`n - 1`, the timer stays set, and the period 51 shows `target` again and
clears the timer. -/
theorem statTimer_counts_up (target : String) (n : ℕ)
    (hn : leadingInteger target = some n) (hpos : 0 < n) (hle : n ≤ 10 ^ 12) :
    parseInt target = some (n : ℤ) ∧
    (∃ shown : ℕ → ℕ,
      (∀ k : ℕ, 1 ≤ k → k < 50 →
        ((statTimerStart target).ticks target k).2 =
            toString (shown k) ++ (if jsIncludes target "%" then "%" else "") ∧
          ((statTimerStart target).ticks target k).1.timer = true ∧
          (shown k = k * n / 50 ∨
            (¬ 50 ∣ n ∧ 50 ∣ k * n ∧ shown k + 1 = k * n / 50))) ∧
      shown 1 = n / 50 ∧
      (∀ k k' : ℕ, 1 ≤ k → k ≤ k' → k' < 50 → shown k ≤ shown k')) ∧
    ((((statTimerStart target).ticks target 50).2 = target ∧
        ((statTimerStart target).ticks target 50).1.timer = false) ∨
      (¬ 50 ∣ n ∧
        ((statTimerStart target).ticks target 50).2 =
          toString (n - 1) ++ (if jsIncludes target "%" then "%" else "") ∧
        ((statTimerStart target).ticks target 50).1.timer = true ∧
        ((statTimerStart target).ticks target 51).2 = target ∧
        ((statTimerStart target).ticks target 51).1.timer = false)) := by
  have hp := parseInt_of_leadingInteger target n hn hpos
  obtain ⟨mN, mi, eN, ei, hstart, hN, hi, hiexact⟩ := statTimerStart_value target n hp hpos hle
  have hinv := statTimer_ticks_value target n mN mi eN ei hstart hN hpos hle hi hiexact
  have hnq : (1 : ℚ) ≤ n := by exact_mod_cast hpos
  have hnle : (n : ℚ) ≤ 10 ^ 12 := by exact_mod_cast hle
  obtain ⟨hi1, hi2⟩ := abs_le.1 hi
  -- the number shown at a period
  have hshown : ∀ k : ℕ, 1 ≤ k → k < 50 →
      ((statTimerStart target).ticks target k).2 =
          toString ⌊((statTimerStart target).ticks target k).1.current.value⌋₊ ++
            (if jsIncludes target "%" then "%" else "") ∧
        ((statTimerStart target).ticks target k).1.timer = true ∧
        (⌊((statTimerStart target).ticks target k).1.current.value⌋₊ = k * n / 50 ∨
          (¬ 50 ∣ n ∧ 50 ∣ k * n ∧
            ⌊((statTimerStart target).ticks target k).1.current.value⌋₊ + 1 = k * n / 50)) := by
    intro k hk1 hk
    obtain ⟨mc, ec, hticks, hnear, hexact, _⟩ := hinv k (by omega)
    have hk0 : k ≠ 0 := by omega
    rw [hticks, value_fin]
    simp only [hk0, if_false]
    refine ⟨rfl, trivial, ?_⟩
    by_cases hdiv : 50 ∣ n
    · left
      obtain ⟨t, ht⟩ := hdiv
      rw [hexact t ht, Nat.floor_natCast, ht, ← mul_assoc, mul_comm k 50, mul_assoc,
        Nat.mul_div_cancel_left _ (by norm_num : 0 < 50)]
    · have hkq : (k : ℚ) ≤ 49 := by exact_mod_cast (by omega : k ≤ 49)
      have hk0' : (0 : ℚ) ≤ k := by positivity
      have hlt : |(mc : ℚ) * 2 ^ ec - ((k * n : ℕ) : ℚ) / 50| < 1 / 50 := by
        have : ((k * n : ℕ) : ℚ) / 50 = (k : ℚ) * ((n : ℚ) / 50) := by
          push_cast
          ring
        rw [this]
        refine lt_of_le_of_lt hnear ?_
        norm_num
        linarith
      rcases floor_near_fiftieth (k * n) _ (Nat.mul_pos (by omega) hpos) hlt with h | h
      · exact Or.inl h
      · exact Or.inr ⟨hdiv, h⟩
  have hmono : ∀ d k : ℕ, k + d < 50 →
      ((statTimerStart target).ticks target k).1.current.value ≤
        ((statTimerStart target).ticks target (k + d)).1.current.value := by
    intro d
    induction d with
    | zero => intro k _; exact le_refl _
    | succ d ih =>
      intro k hk
      obtain ⟨mc, ec, hticks, _, _, hprev⟩ := hinv (k + (d + 1)) (by omega)
      have h1 := hprev (k + d) (by omega)
      have h2 := ih k (by omega)
      rw [hticks, value_fin]
      exact le_trans h2 h1
  refine ⟨hp, ⟨fun k => ⌊((statTimerStart target).ticks target k).1.current.value⌋₊,
    hshown, ?_, ?_⟩, ?_⟩
  · -- the first number
    rcases (hshown 1 (le_refl 1) (by norm_num)).2.2 with h | ⟨hnd, hd, _⟩
    · simpa using h
    · rw [one_mul] at hd
      exact absurd hd hnd
  · intro k k' _ hkk hk'
    obtain ⟨d, rfl⟩ : ∃ d, k' = k + d := ⟨k' - k, by omega⟩
    exact Nat.floor_mono (hmono d k hk')
  · -- the periods 50 and 51
    obtain ⟨mc, ec, hticks, hnear, hexact, _⟩ := hinv 49 (le_refl 49)
    obtain ⟨hc1, hc2⟩ := abs_le.1 hnear
    have hcpos : (0 : ℚ) ≤ (mc : ℚ) * 2 ^ ec := by positivity
    obtain ⟨r, g, hrnear, hrexact, htick⟩ := statTimer_tick_value target
      ((statTimerStart target).ticks target 49).2 n mN mc mi eN ec ei hN
      (by norm_num at hi1 ⊢; linarith)
      (by norm_num at hi2 hc2 ⊢; linarith)
    obtain ⟨hr1, hr2⟩ := abs_le.1 hrnear
    have hstep : (statTimerStart target).ticks target 50 =
        ((statTimerStart target).ticks target 49).1.tick
          ((statTimerStart target).ticks target 49).2 := rfl
    have h50 : (statTimerStart target).ticks target 50 =
        if (n : ℚ) ≤ (r : ℚ) * 2 ^ g then
          (⟨target, .fin false mN eN, .fin false r g, .fin false mi ei, false⟩, target)
        else
          (⟨target, .fin false mN eN, .fin false r g, .fin false mi ei, true⟩,
            Nat.repr ⌊(r : ℚ) * 2 ^ g⌋₊ ++ (if jsIncludes target "%" then "%" else "")) := by
      rw [hstep]
      conv_lhs => rw [hticks]
      rw [hticks] at htick
      exact htick
    by_cases hreach : (n : ℚ) ≤ (r : ℚ) * 2 ^ g
    · left
      rw [h50, if_pos hreach]
      exact ⟨rfl, rfl⟩
    · right
      rw [if_neg hreach] at h50
      have hnd : ¬ 50 ∣ n := by
        rintro ⟨t, ht⟩
        apply hreach
        have h1 := hexact t ht
        have h2 := hiexact t ht
        have h3 := hrexact (50 * t) (by rw [h1, h2]; push_cast; ring)
        rw [h3, ht]
      have hfloor : ⌊(r : ℚ) * 2 ^ g⌋₊ = n - 1 := by
        rw [Nat.floor_eq_iff (by positivity)]
        have hn1 : ((n - 1 : ℕ) : ℚ) = (n : ℚ) - 1 := by
          rw [Nat.cast_sub hpos]
          simp
        rw [hn1]
        norm_num at hi1 hi2 hc1 hc2 hr1 hr2 hreach ⊢
        constructor <;> linarith
      obtain ⟨r', g', hrnear', _, htick'⟩ := statTimer_tick_value target
        ((statTimerStart target).ticks target 50).2 n mN r mi eN g ei hN
        (by norm_num at hi1 ⊢; have : (0 : ℚ) ≤ (r : ℚ) * 2 ^ g := by positivity
            linarith)
        (by norm_num at hi2 hreach ⊢; linarith)
      obtain ⟨hr1', hr2'⟩ := abs_le.1 hrnear'
      have hreach' : (n : ℚ) ≤ (r' : ℚ) * 2 ^ g' := by
        norm_num at hi1 hi2 hc1 hc2 hr1 hr2 hr1' hr2' ⊢
        linarith
      have hstep' : (statTimerStart target).ticks target 51 =
          ((statTimerStart target).ticks target 50).1.tick
            ((statTimerStart target).ticks target 50).2 := rfl
      have h51 : (statTimerStart target).ticks target 51 =
          (⟨target, .fin false mN eN, .fin false r' g', .fin false mi ei, false⟩, target) := by
        rw [hstep']
        conv_lhs => rw [h50]
        rw [h50] at htick'
        rw [htick', if_pos hreach']
      rw [h50, h51, hfloor]
      exact ⟨hnd, rfl, rfl, rfl, rfl⟩

/-- C19, amended, at the statistic `95%`, which shows `37%` at the period 20,
one less than `20 * 95 / 50`, and at the statistic `10`, which shows its text
again at the period 51. -/
theorem statTimer_counts_up_witness :
    leadingInteger "95%" = some 95 ∧
    (∃ shown : ℕ → ℕ,
      (∀ k : ℕ, 1 ≤ k → k < 50 →
        ((statTimerStart "95%").ticks "95%" k).2 =
            toString (shown k) ++ (if jsIncludes "95%" "%" then "%" else "") ∧
          ((statTimerStart "95%").ticks "95%" k).1.timer = true ∧
          (shown k = k * 95 / 50 ∨
            (¬ 50 ∣ 95 ∧ 50 ∣ k * 95 ∧ shown k + 1 = k * 95 / 50))) ∧
      shown 1 = 95 / 50 ∧
      (∀ k k' : ℕ, 1 ≤ k → k ≤ k' → k' < 50 → shown k ≤ shown k')) ∧
    ((statTimerStart "95%").ticks "95%" 7).2 = "13%" ∧
    ((statTimerStart "95%").ticks "95%" 20).2 = "37%" ∧
    ((statTimerStart "95%").ticks "95%" 50).2 = "95%" ∧
    ((statTimerStart "95%").ticks "95%" 50).1.timer = false ∧
    ((((statTimerStart "10").ticks "10" 50).2 = "10" ∧
        ((statTimerStart "10").ticks "10" 50).1.timer = false) ∨
      (¬ 50 ∣ 10 ∧
        ((statTimerStart "10").ticks "10" 50).2 =
          toString (10 - 1) ++ (if jsIncludes "10" "%" then "%" else "") ∧
        ((statTimerStart "10").ticks "10" 50).1.timer = true ∧
        ((statTimerStart "10").ticks "10" 51).2 = "10" ∧
        ((statTimerStart "10").ticks "10" 51).1.timer = false)) ∧
    ((statTimerStart "10").ticks "10" 51).1.timer = false :=
  ⟨by decide,
    (statTimer_counts_up "95%" 95 (by decide) (by decide) (by decide)).2.1,
    by decide, by decide, by decide, by decide,
    (statTimer_counts_up "10" 10 (by decide) (by decide) (by decide)).2.2,
    by decide⟩

/-! ### renderResults (C20) -/

theorem productCard_fields (product : Product) :
    (productCard product).similarityPercent = percentText product.similarity ∧
    (productCard product).name = interpolate product.name ∧
    (∀ name : String, product.name = some name → (productCard product).name = name) ∧
    (∀ category : String, product.category = some category → category ≠ "" →
      (productCard product).category = category) ∧
    (product.category = none ∨ product.category = some "" →
      (productCard product).category = "General") := by
  refine ⟨rfl, rfl, ?_, ?_, ?_⟩
  · intro name h
    simp [productCard, interpolate, h]
  · intro category h hne
    simp [productCard, strOr, h, hne]
  · rintro (h | h) <;> simp [productCard, strOr, h]

/-- C20, as stated, fails for a product whose category is the empty string:
the category is there, and the card shows `General`, not the category. -/
theorem renderResults_empty_category_is_general :
    (⟨[.preview "data:image/png;base64,AAAA", .searching]⟩ :
        VisualSearchDemo).renderResults
        (some [⟨some "Bolso", some eightTenths, some "", none, none⟩]) =
      .normal ⟨[.preview "data:image/png;base64,AAAA",
        .results [⟨"https://via.placeholder.com/200?text=Sin+Imagen", "Bolso", "80.0", "Bolso",
          "General", none⟩]]⟩ := by
  decide

/-- C20, amended.  On a results grid that has an element child,
`renderResults` replaces the last child and leaves the children before it (the
image preview) as they were.  For a non-empty product list the new content is
one card per product, in the order of the list; the card of a product shows
its name, `(similarity * 100).toFixed(1)` in the badge, and its category when
that is a non-empty string, `General` when the category is missing or is the
empty string.  For a missing or empty list the new content is the no-results
message. -/
theorem renderResults_one_card_per_product (st : VisualSearchDemo)
    (products : Option (List Product)) (hgrid : st.resultsGrid ≠ []) :
    ∃ content : RegionContent,
      st.renderResults products = .normal ⟨st.resultsGrid.dropLast ++ [content]⟩ ∧
      (products = none ∨ products = some [] → content = .noResults) ∧
      (∀ ps : List Product, products = some ps → ps ≠ [] →
        ∃ cards : List ProductCard,
          content = .results cards ∧ cards.length = ps.length ∧
          ∀ (i : ℕ) (product : Product), ps[i]? = some product →
            ∃ card : ProductCard,
              cards[i]? = some card ∧
              card.similarityPercent = percentText product.similarity ∧
              (∀ name : String, product.name = some name → card.name = name) ∧
              (∀ category : String, product.category = some category → category ≠ "" →
                card.category = category) ∧
              (product.category = none ∨ product.category = some "" →
                card.category = "General")) := by
  cases products with
  | none =>
    refine ⟨.noResults, ?_, fun _ => rfl, ?_⟩
    · simp [VisualSearchDemo.renderResults, setLastContent_of_ne_nil _ _ hgrid]
    · intro ps h
      cases h
  | some ps =>
    cases ps with
    | nil =>
      refine ⟨.noResults, ?_, fun _ => rfl, ?_⟩
      · simp [VisualSearchDemo.renderResults, setLastContent_of_ne_nil _ _ hgrid]
      · intro ps h hne
        cases h
        exact absurd rfl hne
    | cons p ps =>
      refine ⟨.results ((p :: ps).map productCard), ?_, ?_, ?_⟩
      · simp [VisualSearchDemo.renderResults, setLastContent_of_ne_nil _ _ hgrid]
      · rintro (h | h) <;> cases h
      · intro qs h _
        cases h
        refine ⟨(p :: ps).map productCard, rfl, by simp, ?_⟩
        intro i product hi
        refine ⟨productCard product, ?_, (productCard_fields product).1,
          (productCard_fields product).2.2.1, (productCard_fields product).2.2.2.1,
          (productCard_fields product).2.2.2.2⟩
        rw [List.getElem?_map, hi]
        rfl

/-- C20, amended, on the grid that holds the preview and the searching
notice, for a reply of two products. -/
theorem renderResults_one_card_per_product_witness :
    ([RegionContent.preview "data:image/png;base64,AAAA", .searching] ≠ []) ∧
    ∃ content : RegionContent,
      (⟨[.preview "data:image/png;base64,AAAA", .searching]⟩ :
          VisualSearchDemo).renderResults
          (some [⟨some "Bolso", some eightTenths, some "Moda", none, none⟩,
            ⟨some "Mochila", some oneTenth, none, none, none⟩]) =
        .normal ⟨[RegionContent.preview "data:image/png;base64,AAAA", .searching].dropLast ++
          [content]⟩ ∧
      ∃ cards : List ProductCard, content = .results cards ∧ cards.length = 2 :=
  ⟨by decide,
    (renderResults_one_card_per_product ⟨[.preview "data:image/png;base64,AAAA", .searching]⟩
        (some [⟨some "Bolso", some eightTenths, some "Moda", none, none⟩,
          ⟨some "Mochila", some oneTenth, none, none, none⟩]) (by decide)).elim
      (fun content h =>
        ⟨content, h.1,
          (h.2.2 _ rfl (by decide)).elim (fun cards hc => ⟨cards, hc.1, hc.2.1⟩)⟩)⟩

/-! ### The transcript is append-only (C21) -/

theorem filter_eraseP_of_disjoint {α : Type} (p q : α → Bool)
    (h : ∀ x, q x = true → p x = false) :
    ∀ l : List α, (l.eraseP p).filter q = l.filter q
  | [] => rfl
  | a :: l => by
    by_cases ha : p a = true
    · have hq : q a = false := by
        cases hqa : q a
        · rfl
        · rw [h a hqa] at ha
          cases ha
      rw [List.eraseP_cons_of_pos ha, List.filter_cons_of_neg (by simp [hq])]
    · rw [List.eraseP_cons_of_neg ha, List.filter_cons, List.filter_cons,
        filter_eraseP_of_disjoint p q h l]

theorem mem_eraseP_of_not {α : Type} (p : α → Bool) (x : α) (hx : p x = false) :
    ∀ l : List α, x ∈ l → x ∈ l.eraseP p
  | [], h => h
  | a :: l, h => by
    by_cases ha : p a = true
    · rw [List.eraseP_cons_of_pos ha]
      rcases List.mem_cons.1 h with rfl | h
      · rw [hx] at ha
        cases ha
      · exact h
    · rw [List.eraseP_cons_of_neg ha]
      rcases List.mem_cons.1 h with rfl | h
      · exact List.mem_cons_self _ _
      · exact List.mem_cons_of_mem _ (mem_eraseP_of_not p x hx l h)

theorem eraseP_of_countP_le_one {α : Type} (p : α → Bool) :
    ∀ l : List α, l.countP p ≤ 1 → ∀ x ∈ l.eraseP p, p x = false
  | [], _, x, hx => by cases hx
  | a :: l, h, x, hx => by
    by_cases ha : p a = true
    · rw [List.eraseP_cons_of_pos ha] at hx
      rw [List.countP_cons_of_pos _ _ ha] at h
      have h0 : l.countP p = 0 := by omega
      have := (List.countP_eq_zero.1 h0) x hx
      simpa using this
    · rw [List.eraseP_cons_of_neg ha] at hx
      rw [List.countP_cons_of_neg _ _ ha] at h
      rcases List.mem_cons.1 hx with rfl | hx
      · simpa using ha
      · exact eraseP_of_countP_le_one p l h x hx

/-- The message area after the completion of a send: the placeholder is taken
out, once or (for a reply without text) twice, and one bot message is added. -/
theorem sendMessageFinish_messagesArea (st : FloatingChatbot) (loadingId : String)
    (outcome : FetchOutcome ChatResponse) :
    ∃ bot : ChatNode, bot.id = none ∧
      ((st.sendMessageFinish loadingId outcome).1.messagesArea =
          st.messagesArea.eraseP (fun el => el.id == some loadingId) ++ [bot] ∨
        (st.sendMessageFinish loadingId outcome).1.messagesArea =
          (st.messagesArea.eraseP (fun el => el.id == some loadingId)).eraseP
            (fun el => el.id == some loadingId) ++ [bot]) := by
  rcases outcome with _ | _ | _ | ⟨response, suggestions⟩
  · exact ⟨⟨none, "message bot-message", chatErrorText⟩, rfl, Or.inl rfl⟩
  · exact ⟨⟨none, "message bot-message", chatErrorText⟩, rfl, Or.inl rfl⟩
  · exact ⟨⟨none, "message bot-message", chatErrorText⟩, rfl, Or.inl rfl⟩
  · cases response with
    | none => exact ⟨⟨none, "message bot-message", chatErrorText⟩, rfl, Or.inr rfl⟩
    | some r =>
      refine ⟨⟨none, "message bot-message", replaceNewlines r⟩, rfl, Or.inl ?_⟩
      rcases suggestions with _ | ⟨_ | ⟨sug, rest⟩⟩
      · rfl
      · rfl
      · cases hs : st.suggestionsArea <;>
          simp [FloatingChatbot.sendMessageFinish, FloatingChatbot.sendMessageTry,
            FloatingChatbot.removeLoading, FloatingChatbot.addMessage,
            FloatingChatbot.renderSuggestions, hs]

/-- C21. No operation of the chat takes a message out of the transcript or
changes the order of the messages.  `toggleChat` leaves the message area as it
is; the start of a send appends the user message and the placeholder of the
send, or nothing; a completion, successful or not, keeps every child whose id
is not the one of its placeholder, in order, and appends one bot message.  So
the messages found are a prefix of the messages left.  When the id of the
placeholder occurs once, the completion takes out that placeholder and no
child with the id is left. -/
theorem transcript_append_only (st : FloatingChatbot) :
    (st.toggleChat.1.messagesArea = st.messagesArea ∧
      st.messages <+: st.toggleChat.1.messages) ∧
    (∀ (text : Option String) (now : Nat),
      ((st.sendMessageStart text now).state.messagesArea = st.messagesArea ∨
        ∃ m : String, m ≠ "" ∧
          (st.sendMessageStart text now).state.messagesArea =
            st.messagesArea ++ [⟨none, "message user-message", m⟩,
              ⟨some ("loading-" ++ Nat.repr now), "message bot-message", "..."⟩]) ∧
      st.messages <+: (st.sendMessageStart text now).state.messages) ∧
    (∀ (loadingId : String) (outcome : FetchOutcome ChatResponse),
      (∃ bot : ChatNode, bot.id = none ∧
        (st.sendMessageFinish loadingId outcome).1.messagesArea.filter
            (fun el => el.id != some loadingId) =
          st.messagesArea.filter (fun el => el.id != some loadingId) ++ [bot]) ∧
      st.messages <+: (st.sendMessageFinish loadingId outcome).1.messages ∧
      (st.messagesArea.countP (fun el => el.id == some loadingId) ≤ 1 →
        (∃ bot : ChatNode, bot.id = none ∧
          (st.sendMessageFinish loadingId outcome).1.messagesArea =
            st.messagesArea.eraseP (fun el => el.id == some loadingId) ++ [bot]) ∧
        ∀ el ∈ (st.sendMessageFinish loadingId outcome).1.messagesArea,
          el.id ≠ some loadingId)) := by
  refine ⟨?_, ?_, ?_⟩
  · have h : st.toggleChat.1.messagesArea = st.messagesArea := by
      unfold FloatingChatbot.toggleChat
      by_cases ho : st.isOpen = true <;> simp [ho]
    refine ⟨h, ?_⟩
    unfold FloatingChatbot.messages
    rw [h]
  · intro text now
    by_cases hm : strOr text (jsTrim st.userInput) = ""
    · have hs : st.sendMessageStart text now = .rejected st [] := by
        simp [FloatingChatbot.sendMessageStart, hm]
      rw [hs]
      exact ⟨Or.inl rfl, List.prefix_refl _⟩
    · rw [sendMessageStart_of_ne st text now hm]
      refine ⟨Or.inr ⟨_, hm, by simp [Started.state]⟩, ?_⟩
      simp [Started.state, FloatingChatbot.messages, List.filter_append]
  · intro loadingId outcome
    obtain ⟨bot, hbot, harea⟩ := sendMessageFinish_messagesArea st loadingId outcome
    have hdis : ∀ x : ChatNode, (x.id != some loadingId) = true →
        (x.id == some loadingId) = false := by
      intro x hx
      simpa using hx
    have hdis' : ∀ x : ChatNode, x.id.isNone = true → (x.id == some loadingId) = false := by
      intro x hx
      cases hid : x.id with
      | none => rfl
      | some i => rw [hid] at hx; cases hx
    refine ⟨⟨bot, hbot, ?_⟩, ?_, ?_⟩
    · rcases harea with h | h <;> rw [h, List.filter_append]
      · rw [filter_eraseP_of_disjoint _ _ hdis]
        simp [hbot]
      · rw [filter_eraseP_of_disjoint _ _ hdis, filter_eraseP_of_disjoint _ _ hdis]
        simp [hbot]
    · unfold FloatingChatbot.messages
      rcases harea with h | h <;> rw [h, List.filter_append]
      · rw [filter_eraseP_of_disjoint _ _ hdis']
        exact List.prefix_append _ _
      · rw [filter_eraseP_of_disjoint _ _ hdis', filter_eraseP_of_disjoint _ _ hdis']
        exact List.prefix_append _ _
    · intro hcount
      have hone : (st.sendMessageFinish loadingId outcome).1.messagesArea =
          st.messagesArea.eraseP (fun el => el.id == some loadingId) ++ [bot] := by
        rcases harea with h | h
        · exact h
        · rw [h, eraseP_eraseP_of_countP_le_one _ _ hcount]
      refine ⟨⟨bot, hbot, hone⟩, ?_⟩
      intro el hel
      rw [hone] at hel
      rcases List.mem_append.1 hel with h | h
      · have := eraseP_of_countP_le_one _ _ hcount el h
        simpa using this
      · simp only [List.mem_singleton] at h
        rw [h, hbot]
        simp

/-- C21 at a transcript with a send in flight, whose request fails. -/
theorem transcript_append_only_witness :
    chatWithPending.messagesArea.countP (fun el => el.id == some "loading-5") ≤ 1 ∧
    (chatWithPending.sendMessageFinish "loading-5" .networkError).1.messagesArea =
      [⟨none, "message bot-message", "Hola"⟩, ⟨none, "message user-message", "precio"⟩,
        ⟨none, "message bot-message", chatErrorText⟩] ∧
    ∀ el ∈ (chatWithPending.sendMessageFinish "loading-5" .networkError).1.messagesArea,
      el.id ≠ some "loading-5" :=
  ⟨by decide, by decide,
    (((transcript_append_only chatWithPending).2.2 "loading-5" .networkError).2.2
      (by decide)).2⟩

/-! ### The model badge (C22) -/

/-- C22, as stated, fails for a reply whose `modelo_usado` is the empty string:
the identifier is there, and the badge reads `Generado con: IA Generativa`,
not `Generado con: ` followed by the identifier. -/
theorem empty_modelo_usado_is_labelled_by_default :
    (freshGenerative.showLoading.generateDescriptionFinish "Generar"
        (.ok ⟨some true, some ⟨some "Una mochila ligera.", some ""⟩⟩)).1.modelBadge =
      ⟨"Generado con: IA Generativa", "#10b981"⟩ := by
  decide

/-- C22, amended.  After a generation that succeeds, the badge reads
`Generado con: ` followed by the model, which is `modelo_usado` when that is a
non-empty string and `IA Generativa` when it is missing or empty; its colour
is `#d97706` when the model holds the substring `templates` and `#10b981`
otherwise, so the default model is shown in `#10b981`. -/
theorem modelBadge_names_and_colours_model (st : GenerativeDemo) (originalBtnText : String)
    (d : GenerativeData) :
    (∀ id : String, d.modelo_usado = some id → id ≠ "" →
      (st.generateDescriptionFinish originalBtnText (.ok ⟨some true, some d⟩)).1.modelBadge =
        ⟨"Generado con: " ++ id,
          if jsIncludes id "templates" then "#d97706" else "#10b981"⟩) ∧
    (d.modelo_usado = none ∨ d.modelo_usado = some "" →
      (st.generateDescriptionFinish originalBtnText (.ok ⟨some true, some d⟩)).1.modelBadge =
        ⟨"Generado con: IA Generativa", "#10b981"⟩) ∧
    ((st.generateDescriptionFinish originalBtnText (.ok ⟨some true, some d⟩)).1.modelBadge.color =
        "#d97706" ↔
      jsIncludes (strOr d.modelo_usado "IA Generativa") "templates" = true) ∧
    ((st.generateDescriptionFinish originalBtnText (.ok ⟨some true, some d⟩)).1.modelBadge.color =
        "#10b981" ↔
      jsIncludes (strOr d.modelo_usado "IA Generativa") "templates" = false) := by
  have hbadge : (st.generateDescriptionFinish originalBtnText
      (.ok ⟨some true, some d⟩)).1.modelBadge =
      ⟨"Generado con: " ++ strOr d.modelo_usado "IA Generativa",
        if jsIncludes (strOr d.modelo_usado "IA Generativa") "templates" then "#d97706"
        else "#10b981"⟩ := by
    simp only [GenerativeDemo.generateDescriptionFinish, GenerativeDemo.generateDescriptionTry,
      GenerativeDemo.showGeneratedText, if_true]
    by_cases hm : jsIncludes (strOr d.modelo_usado "IA Generativa") "templates" = true <;>
      simp [hm]
  have hdefault : jsIncludes "IA Generativa" "templates" = false := by decide
  refine ⟨?_, ?_, ?_, ?_⟩
  · intro id hid hne
    rw [hbadge]
    simp [strOr, hid, hne]
  · rintro (h | h) <;> rw [hbadge] <;> simp [strOr, h, hdefault]
  · rw [hbadge]
    by_cases hm : jsIncludes (strOr d.modelo_usado "IA Generativa") "templates" = true <;>
      simp [hm]
  · rw [hbadge]
    by_cases hm : jsIncludes (strOr d.modelo_usado "IA Generativa") "templates" = true <;>
      simp [hm]

/-- C22, amended, at a reply of the template generator and at one of the
remote model. -/
theorem modelBadge_names_and_colours_model_witness :
    (freshGenerative.showLoading.generateDescriptionFinish "Generar"
        (.ok ⟨some true, some ⟨some "Una mochila ligera.", some "templates_fallback"⟩⟩)
      ).1.modelBadge =
      ⟨"Generado con: " ++ "templates_fallback",
        if jsIncludes "templates_fallback" "templates" then "#d97706" else "#10b981"⟩ ∧
    jsIncludes "templates_fallback" "templates" = true ∧
    (freshGenerative.showLoading.generateDescriptionFinish "Generar"
        (.ok ⟨some true, some ⟨some "Una mochila ligera.", none⟩⟩)).1.modelBadge =
      ⟨"Generado con: IA Generativa", "#10b981"⟩ :=
  ⟨(modelBadge_names_and_colours_model freshGenerative.showLoading "Generar"
      ⟨some "Una mochila ligera.", some "templates_fallback"⟩).1 "templates_fallback" rfl
      (by decide),
    by decide,
    (modelBadge_names_and_colours_model freshGenerative.showLoading "Generar"
      ⟨some "Una mochila ligera.", none⟩).2.1 (Or.inl rfl)⟩

/-! ### switchTab is idempotent and forgets the history (C23) -/

theorem classAdd_classAdd (c : String) (cl : List String) :
    classAdd c (classAdd c cl) = classAdd c cl := by
  unfold classAdd
  by_cases h : c ∈ cl <;> simp [h]

/-- The class tokens of the buttons after a click on the button `i`. -/
theorem switchTab_buttons_hasClass (d : DemoTabs) (i : Nat) (button : TabButton)
    (hbutton : d.tabButtons[i]? = some button) (c : String) (k : Nat) :
    ((d.switchTab i).tabButtons[k]?).map (fun b => hasClass c b.classList) =
      (d.tabButtons[k]?).map
        (fun b => if c = "active" then decide (k = i) else hasClass c b.classList) := by
  unfold DemoTabs.switchTab
  rw [hbutton]
  simp only [getElem?_modifyAt, List.getElem?_map]
  cases hk : d.tabButtons[k]? with
  | none => by_cases hki : k = i <;> simp [hki]
  | some b =>
    by_cases hki : k = i <;> by_cases hc : c = "active"
    · simp [hki, hc, hasClass_classAdd]
    · simp [hki, hc, hasClass_classAdd_of_ne _ _ _ hc, hasClass_classRemove_of_ne _ _ _ hc]
    · simp [hki, hc, hasClass_classRemove]
    · simp [hki, hc, hasClass_classRemove_of_ne _ _ _ hc]

/-- The class tokens of the panes after a click on the button `i`. -/
theorem switchTab_panes_hasClass (d : DemoTabs) (i : Nat) (button : TabButton)
    (hbutton : d.tabButtons[i]? = some button) (c : String) :
    (d.switchTab i).tabPanes.map (fun p => hasClass c p.classList) =
      d.tabPanes.map (fun p =>
        if c = "active" then decide (some p.id = button.dataTab) else hasClass c p.classList) := by
  unfold DemoTabs.switchTab
  rw [hbutton]
  simp only [List.map_map]
  apply List.map_congr_left
  intro p _
  by_cases hp : some p.id = button.dataTab <;> by_cases hc : c = "active"
  · simp [hp, hc, hasClass_classAdd]
  · simp [hp, hc, hasClass_classAdd_of_ne _ _ _ hc]
  · simp [hp, hc, hasClass_classRemove]
  · simp [hp, hc, hasClass_classRemove_of_ne _ _ _ hc]

theorem switchTab_classFlags_of_ne (d : DemoTabs) (i : Nat) (c : String) (hc : c ≠ "active") :
    (d.switchTab i).classFlags c = d.classFlags c := by
  cases hbutton : d.tabButtons[i]? with
  | none => simp [DemoTabs.switchTab, hbutton]
  | some button =>
    unfold DemoTabs.classFlags
    rw [switchTab_panes_hasClass d i button hbutton c]
    congr 1
    · apply List.ext_getElem?
      intro k
      rw [List.getElem?_map, List.getElem?_map, switchTab_buttons_hasClass d i button hbutton c k]
      simp [hc]
    · simp [hc]

theorem clicks_classFlags_of_ne (cs : List Nat) (c : String) (hc : c ≠ "active") :
    ∀ d : DemoTabs, (d.clicks cs).classFlags c = d.classFlags c := by
  induction cs with
  | nil => intro d; rfl
  | cons x cs ih =>
    intro d
    show ((d.switchTab x).clicks cs).classFlags c = _
    rw [ih, switchTab_classFlags_of_ne d x c hc]

theorem switchTab_of_button (d : DemoTabs) (i : Nat) (button : TabButton)
    (hbutton : d.tabButtons[i]? = some button) :
    d.switchTab i =
      { tabButtons := modifyAt
          (fun btn : TabButton => { btn with classList := classAdd "active" btn.classList }) i
          (d.tabButtons.map
            (fun btn => { btn with classList := classRemove "active" btn.classList })),
        tabPanes := d.tabPanes.map (fun pane =>
          if some pane.id = button.dataTab then
            { pane with classList := classAdd "active" pane.classList }
          else
            { pane with classList := classRemove "active" pane.classList }) } := by
  simp [DemoTabs.switchTab, hbutton]

theorem switchTab_switchTab (d : DemoTabs) (i : Nat) :
    (d.switchTab i).switchTab i = d.switchTab i := by
  cases hbutton : d.tabButtons[i]? with
  | none =>
    have h : d.switchTab i = d := by simp [DemoTabs.switchTab, hbutton]
    rw [h, h]
  | some button =>
    have hone := switchTab_of_button d i button hbutton
    have hbutton' : (d.switchTab i).tabButtons[i]? =
        some { button with
          classList := classAdd "active" (classRemove "active" button.classList) } := by
      rw [hone]
      simp [getElem?_modifyAt, List.getElem?_map, hbutton]
    have htwo := switchTab_of_button (d.switchTab i) i _ hbutton'
    simp only at htwo
    rw [htwo]
    have hcleared : (d.switchTab i).tabButtons.map
        (fun btn : TabButton =>
          ({ btn with classList := classRemove "active" btn.classList } : TabButton)) =
        d.tabButtons.map
          (fun btn => { btn with classList := classRemove "active" btn.classList }) := by
      rw [hone]
      apply List.ext_getElem?
      intro k
      simp only [List.getElem?_map, getElem?_modifyAt]
      cases hk : d.tabButtons[k]? with
      | none => by_cases hki : k = i <;> simp [hki]
      | some b =>
        by_cases hki : k = i <;>
          simp [hki, classRemove_classAdd, classRemove_classRemove]
    have hpanes : (d.switchTab i).tabPanes.map (fun pane : TabPane =>
          if some pane.id = button.dataTab then
            ({ pane with classList := classAdd "active" pane.classList } : TabPane)
          else
            { pane with classList := classRemove "active" pane.classList }) =
        (d.switchTab i).tabPanes := by
      rw [hone]
      simp only [List.map_map]
      apply List.map_congr_left
      intro p _
      by_cases hp : some p.id = button.dataTab <;>
        simp [hp, classAdd_classAdd, classRemove_classRemove]
    rw [hcleared, hpanes]
    rw [hone]

theorem clicks_switchTab_classFlags (d : DemoTabs) (cs : List Nat) (i : Nat)
    (button : TabButton) (hbutton : d.tabButtons[i]? = some button) (c : String) :
    ((d.clicks cs).switchTab i).classFlags c = (d.switchTab i).classFlags c := by
  obtain ⟨b', hb', hdt⟩ :=
    getElem?_dataTab_of_map_eq (clicks_buttons_dataTab cs d) i button hbutton
  unfold DemoTabs.classFlags
  rw [switchTab_panes_hasClass (d.clicks cs) i b' hb' c,
    switchTab_panes_hasClass d i button hbutton c, hdt]
  congr 1
  · apply List.ext_getElem?
    intro k
    rw [List.getElem?_map, List.getElem?_map,
      switchTab_buttons_hasClass (d.clicks cs) i b' hb' c k,
      switchTab_buttons_hasClass d i button hbutton c k]
    by_cases hc : c = "active"
    · have hmap : ((d.clicks cs).tabButtons[k]?).map (fun b => b.dataTab) =
          (d.tabButtons[k]?).map (fun b => b.dataTab) := by
        rw [← List.getElem?_map, ← List.getElem?_map, clicks_buttons_dataTab]
      cases h1 : (d.clicks cs).tabButtons[k]? <;> cases h2 : d.tabButtons[k]? <;>
        rw [h1, h2] at hmap <;> simp [hc] at hmap ⊢
    · have hflags := congrArg Prod.fst (clicks_classFlags_of_ne cs c hc d)
      simp only [DemoTabs.classFlags] at hflags
      have hk := congrArg (fun l : List Bool => l[k]?) hflags
      simpa [hc, List.getElem?_map] using hk
  · by_cases hc : c = "active"
    · have hids := clicks_panes_id cs d
      have := congrArg (List.map (fun x : String => decide (some x = button.dataTab))) hids
      simpa [hc, List.map_map, Function.comp_def] using this
    · have hflags := congrArg Prod.snd (clicks_classFlags_of_ne cs c hc d)
      simp only [DemoTabs.classFlags] at hflags
      simpa [hc] using hflags

/-- C23. For every prior state and every tab button `b`, at position `i`:
after `switchTab(b)` a button is active iff it is `b`, and a pane is active
iff its id is the `data-tab` of `b`; `switchTab(b)` applied twice gives the
state it gives applied once; and after any sequence of clicks that ends with
`b` the active flags are those after the click on `b` alone, as is, for every
class token, the set of buttons and panes that carry it. -/
theorem switchTab_idempotent_history_independent (d : DemoTabs) (cs : List Nat) (i : Nat)
    (button : TabButton) (hbutton : d.tabButtons[i]? = some button) :
    (∀ (k : Nat) (btn : TabButton), (d.switchTab i).tabButtons[k]? = some btn →
      (btn.isActive = true ↔ k = i)) ∧
    (∀ p ∈ (d.switchTab i).tabPanes, (p.isActive = true ↔ some p.id = button.dataTab)) ∧
    (d.switchTab i).switchTab i = d.switchTab i ∧
    (d.clicks (cs ++ [i])).activeFlags = (d.switchTab i).activeFlags ∧
    (∀ c : String, (d.clicks (cs ++ [i])).classFlags c = (d.switchTab i).classFlags c) ∧
    (d.clicks (cs ++ [i])).tabButtons.map (fun b => b.dataTab) =
      (d.switchTab i).tabButtons.map (fun b => b.dataTab) ∧
    (d.clicks (cs ++ [i])).tabPanes.map (fun p => p.id) =
      (d.switchTab i).tabPanes.map (fun p => p.id) := by
  have hstep : d.clicks (cs ++ [i]) = (d.clicks cs).switchTab i := by
    simp [DemoTabs.clicks, List.foldl_append]
  refine ⟨?_, ?_, switchTab_switchTab d i, ?_, ?_, ?_, ?_⟩
  · intro k btn hk
    have h := switchTab_buttons_hasClass d i button hbutton "active" k
    rw [hk] at h
    cases hd : d.tabButtons[k]? with
    | none => rw [hd] at h; simp at h
    | some b0 =>
      rw [hd] at h
      simp only [Option.map_some', if_true, Option.some.injEq] at h
      show hasClass "active" btn.classList = true ↔ k = i
      rw [h]
      simp
  · intro p hp
    have hact := switchTab_pane_active d i button hbutton
    have hmem : (p.id, p.isActive) ∈
        (d.switchTab i).tabPanes.map (fun p => (p.id, p.isActive)) :=
      List.mem_map_of_mem _ hp
    rw [hact] at hmem
    obtain ⟨q, _, hq⟩ := List.mem_map.1 hmem
    simp only [Prod.mk.injEq] at hq
    rw [← hq.2, ← hq.1]
    simp
  · rw [hstep]
    exact clicks_switchTab_classFlags d cs i button hbutton "active"
  · intro c
    rw [hstep]
    exact clicks_switchTab_classFlags d cs i button hbutton c
  · rw [clicks_buttons_dataTab, switchTab_buttons_dataTab]
  · rw [clicks_panes_id, switchTab_panes_id]

/-- C23 at the page of two tabs: four clicks that end on the second button. -/
theorem switchTab_idempotent_history_independent_witness :
    demoPage.tabButtons[1]? = some ⟨some "sentiment", ["tab-button"]⟩ ∧
    (demoPage.switchTab 1).switchTab 1 = demoPage.switchTab 1 ∧
    (demoPage.clicks ([0, 1, 0] ++ [1])).activeFlags = (demoPage.switchTab 1).activeFlags ∧
    (demoPage.switchTab 1).activeFlags = ([false, true], [false, true]) :=
  ⟨rfl,
    (switchTab_idempotent_history_independent demoPage [0, 1, 0] 1
      ⟨some "sentiment", ["tab-button"]⟩ rfl).2.2.1,
    (switchTab_idempotent_history_independent demoPage [0, 1, 0] 1
      ⟨some "sentiment", ["tab-button"]⟩ rfl).2.2.2.1,
    by decide⟩

/-! ### Two sends in flight (C24) -/

/-- The completion of a send whose reply has a text, on a page with a
suggestion area: the placeholder goes, the reply is appended, and the chips of
the reply are added to the chips that are there. -/
theorem sendMessageFinish_ok (st : FloatingChatbot) (loadingId r : String)
    (suggestions : Option (List String)) (chips : List Chip)
    (harea : st.suggestionsArea = some chips) :
    (st.sendMessageFinish loadingId (.ok ⟨some r, suggestions⟩)).1 =
      { st with
        messagesArea := st.messagesArea.eraseP (fun el => el.id == some loadingId) ++
          [⟨none, "message bot-message", replaceNewlines r⟩]
        suggestionsArea := some (chips ++ chipsOf suggestions) } := by
  rcases suggestions with _ | ⟨_ | ⟨sug, rest⟩⟩
  · simp [FloatingChatbot.sendMessageFinish, FloatingChatbot.sendMessageTry,
      FloatingChatbot.removeLoading, FloatingChatbot.addMessage, chipsOf, harea]
  · simp [FloatingChatbot.sendMessageFinish, FloatingChatbot.sendMessageTry,
      FloatingChatbot.removeLoading, FloatingChatbot.addMessage, chipsOf, harea]
  · simp [FloatingChatbot.sendMessageFinish, FloatingChatbot.sendMessageTry,
      FloatingChatbot.removeLoading, FloatingChatbot.addMessage,
      FloatingChatbot.renderSuggestions, chipsOf, harea]

/-- Taking the placeholders of two sends out of the message area, in either
order. -/
theorem eraseP_two_placeholders (area : List ChatNode) (u1 u2 b : ChatNode) (id1 id2 : String)
    (harea : ∀ el ∈ area, el.id = none) (h1 : u1.id = none) (h2 : u2.id = none) :
    ((area ++ [u1, ⟨some id1, "message bot-message", "..."⟩, u2,
          ⟨some id2, "message bot-message", "..."⟩]).eraseP (fun el => el.id == some id1) ++
        [b]).eraseP (fun el => el.id == some id2) =
      area ++ [u1, u2, b] ∧
    ((area ++ [u1, ⟨some id1, "message bot-message", "..."⟩, u2,
          ⟨some id2, "message bot-message", "..."⟩]).eraseP (fun el => el.id == some id2) ++
        [b]).eraseP (fun el => el.id == some id1) =
      area ++ [u1, u2, b] := by
  have hpre : ∀ (id : String) (l : List ChatNode),
      (area ++ l).eraseP (fun el => el.id == some id) =
        area ++ l.eraseP (fun el => el.id == some id) := by
    intro id l
    apply List.eraseP_append_right
    intro el hel
    simp [harea el hel]
  constructor
  · rw [hpre, List.append_assoc, hpre]
    congr 1
    by_cases hid : id1 = id2 <;> simp [List.eraseP_cons, h1, h2, hid]
  · rw [hpre, List.append_assoc, hpre]
    congr 1
    by_cases hid : id2 = id1
    · simp [List.eraseP_cons, h1, h2, hid]
    · have hid' : ¬ id1 = id2 := fun h => hid h.symm
      simp [List.eraseP_cons, h1, h2, hid, hid']

/-- The widget once two sends have run to their `await`. -/
theorem twoSends_eq (st : FloatingChatbot) (text1 : Option String) (now1 : Nat)
    (typed : String) (text2 : Option String) (now2 : Nat)
    (outcome1 outcome2 : FetchOutcome ChatResponse) (secondFirst : Bool)
    (h1 : strOr text1 (jsTrim st.userInput) ≠ "") (h2 : strOr text2 (jsTrim typed) ≠ "") :
    st.twoSends text1 now1 typed text2 now2 outcome1 outcome2 secondFirst =
      if secondFirst then
        ((({ st with
            messagesArea := st.messagesArea ++
              [⟨none, "message user-message", strOr text1 (jsTrim st.userInput)⟩,
                ⟨some ("loading-" ++ Nat.repr now1), "message bot-message", "..."⟩,
                ⟨none, "message user-message", strOr text2 (jsTrim typed)⟩,
                ⟨some ("loading-" ++ Nat.repr now2), "message bot-message", "..."⟩]
            userInput := ""
            suggestionsArea := st.suggestionsArea.map (fun _ => []) } :
              FloatingChatbot).sendMessageFinish
            ("loading-" ++ Nat.repr now2) outcome2).1.sendMessageFinish
          ("loading-" ++ Nat.repr now1) outcome1).1
      else
        ((({ st with
            messagesArea := st.messagesArea ++
              [⟨none, "message user-message", strOr text1 (jsTrim st.userInput)⟩,
                ⟨some ("loading-" ++ Nat.repr now1), "message bot-message", "..."⟩,
                ⟨none, "message user-message", strOr text2 (jsTrim typed)⟩,
                ⟨some ("loading-" ++ Nat.repr now2), "message bot-message", "..."⟩]
            userInput := ""
            suggestionsArea := st.suggestionsArea.map (fun _ => []) } :
              FloatingChatbot).sendMessageFinish
            ("loading-" ++ Nat.repr now1) outcome1).1.sendMessageFinish
          ("loading-" ++ Nat.repr now2) outcome2).1 := by
  unfold FloatingChatbot.twoSends
  rw [sendMessageStart_of_ne st text1 now1 h1]
  simp only
  rw [sendMessageStart_of_ne _ text2 now2 h2]
  simp [Option.map_map, Function.comp_def]

/-- C24, as stated, fails when both replies carry suggestions.  Two sends are
in flight; the reply to the first, with the chip `Ofertas`, settles first and
the reply to the second, with the chip `Envíos`, settles last: the suggestion
area holds both chips, not the chips of the last reply alone. -/
theorem twoSends_chips_of_both_replies :
    (chatWithHola.twoSends none 0 "precio" none 7 (.ok ⟨some "Hola", some ["Ofertas"]⟩)
        (.ok ⟨some "Desde 10", some ["Envíos"]⟩) false).suggestionsArea =
      some [⟨"Ofertas", "Ofertas"⟩, ⟨"Envíos", "Envíos"⟩] ∧
    chipsOf (some ["Envíos"]) = [⟨"Envíos", "Envíos"⟩] := by
  decide

/-- C24, amended.  On an idle widget with a suggestion area, when a second
message is sent before the reply to the first has come and both requests
succeed with a text, the suggestion area ends with the chips of the reply that
settled first followed by the chips of the reply that settled last, and the
transcript ends with the two user messages followed by the two bot replies in
the order in which they settled. -/
theorem twoSends_chips_accumulate (st : FloatingChatbot) (text1 : Option String) (now1 : Nat)
    (typed : String) (text2 : Option String) (now2 : Nat) (r1 r2 : String)
    (s1 s2 : Option (List String)) (chips : List Chip) (hidle : st.idle)
    (harea : st.suggestionsArea = some chips)
    (h1 : strOr text1 (jsTrim st.userInput) ≠ "") (h2 : strOr text2 (jsTrim typed) ≠ "") :
    ((st.twoSends text1 now1 typed text2 now2 (.ok ⟨some r1, s1⟩) (.ok ⟨some r2, s2⟩)
          false).suggestionsArea = some (chipsOf s1 ++ chipsOf s2) ∧
      (st.twoSends text1 now1 typed text2 now2 (.ok ⟨some r1, s1⟩) (.ok ⟨some r2, s2⟩)
          false).messagesArea =
        st.messagesArea ++
          [⟨none, "message user-message", strOr text1 (jsTrim st.userInput)⟩,
            ⟨none, "message user-message", strOr text2 (jsTrim typed)⟩,
            ⟨none, "message bot-message", replaceNewlines r1⟩,
            ⟨none, "message bot-message", replaceNewlines r2⟩]) ∧
    ((st.twoSends text1 now1 typed text2 now2 (.ok ⟨some r1, s1⟩) (.ok ⟨some r2, s2⟩)
          true).suggestionsArea = some (chipsOf s2 ++ chipsOf s1) ∧
      (st.twoSends text1 now1 typed text2 now2 (.ok ⟨some r1, s1⟩) (.ok ⟨some r2, s2⟩)
          true).messagesArea =
        st.messagesArea ++
          [⟨none, "message user-message", strOr text1 (jsTrim st.userInput)⟩,
            ⟨none, "message user-message", strOr text2 (jsTrim typed)⟩,
            ⟨none, "message bot-message", replaceNewlines r2⟩,
            ⟨none, "message bot-message", replaceNewlines r1⟩]) := by
  have hera := fun (b : ChatNode) =>
    eraseP_two_placeholders st.messagesArea
      ⟨none, "message user-message", strOr text1 (jsTrim st.userInput)⟩
      ⟨none, "message user-message", strOr text2 (jsTrim typed)⟩ b
      ("loading-" ++ Nat.repr now1) ("loading-" ++ Nat.repr now2) hidle rfl rfl
  constructor
  · rw [twoSends_eq st text1 now1 typed text2 now2 _ _ false h1 h2]
    simp only [Bool.false_eq_true, if_false]
    rw [sendMessageFinish_ok _ _ r1 s1 [] (by simp [harea]),
      sendMessageFinish_ok _ _ r2 s2 ([] ++ chipsOf s1) rfl]
    simp only [List.nil_append]
    refine ⟨trivial, ?_⟩
    rw [(hera ⟨none, "message bot-message", replaceNewlines r1⟩).1]
    simp
  · rw [twoSends_eq st text1 now1 typed text2 now2 _ _ true h1 h2]
    simp only [if_true]
    rw [sendMessageFinish_ok _ _ r2 s2 [] (by simp [harea]),
      sendMessageFinish_ok _ _ r1 s1 ([] ++ chipsOf s2) rfl]
    simp only [List.nil_append]
    refine ⟨trivial, ?_⟩
    rw [(hera ⟨none, "message bot-message", replaceNewlines r2⟩).2]
    simp

/-- C24, amended, at the widget with `hola` typed: the second reply settles
first. -/
theorem twoSends_chips_accumulate_witness :
    chatWithHola.idle ∧
    chatWithHola.suggestionsArea = some [⟨"Antes", "Antes"⟩] ∧
    strOr none (jsTrim chatWithHola.userInput) ≠ "" ∧
    strOr none (jsTrim "precio") ≠ "" ∧
    (chatWithHola.twoSends none 0 "precio" none 7 (.ok ⟨some "Hola", some ["Ofertas"]⟩)
        (.ok ⟨some "Desde 10", some ["Envíos"]⟩) true).suggestionsArea =
      some (chipsOf (some ["Envíos"]) ++ chipsOf (some ["Ofertas"])) :=
  ⟨(by intro el hel; cases hel), rfl, by decide, by decide,
    (twoSends_chips_accumulate chatWithHola none 0 "precio" none 7 "Hola" "Desde 10"
      (some ["Ofertas"]) (some ["Envíos"]) [⟨"Antes", "Antes"⟩]
      (by intro el hel; cases hel) rfl (by decide) (by decide)).2.1⟩

/-! ### Keyword scoring (C25, C26) -/

theorem hasInfix_iff (sub : List Char) : ∀ l : List Char, hasInfix sub l = true ↔ sub <:+: l
  | [] => by
    cases sub <;> simp [hasInfix]
  | c :: cs => by
    rw [hasInfix, Bool.or_eq_true, hasInfix_iff sub cs, List.infix_cons_iff,
      List.isPrefixOf_iff_prefix]

theorem jsIncludes_trans (s mid sub : String) (h1 : jsIncludes s mid = true)
    (h2 : jsIncludes mid sub = true) : jsIncludes s sub = true := by
  unfold jsIncludes at *
  rw [hasInfix_iff] at *
  exact List.IsInfix.trans h2 h1

theorem foldl_add_hits (f : String → Bool) : ∀ (words : List String) (init : Int),
    words.foldl (fun score word => if f word then score + 1 else score) init =
      init + ((words.filter f).length : Int)
  | [], init => by simp
  | w :: words, init => by
    by_cases hw : f w = true
    · simp [List.foldl, hw, foldl_add_hits f words, List.filter_cons]
      omega
    · simp [List.foldl, hw, foldl_add_hits f words, List.filter_cons]

theorem foldl_sub_hits (f : String → Bool) : ∀ (words : List String) (init : Int),
    words.foldl (fun score word => if f word then score - 1 else score) init =
      init - ((words.filter f).length : Int)
  | [], init => by simp
  | w :: words, init => by
    by_cases hw : f w = true
    · simp [List.foldl, hw, foldl_sub_hits f words, List.filter_cons]
      omega
    · simp [List.foldl, hw, foldl_sub_hits f words, List.filter_cons]

/-- The score is the number of positive keywords that occur minus the number
of negative keywords that occur. -/
theorem keywordScore_eq (lowerText : String) :
    keywordScore lowerText =
      ((positiveWords.filter (fun w => jsIncludes lowerText w)).length : Int) -
        ((negativeWords.filter (fun w => jsIncludes lowerText w)).length : Int) := by
  unfold keywordScore
  rw [foldl_sub_hits (fun w => jsIncludes lowerText w),
    foldl_add_hits (fun w => jsIncludes lowerText w), zero_add]

/-- C25. `predictSentiment` lower-cases the text and scores keywords: writing
`p` and `n` for the numbers of listed positive and of listed negative keywords
that occur in the lower-cased text, each keyword counted once, the result is
`positive` when `p > n`, `negative` when `p < n` and `neutral` when `p = n`,
so `neutral` for a text without keyword; it is a key of
`CONFIG.demoResponses.sentiments`.  The scoring is stated for every
lower-cased text. -/
theorem predictSentiment_keyword_scoring :
    (∀ text : String, predictSentiment text = sentimentOfScore (keywordScore (toLowerCase text))) ∧
    (∀ lowerText : String,
      ((negativeWords.filter (fun w => jsIncludes lowerText w)).length <
          (positiveWords.filter (fun w => jsIncludes lowerText w)).length →
        sentimentOfScore (keywordScore lowerText) = "positive") ∧
      ((positiveWords.filter (fun w => jsIncludes lowerText w)).length <
          (negativeWords.filter (fun w => jsIncludes lowerText w)).length →
        sentimentOfScore (keywordScore lowerText) = "negative") ∧
      ((positiveWords.filter (fun w => jsIncludes lowerText w)).length =
          (negativeWords.filter (fun w => jsIncludes lowerText w)).length →
        sentimentOfScore (keywordScore lowerText) = "neutral") ∧
      ((∀ w ∈ positiveWords ++ negativeWords, jsIncludes lowerText w = false) →
        sentimentOfScore (keywordScore lowerText) = "neutral") ∧
      sentimentOfScore (keywordScore lowerText) ∈ demoResponsesSentiments.map Prod.fst) ∧
    (positiveWords.Nodup ∧ negativeWords.Nodup) := by
  refine ⟨fun _ => rfl, ?_, by decide, by decide⟩
  intro lowerText
  have hs := keywordScore_eq lowerText
  refine ⟨?_, ?_, ?_, ?_, ?_⟩
  · intro h
    have : keywordScore lowerText > 0 := by omega
    simp [sentimentOfScore, this]
  · intro h
    have h1 : ¬ keywordScore lowerText > 0 := by omega
    have h2 : keywordScore lowerText < 0 := by omega
    simp [sentimentOfScore, h1, h2]
  · intro h
    have h1 : ¬ keywordScore lowerText > 0 := by omega
    have h2 : ¬ keywordScore lowerText < 0 := by omega
    simp [sentimentOfScore, h1, h2]
  · intro h
    have hp : positiveWords.filter (fun w => jsIncludes lowerText w) = [] := by
      rw [List.filter_eq_nil_iff]
      intro w hw
      simp [h w (List.mem_append_left _ hw)]
    have hn : negativeWords.filter (fun w => jsIncludes lowerText w) = [] := by
      rw [List.filter_eq_nil_iff]
      intro w hw
      simp [h w (List.mem_append_right _ hw)]
    rw [hp, hn] at hs
    simp [sentimentOfScore, hs]
  · unfold sentimentOfScore
    split_ifs <;> decide

/-- C25 at three reviews: two positive keywords and no negative one, one
keyword of each kind, and a text in capitals with a negative keyword. -/
theorem predictSentiment_keyword_scoring_witness :
    ((negativeWords.filter (fun w => jsIncludes "excelente, lo recomiendo" w)).length <
        (positiveWords.filter (fun w => jsIncludes "excelente, lo recomiendo" w)).length ∧
      sentimentOfScore (keywordScore "excelente, lo recomiendo") = "positive") ∧
    predictSentiment "Bueno pero malo" = "neutral" ∧
    predictSentiment "PÉSIMO" = "negative" :=
  ⟨⟨by decide,
      (predictSentiment_keyword_scoring.2.1 "excelente, lo recomiendo").1 (by decide)⟩,
    by decide, by decide⟩

theorem length_filter_erase (f : String → Bool) (a : String) :
    ∀ l : List String, a ∈ l → f a = true →
      (l.filter f).length = ((l.erase a).filter f).length + 1
  | [], h, _ => by cases h
  | b :: l, h, hf => by
    by_cases hb : b = a
    · subst hb
      simp [hf]
    · have ha : a ∈ l := by
        rcases List.mem_cons.1 h with h | h
        · exact absurd h.symm hb
        · exact h
      have ih := length_filter_erase f a l ha hf
      rw [List.erase_cons_tail (by simpa using hb)]
      by_cases hfb : f b = true
      · simp [List.filter_cons, hfb, ih]
      · simp [List.filter_cons, hfb, ih]

/-- C26. A lower-cased text that holds `no recomiendo` holds `recomiendo`, so
the two keywords cancel: the score is the number of the other positive
keywords that occur minus the number of the other negative keywords that
occur, and a text in which no other keyword occurs is `neutral`. -/
theorem no_recomiendo_is_cancelled (lowerText : String)
    (h : jsIncludes lowerText "no recomiendo" = true) :
    jsIncludes lowerText "recomiendo" = true ∧
    keywordScore lowerText =
      (((positiveWords.erase "recomiendo").filter (fun w => jsIncludes lowerText w)).length :
          Int) -
        (((negativeWords.erase "no recomiendo").filter
          (fun w => jsIncludes lowerText w)).length : Int) ∧
    ((∀ w ∈ positiveWords.erase "recomiendo", jsIncludes lowerText w = false) →
      (∀ w ∈ negativeWords.erase "no recomiendo", jsIncludes lowerText w = false) →
      sentimentOfScore (keywordScore lowerText) = "neutral") ∧
    (∀ text : String, toLowerCase text = lowerText →
      (∀ w ∈ positiveWords.erase "recomiendo", jsIncludes lowerText w = false) →
      (∀ w ∈ negativeWords.erase "no recomiendo", jsIncludes lowerText w = false) →
      predictSentiment text = "neutral" ∧ predictSentiment text ≠ "negative") := by
  have hrec : jsIncludes lowerText "recomiendo" = true :=
    jsIncludes_trans lowerText "no recomiendo" "recomiendo" h (by decide)
  have hscore : keywordScore lowerText =
      (((positiveWords.erase "recomiendo").filter (fun w => jsIncludes lowerText w)).length :
          Int) -
        (((negativeWords.erase "no recomiendo").filter
          (fun w => jsIncludes lowerText w)).length : Int) := by
    rw [keywordScore_eq,
      length_filter_erase (fun w => jsIncludes lowerText w) "recomiendo" positiveWords
        (by decide) hrec,
      length_filter_erase (fun w => jsIncludes lowerText w) "no recomiendo" negativeWords
        (by decide) h]
    push_cast
    omega
  have hneutral : (∀ w ∈ positiveWords.erase "recomiendo", jsIncludes lowerText w = false) →
      (∀ w ∈ negativeWords.erase "no recomiendo", jsIncludes lowerText w = false) →
      sentimentOfScore (keywordScore lowerText) = "neutral" := by
    intro h1 h2
    have hp : (positiveWords.erase "recomiendo").filter (fun w => jsIncludes lowerText w) =
        [] := by
      rw [List.filter_eq_nil_iff]
      intro w hw
      simp [h1 w hw]
    have hn : (negativeWords.erase "no recomiendo").filter (fun w => jsIncludes lowerText w) =
        [] := by
      rw [List.filter_eq_nil_iff]
      intro w hw
      simp [h2 w hw]
    rw [hscore, hp, hn]
    decide
  refine ⟨hrec, hscore, hneutral, ?_⟩
  intro text htext h1 h2
  have : predictSentiment text = "neutral" := by
    show sentimentOfScore (keywordScore (toLowerCase text)) = "neutral"
    rw [htext]
    exact hneutral h1 h2
  rw [this]
  exact ⟨rfl, by decide⟩

/-- C26 at the review `No recomiendo este producto`. -/
theorem no_recomiendo_is_cancelled_witness :
    jsIncludes (toLowerCase "No recomiendo este producto") "no recomiendo" = true ∧
    jsIncludes (toLowerCase "No recomiendo este producto") "recomiendo" = true ∧
    predictSentiment "No recomiendo este producto" = "neutral" :=
  ⟨by decide,
    (no_recomiendo_is_cancelled (toLowerCase "No recomiendo este producto") (by decide)).1,
    ((no_recomiendo_is_cancelled (toLowerCase "No recomiendo este producto")
      (by decide)).2.2.2 "No recomiendo este producto" rfl (by decide) (by decide)).1⟩

/-! ### A statistic that is not a number (C27) -/

/-- A text that, after its leading whitespace, starts neither with a digit nor
with a sign is read as `NaN`. -/
theorem parseInt_of_not_digit (s : String)
    (h : ∀ c, (s.data.dropWhile isJsWhitespace).head? = some c →
      isDecimalDigit c = false ∧ c ≠ '-' ∧ c ≠ '+') :
    parseInt s = none := by
  unfold parseInt
  cases hcs : s.data.dropWhile isJsWhitespace with
  | nil => rfl
  | cons c cs =>
    rw [hcs] at h
    obtain ⟨hdigit, hminus, hplus⟩ := h c rfl
    have hzero : c ≠ '0' := by
      rintro rfl
      exact absurd hdigit (by decide)
    have hsigned : (match c :: cs with
        | '-' :: rest => (true, rest)
        | '+' :: rest => (false, rest)
        | _ => (false, c :: cs) : Bool × List Char) = (false, c :: cs) := by
      split
      · rename_i heq
        injection heq with h1 _
        exact absurd h1 hminus
      · rename_i heq
        injection heq with h1 _
        exact absurd h1 hplus
      · rfl
    have hbased : (match c :: cs with
        | '0' :: 'x' :: rest => (16, rest)
        | '0' :: 'X' :: rest => (16, rest)
        | _ => (10, c :: cs) : Nat × List Char) = (10, c :: cs) := by
      split
      · rename_i heq
        injection heq with h1 _
        exact absurd h1 hzero
      · rename_i heq
        injection heq with h1 _
        exact absurd h1 hzero
      · rfl
    simp only [hsigned, hbased, takeDigits_ten]
    simp [List.takeWhile, hdigit]

theorem statTimer_tick_nan (target text : String) (current : JSNum) :
    StatTimer.tick ⟨target, .nan, current, .nan, true⟩ text =
      (⟨target, .nan, .nan, .nan, true⟩,
        "NaN" ++ (if jsIncludes target "%" then "%" else "")) := by
  have hadd : current.add .nan = .nan := by cases current <;> rfl
  simp only [StatTimer.tick, StatTimer.callback, if_true, hadd]
  rfl

theorem statTimer_ticks_nan (target : String) (h : parseInt target = none) :
    ∀ k : ℕ, (statTimerStart target).ticks target (k + 1) =
      (⟨target, .nan, .nan, .nan, true⟩,
        "NaN" ++ (if jsIncludes target "%" then "%" else ""))
  | 0 => by
    have hstart : statTimerStart target = ⟨target, .nan, JSNum.ofNat 0, .nan, true⟩ := by
      simp only [statTimerStart, h]
      rfl
    show (statTimerStart target).tick target = _
    rw [hstart]
    exact statTimer_tick_nan target target _
  | k + 1 => by
    have hstep : (statTimerStart target).ticks target (k + 1 + 1) =
        ((statTimerStart target).ticks target (k + 1)).1.tick
          ((statTimerStart target).ticks target (k + 1)).2 := rfl
    rw [hstep, statTimer_ticks_nan target h k]
    exact statTimer_tick_nan target _ .nan

/-- C27. For a statistic whose text `parseInt` reads as `NaN`, every period of
the interval takes the branch that goes on: at every period `k ≥ 1` the
element shows `NaN`, followed by `%` when the original text holds one, and
after any number of periods the timer is still set; the original text is never
written back. -/
theorem statTimer_nan_never_stops (target : String) (h : parseInt target = none) :
    (∀ k : ℕ, 1 ≤ k →
      ((statTimerStart target).ticks target k).2 =
        "NaN" ++ (if jsIncludes target "%" then "%" else "")) ∧
    (∀ k : ℕ, ((statTimerStart target).ticks target k).1.timer = true) ∧
    (∀ k : ℕ, ((statTimerStart target).ticks target k).1.tick
        ((statTimerStart target).ticks target k).2 =
      ((statTimerStart target).ticks target k).1.callback) ∧
    (target ≠ "NaN" ++ (if jsIncludes target "%" then "%" else "") →
      ∀ k : ℕ, 1 ≤ k → ((statTimerStart target).ticks target k).2 ≠ target) := by
  have htext : ∀ k : ℕ, 1 ≤ k →
      ((statTimerStart target).ticks target k).2 =
        "NaN" ++ (if jsIncludes target "%" then "%" else "") := by
    intro k hk
    obtain ⟨j, rfl⟩ : ∃ j, k = j + 1 := ⟨k - 1, by omega⟩
    rw [statTimer_ticks_nan target h j]
  have htimer : ∀ k : ℕ, ((statTimerStart target).ticks target k).1.timer = true := by
    intro k
    cases k with
    | zero => rfl
    | succ j => rw [statTimer_ticks_nan target h j]
  refine ⟨htext, htimer, ?_, ?_⟩
  · intro k
    simp [StatTimer.tick, htimer k]
  · intro hne k hk
    rw [htext k hk]
    exact fun heq => hne heq.symm

/-- C27 at the statistics `Gratis` and `N/A %`. -/
theorem statTimer_nan_never_stops_witness :
    parseInt "Gratis" = none ∧
    ((statTimerStart "Gratis").ticks "Gratis" 60).2 =
      "NaN" ++ (if jsIncludes "Gratis" "%" then "%" else "") ∧
    ((statTimerStart "Gratis").ticks "Gratis" 60).1.timer = true ∧
    (parseInt "N/A %" = none ∧ jsIncludes "N/A %" "%" = true) ∧
    ((statTimerStart "N/A %").ticks "N/A %" 3).2 =
      "NaN" ++ (if jsIncludes "N/A %" "%" then "%" else "") :=
  ⟨by decide,
    (statTimer_nan_never_stops "Gratis" (by decide)).1 60 (by decide),
    (statTimer_nan_never_stops "Gratis" (by decide)).2.1 60,
    ⟨by decide, by decide⟩,
    (statTimer_nan_never_stops "N/A %" (by decide)).1 3 (by decide)⟩

/-! ### The price of a product card (C28) -/

/-- C28. The card of a product has a price element exactly when the product
has a price that is truthy, and it then reads `$` followed by the price.  A
price that is `0`, `-0`, `NaN` or the empty string gives the card of the same
product without the `price` field; `renderResults` shows these cards. -/
theorem price_rendered_iff_truthy (product : Product) :
    ((productCard product).price.isSome = true ↔
      ∃ price : PriceValue, product.price = some price ∧ price.truthy = true) ∧
    (∀ price : PriceValue, product.price = some price → price.truthy = true →
      (productCard product).price = some ("$" ++ price.text)) ∧
    (∀ price : PriceValue, price.truthy = false →
      productCard { product with price := some price } =
        productCard { product with price := none }) ∧
    (PriceValue.num (JSNum.ofNat 0)).truthy = false ∧
    (PriceValue.num (.fin true 0 0)).truthy = false ∧
    (PriceValue.num .nan).truthy = false ∧
    (PriceValue.str "").truthy = false ∧
    (∀ (st : VisualSearchDemo) (products : List Product), st.resultsGrid ≠ [] →
      products ≠ [] →
      st.renderResults (some products) =
        .normal ⟨st.resultsGrid.dropLast ++ [.results (products.map productCard)]⟩) := by
  refine ⟨?_, ?_, ?_, by decide, by decide, by decide, by decide, ?_⟩
  · cases hp : product.price with
    | none => simp [productCard, hp]
    | some price =>
      by_cases ht : price.truthy = true <;> simp [productCard, hp, ht]
  · intro price hp ht
    simp [productCard, hp, ht]
  · intro price ht
    simp [productCard, ht]
  · intro st products hgrid hne
    cases products with
    | nil => exact absurd rfl hne
    | cons p ps =>
      simp [VisualSearchDemo.renderResults, setLastContent_of_ne_nil _ _ hgrid]

/-- C28 at a product whose price is the number `0`, one whose price is the
empty string, and one whose price is the string `49.90`. -/
theorem price_rendered_iff_truthy_witness :
    (PriceValue.num (JSNum.ofNat 0)).truthy = false ∧
    productCard ⟨some "Bolso", some eightTenths, some "Moda",
        some (.num (JSNum.ofNat 0)), none⟩ =
      productCard ⟨some "Bolso", some eightTenths, some "Moda", none, none⟩ ∧
    productCard ⟨some "Bolso", some eightTenths, some "Moda", some (.str ""), none⟩ =
      productCard ⟨some "Bolso", some eightTenths, some "Moda", none, none⟩ ∧
    (productCard ⟨some "Bolso", some eightTenths, some "Moda", some (.str "49.90"),
      none⟩).price = some ("$" ++ (PriceValue.str "49.90").text) :=
  ⟨by decide,
    (price_rendered_iff_truthy ⟨some "Bolso", some eightTenths, some "Moda", none, none⟩).2.2.1
      (.num (JSNum.ofNat 0)) (by decide),
    (price_rendered_iff_truthy ⟨some "Bolso", some eightTenths, some "Moda", none, none⟩).2.2.1
      (.str "") (by decide),
    (price_rendered_iff_truthy
      ⟨some "Bolso", some eightTenths, some "Moda", some (.str "49.90"), none⟩).2.1
      (.str "49.90") rfl (by decide)⟩

/-! ### The feature list is a normal form (C29) -/

theorem splitChars_append_sep (sep : Char) (tail : List Char) :
    ∀ piece : List Char, sep ∉ piece →
      splitChars sep (piece ++ sep :: tail) = piece :: splitChars sep tail
  | [], _ => by simp [splitChars]
  | c :: cs, h => by
    have hc : c ≠ sep := fun e => h (by simp [e])
    have hcs : sep ∉ cs := fun e => h (List.mem_cons_of_mem _ e)
    simp [splitChars, hc, splitChars_append_sep sep tail cs hcs]

/-- Splitting what was joined gives the pieces back. -/
theorem splitChars_intercalate (sep : Char) :
    ∀ pieces : List (List Char), pieces ≠ [] → (∀ piece ∈ pieces, sep ∉ piece) →
      splitChars sep ([sep].intercalate pieces) = pieces
  | [], h, _ => absurd rfl h
  | [piece], _, hfree => by
    simpa [List.intercalate] using splitChars_of_not_mem sep piece (hfree piece (by simp))
  | piece :: next :: rest, _, hfree => by
    have ih := splitChars_intercalate sep (next :: rest) (by simp)
      (fun q hq => hfree q (List.mem_cons_of_mem _ hq))
    have hcat : [sep].intercalate (piece :: next :: rest) =
        piece ++ sep :: [sep].intercalate (next :: rest) := by
      simp [List.intercalate, List.intersperse]
    rw [hcat, splitChars_append_sep sep _ piece (hfree piece (by simp)), ih]

theorem dropWhile_append_of_all (p : Char → Bool) (rest : List Char) :
    ∀ w : List Char, (∀ c ∈ w, p c = true) → (w ++ rest).dropWhile p = rest.dropWhile p
  | [], _ => rfl
  | c :: w, h => by
    have hc : p c = true := h c (by simp)
    simp [List.dropWhile, hc,
      dropWhile_append_of_all p rest w (fun x hx => h x (List.mem_cons_of_mem _ hx))]

theorem dropWhile_append_of_exists (p : Char → Bool) (rest : List Char) :
    ∀ l : List Char, (∃ c ∈ l, p c = false) → (l ++ rest).dropWhile p = l.dropWhile p ++ rest
  | [], h => by
    obtain ⟨c, hc, _⟩ := h
    cases hc
  | a :: l, h => by
    by_cases ha : p a = true
    · have hl : ∃ c ∈ l, p c = false := by
        obtain ⟨c, hc, hpc⟩ := h
        rcases List.mem_cons.1 hc with rfl | hc
        · rw [ha] at hpc
          cases hpc
        · exact ⟨c, hc, hpc⟩
      simp [List.dropWhile, ha, dropWhile_append_of_exists p rest l hl]
    · simp [List.dropWhile, ha]

theorem trimChars_append_left (w cs : List Char) (hw : ∀ c ∈ w, isJsWhitespace c = true) :
    trimChars (w ++ cs) = trimChars cs := by
  unfold trimChars
  rw [dropWhile_append_of_all isJsWhitespace cs w hw]

theorem trimChars_append_right (cs w : List Char) (hw : ∀ c ∈ w, isJsWhitespace c = true) :
    trimChars (cs ++ w) = trimChars cs := by
  by_cases hall : ∀ c ∈ cs, isJsWhitespace c = true
  · rw [trimChars_eq_nil_of_all cs hall, trimChars_eq_nil_of_all]
    intro c hc
    rcases List.mem_append.1 hc with h | h
    · exact hall c h
    · exact hw c h
  · have hex : ∃ c ∈ cs, isJsWhitespace c = false := by
      by_contra hno
      apply hall
      intro c hc
      by_contra hcw
      exact hno ⟨c, hc, by simpa using hcw⟩
    unfold trimChars
    rw [dropWhile_append_of_exists isJsWhitespace w cs hex, List.reverse_append,
      dropWhile_append_of_all isJsWhitespace _ w.reverse (fun c hc => hw c (by simpa using hc))]

theorem trimChars_trimChars (cs : List Char) : trimChars (trimChars cs) = trimChars cs := by
  cases ht : trimChars cs with
  | nil => rfl
  | cons a t =>
    have hhead : isJsWhitespace a = false := trimChars_head cs a (by rw [ht]; rfl)
    have hne : a :: t ≠ [] := by simp
    have hlast : isJsWhitespace ((a :: t).getLast hne) = false :=
      trimChars_getLast cs _ (by rw [ht]; exact List.getLast?_eq_getLast _ hne)
    unfold trimChars
    have h1 : (a :: t).dropWhile isJsWhitespace = a :: t := by
      simp [List.dropWhile, hhead]
    rw [h1]
    have h2 : (a :: t).reverse.dropWhile isJsWhitespace = (a :: t).reverse := by
      cases hr : (a :: t).reverse with
      | nil => rfl
      | cons b r =>
        have hb : b = (a :: t).getLast hne := by
          have := List.head?_reverse (a :: t)
          rw [hr, List.getLast?_eq_getLast _ hne] at this
          simpa using this
        simp [List.dropWhile, hb, hlast]
    rw [h2, List.reverse_reverse]

/-- The feature list in terms of character lists. -/
theorem parseFeatures_eq_pieces (featuresInput : String) :
    parseFeatures featuresInput =
      (((splitChars ',' featuresInput.data).map trimChars).filter (fun t => t != [])).map
        String.mk := by
  rw [parseFeatures_eq]
  induction splitChars ',' featuresInput.data with
  | nil => rfl
  | cons piece pieces ih =>
    have hiff : (jsTrim (String.mk piece) != "") = (trimChars piece != []) := by
      cases ht : trimChars piece with
      | nil => simp [jsTrim, ht]
      | cons a t =>
        have hne : String.mk (a :: t) ≠ "" := by
          intro e
          have hd := congrArg String.data e
          simp at hd
        have h1 : (String.mk (a :: t) != "") = true := bne_iff_ne.2 hne
        have h2 : (a :: t != []) = true := bne_iff_ne.2 (by simp)
        simp only [jsTrim, ht]
        rw [h1, h2]
    simp only [List.map_cons, List.filter_cons, hiff]
    by_cases hp : (trimChars piece != []) = true
    · simp only [hp, if_true, List.map_cons, ih]
      rfl
    · simp only [hp, if_false, ih]
      rfl

/-- The feature list of a field given by its segments. -/
theorem parseFeatures_of_pieces (pieces : List (List Char))
    (hfree : ∀ piece ∈ pieces, ',' ∉ piece) :
    parseFeatures (String.mk ([','].intercalate pieces)) =
      ((pieces.map trimChars).filter (fun t => t != [])).map String.mk := by
  rw [parseFeatures_eq_pieces]
  cases pieces with
  | nil => decide
  | cons piece rest =>
    rw [splitChars_intercalate ',' (piece :: rest) (by simp) hfree]

theorem whitespace_ne_comma (w : List Char) (hw : ∀ c ∈ w, isJsWhitespace c = true) :
    ',' ∉ w := by
  intro h
  have := hw ',' h
  exact absurd this (by decide)

/-- C29. Parsing is a normal form: for every field `s`, the feature list of
the parsed list joined with commas is the parsed list.  With a field seen as
its segments joined by commas (every field is the join of the pieces of its
split), putting whitespace before and after a segment, or inserting a segment
that is empty or whitespace only, leaves the feature list as it is. -/
theorem parseFeatures_normal_form :
    (∀ s : String, parseFeatures (jsJoin ',' (parseFeatures s)) = parseFeatures s) ∧
    (∀ s : String, s = String.mk ([','].intercalate (splitChars ',' s.data)) ∧
      ∀ piece ∈ splitChars ',' s.data, ',' ∉ piece) ∧
    (∀ (before after : List (List Char)) (piece w1 w2 : List Char),
      (∀ q ∈ before ++ [piece] ++ after, ',' ∉ q) →
      (∀ c ∈ w1, isJsWhitespace c = true) → (∀ c ∈ w2, isJsWhitespace c = true) →
      parseFeatures (String.mk ([','].intercalate (before ++ [w1 ++ piece ++ w2] ++ after))) =
        parseFeatures (String.mk ([','].intercalate (before ++ [piece] ++ after)))) ∧
    (∀ (before after : List (List Char)) (blank : List Char),
      (∀ q ∈ before ++ after, ',' ∉ q) → (∀ c ∈ blank, isJsWhitespace c = true) →
      parseFeatures (String.mk ([','].intercalate (before ++ [blank] ++ after))) =
        parseFeatures (String.mk ([','].intercalate (before ++ after)))) := by
  refine ⟨?_, ?_, ?_, ?_⟩
  · intro s
    have hT : ∀ t ∈ ((splitChars ',' s.data).map trimChars).filter (fun t => t != []),
        ',' ∉ t ∧ trimChars t = t ∧ (t != []) = true := by
      intro t ht
      obtain ⟨hmem, hne⟩ := List.mem_filter.1 ht
      obtain ⟨piece, hpiece, rfl⟩ := List.mem_map.1 hmem
      exact ⟨fun hc => not_mem_of_mem_splitChars ',' s.data piece hpiece
          (trimChars_subset piece hc), trimChars_trimChars piece, hne⟩
    have hjoin : jsJoin ',' (parseFeatures s) =
        String.mk ([','].intercalate
          (((splitChars ',' s.data).map trimChars).filter (fun t => t != []))) := by
      rw [parseFeatures_eq_pieces]
      simp [jsJoin, List.map_map, Function.comp_def]
    rw [hjoin, parseFeatures_of_pieces _ (fun t ht => (hT t ht).1), parseFeatures_eq_pieces]
    congr 1
    have hmap : (((splitChars ',' s.data).map trimChars).filter (fun t => t != [])).map
        trimChars =
        ((splitChars ',' s.data).map trimChars).filter (fun t => t != []) := by
      conv_rhs => rw [← List.map_id
        (((splitChars ',' s.data).map trimChars).filter (fun t => t != []))]
      exact List.map_congr_left (fun t ht => (hT t ht).2.1)
    rw [hmap]
    exact List.filter_eq_self.2 (fun t ht => (hT t ht).2.2)
  · intro s
    exact ⟨by rw [intercalate_splitChars], not_mem_of_mem_splitChars ',' s.data⟩
  · intro before after piece w1 w2 hfree hw1 hw2
    have hfree' : ∀ q ∈ before ++ [w1 ++ piece ++ w2] ++ after, ',' ∉ q := by
      intro q hq
      simp only [List.mem_append, List.mem_singleton] at hq
      rcases hq with (hq | hq) | hq
      · exact hfree q (by simp [hq])
      · rw [hq]
        intro hc
        simp only [List.mem_append] at hc
        rcases hc with (hc | hc) | hc
        · exact whitespace_ne_comma w1 hw1 hc
        · exact hfree piece (by simp) hc
        · exact whitespace_ne_comma w2 hw2 hc
      · exact hfree q (by simp [hq])
    rw [parseFeatures_of_pieces _ hfree', parseFeatures_of_pieces _ hfree]
    simp [List.map_append, trimChars_append_right _ w2 hw2, trimChars_append_left w1 _ hw1]
  · intro before after blank hfree hblank
    have hfree' : ∀ q ∈ before ++ [blank] ++ after, ',' ∉ q := by
      intro q hq
      simp only [List.mem_append, List.mem_singleton] at hq
      rcases hq with (hq | hq) | hq
      · exact hfree q (by simp [hq])
      · rw [hq]
        exact whitespace_ne_comma blank hblank
      · exact hfree q (by simp [hq])
    rw [parseFeatures_of_pieces _ hfree', parseFeatures_of_pieces _ hfree]
    simp [List.map_append, List.filter_append, trimChars_eq_nil_of_all blank hblank]

/-- C29 at a field with blanks and empty segments. -/
theorem parseFeatures_normal_form_witness :
    parseFeatures " rojo, ,algodón  ,, talla M " = ["rojo", "algodón", "talla M"] ∧
    jsJoin ',' ["rojo", "algodón", "talla M"] = "rojo,algodón,talla M" ∧
    parseFeatures (jsJoin ',' (parseFeatures " rojo, ,algodón  ,, talla M ")) =
      parseFeatures " rojo, ,algodón  ,, talla M " ∧
    ((∀ q ∈ ["rojo".data] ++ ["algodón".data] ++ ["talla M".data], ',' ∉ q) ∧
      (∀ c ∈ " ".data, isJsWhitespace c = true) ∧ (∀ c ∈ "  ".data, isJsWhitespace c = true)) ∧
    parseFeatures (String.mk ([','].intercalate
        (["rojo".data] ++ [" ".data ++ "algodón".data ++ "  ".data] ++ ["talla M".data]))) =
      parseFeatures (String.mk ([','].intercalate
        (["rojo".data] ++ ["algodón".data] ++ ["talla M".data]))) :=
  ⟨by decide, by decide,
    parseFeatures_normal_form.1 " rojo, ,algodón  ,, talla M ",
    ⟨by decide, by decide, by decide⟩,
    parseFeatures_normal_form.2.2.1 ["rojo".data] ["talla M".data] "algodón".data " ".data
      "  ".data (by decide) (by decide) (by decide)⟩

end CompriAssist
